import Mathlib

/-!
# Miniob expression evaluation: a shallow embedding

Source embedded: `src/observer/sql/expr/expression.cpp`.

Conventions of the embedding

* A C++ out-parameter `Value &value` becomes an argument (its content before the call)
  and a component of the result (its content after the call).
* `RC` results are returned next to the out-parameter.
* `get_value` returns an `Option`: `none` stands for undefined behaviour (the null
  pointer dereference of `right_` in `ArithmeticExpr::get_value`).
* C++ `int` is 32 bit and `i_val_` is a 64 bit integer; both are modelled by `Int` with
  explicit two's complement wrapping (`wrap_int32`, `wrap_int64`).
* `float` and `double` are the abstract types `F` and `D`; their operations, and the parts
  of the `Value` class the specification leaves open, are the fields of `ValueOps`.
-/

namespace Miniob

/-! ## Shared types (declared in headers outside `expression.cpp`) -/

/-- Modelled from the spec: the result codes `RC` (declared in a header outside the
sources) used by the expression subsystem and the plan generator; `NOTFOUND` and `OTHER`
stand for the codes a tuple may report from `find_cell`. -/
inductive RC where
  | SUCCESS
  | INTERNAL
  | INVALID_ARGUMENT
  | UNIMPLENMENT
  | GROUP_BY_SELECT_INVALID
  | NOTFOUND
  | OTHER (code : Nat)
  deriving DecidableEq, Repr

/-- Modelled from the spec: the enumeration `AttrType` of value kinds, as listed in the
glossary. -/
inductive AttrType where
  | UNDEFINED
  | NULLS
  | INTS
  | FLOATS
  | BOOLEANS
  | CHARS
  deriving DecidableEq, Repr

/-- Modelled from the spec: the enumeration `CompOp` of the comparison operators
`=  <=  !=  <  >=  >  IS  IS_NOT`. -/
inductive CompOp where
  | EQUAL_TO
  | LESS_EQUAL
  | NOT_EQUAL
  | LESS_THAN
  | GREAT_EQUAL
  | GREAT_THAN
  | IS
  | IS_NOT
  deriving DecidableEq, Repr

/-- Modelled from the spec: the enumeration `ConjunctionExpr::Type`. -/
inductive ConjunctionType where
  | AND
  | OR
  deriving DecidableEq, Repr

/-- Modelled from the spec: the enumeration `ArithmeticExpr::Type`. -/
inductive ArithmeticType where
  | ADD
  | SUB
  | MUL
  | DIV
  | NEGATIVE
  deriving DecidableEq, Repr

/-- Modelled from the spec: the enumeration `AggrFuncType`. -/
inductive AggrFuncType where
  | MAX_AGGR_T
  | MIN_AGGR_T
  | SUM_AGGR_T
  | AVG_AGGR_T
  | COUNT_AGGR_T
  deriving DecidableEq, Repr

/-- Modelled from the spec: the enumeration `ExprType` returned by `Expression::type()`,
one tag per node class. -/
inductive ExprType where
  | FIELD
  | VALUE
  | CAST
  | COMPARISON
  | CONJUNCTION
  | ARITHMETIC
  | AGGREGATION
  deriving DecidableEq, Repr

/-- Modelled from the spec: the `Value` class (its header is not part of the sources), a
union tagged by `AttrType`; `undefined` is the default constructed `Value()` and `nulls`
is `Value(NULLS)`. -/
inductive Value (F : Type) where
  | undefined
  | nulls
  | int (n : Int)
  | float (x : F)
  | bool (b : Bool)
  | chars (s : String)
  deriving DecidableEq, Repr

/-- Modelled from the spec: the `Field` descriptor with `table_name()`, `field_name()`
and `attr_type()`. -/
structure Field where
  table_name : String
  field_name : String
  attr_type : AttrType
  deriving DecidableEq, Repr

/-- Modelled from the spec: the locator of a column within a tuple, optionally with a
display alias. -/
structure TupleCellSpec where
  table_name : String
  field_name : String
  alias_ : Option String
  deriving DecidableEq, Repr

/-- Modelled from the spec: the `Tuple` interface, `find_cell(spec, out value) -> RC`. The
function receives the content of the out-parameter before the call and returns the code
together with its content after the call. -/
structure Tuple (F : Type) where
  find_cell : TupleCellSpec → Value F → RC × Value F

/-- Operations the sources use but do not define: arithmetic and comparison of `float`
(`F`) and `double` (`D`), the `EPSILON` test, and the behaviour of the `Value` accessors
outside the cases fixed by the specification. -/
structure ValueOps (F D : Type) where
  /-- Conversion `(float)n` of an integer. -/
  i2f : Int → F
  /-- Sum `a + b` of two floats. -/
  fadd : F → F → F
  /-- Difference `a - b` of two floats. -/
  fsub : F → F → F
  /-- Product `a * b` of two floats. -/
  fmul : F → F → F
  /-- Quotient `a / b` of two floats. -/
  fdiv : F → F → F
  /-- Negation `-a` of a float. -/
  fneg : F → F
  /-- Comparison of two floats, negative, zero or positive. -/
  fcmp : F → F → Int
  /-- The test `x > -EPSILON && x < EPSILON`. -/
  near_zero : F → Bool
  /-- The constant `numeric_limits<float>::max()`. -/
  flt_max : F
  /-- Result of `get_boolean()` on a `FLOATS` value (non-zero test). -/
  f_nonzero : F → Bool
  /-- Result of `get_int()` on a value that is not of type `INTS`. -/
  int_of : Value F → Int
  /-- Result of `get_float()` on a value that is neither `INTS` nor `FLOATS`. -/
  float_of : Value F → F
  /-- Result of `get_boolean()` on a value that is not `INTS`, `FLOATS` or `BOOLEANS`. -/
  bool_of : Value F → Bool
  /-- Result of `compare` on operands for which the specification fixes nothing. -/
  cmp_other : Value F → Value F → Int
  /-- Conversion `(double)x` of a float. -/
  widen : F → D
  /-- Conversion `(float)x` of a double. -/
  narrow : D → F
  /-- Conversion `(double)n` of an integer. -/
  i2d : Int → D
  /-- Sum `a + b` of two doubles. -/
  dadd : D → D → D
  /-- Quotient `a / b` of two doubles. -/
  ddiv : D → D → D
  /-- Code returned by `try_get_value` of a node class that does not override it. -/
  base_try_rc : RC

/-- Two's complement reduction of an integer to the range of a 32 bit `int`. -/
def wrap_int32 (x : Int) : Int := (x + 2147483648) % 4294967296 - 2147483648

/-- Two's complement reduction of an integer to the range of a 64 bit integer. -/
def wrap_int64 (x : Int) : Int :=
  (x + 9223372036854775808) % 18446744073709551616 - 9223372036854775808

/-- The constant `numeric_limits<int>::max()`. -/
def INT_MAX : Int := 2147483647

/-- The constant `numeric_limits<int>::min()`. -/
def INT_MIN : Int := -2147483648

namespace Value

variable {F D : Type}

/-- Modelled from the spec: the tag `Value::attr_type()` of a value. -/
def attr_type : Value F → AttrType
  | undefined => AttrType.UNDEFINED
  | nulls => AttrType.NULLS
  | int _ => AttrType.INTS
  | float _ => AttrType.FLOATS
  | bool _ => AttrType.BOOLEANS
  | chars _ => AttrType.CHARS

/-- Modelled from the spec: the assignment `set_int(n)`, after which the value is the
`INTS` value `n`. -/
def set_int (_v : Value F) (n : Int) : Value F := int n

/-- Modelled from the spec: the assignment `set_float(x)`, after which the value is the
`FLOATS` value `x`. -/
def set_float (_v : Value F) (x : F) : Value F := float x

/-- Modelled from the spec: the assignment `set_boolean(b)`, after which the value is the
`BOOLEANS` value `b`. -/
def set_boolean (_v : Value F) (b : Bool) : Value F := bool b

/-- Modelled from the spec: the typed accessor `get_int()`; on an `INTS` value it is the
stored integer ("INT path uses `get_int()`"). -/
def get_int (ops : ValueOps F D) : Value F → Int
  | int n => n
  | v => ops.int_of v

/-- Modelled from the spec: the typed accessor `get_float()`, with the implicit promotion
of an integer operand. -/
def get_float (ops : ValueOps F D) : Value F → F
  | float x => x
  | int n => ops.i2f n
  | v => ops.float_of v

/-- Modelled from the spec: the typed accessor `get_boolean()` (INT: non-zero, FLOAT:
non-zero, BOOL: itself). -/
def get_boolean (ops : ValueOps F D) : Value F → Bool
  | bool b => b
  | int n => decide (n ≠ 0)
  | float x => ops.f_nonzero x
  | v => ops.bool_of v

/-- Sign of the comparison of two integers. -/
def compare_int (a b : Int) : Int := if a < b then -1 else if a = b then 0 else 1

/-- Modelled from the spec: `Value::compare`, total for two values of the same non-null
type and promoting to FLOAT when both operands are numeric. -/
def compare (ops : ValueOps F D) : Value F → Value F → Int
  | int a, int b => compare_int a b
  | float a, float b => ops.fcmp a b
  | int a, float b => ops.fcmp (ops.i2f a) b
  | float a, int b => ops.fcmp a (ops.i2f b)
  | a, b => ops.cmp_other a b

end Value

/-! ## The expression tree -/

/-- The members of an `AggregationExpr` that its constructor fixes (the class is declared
in the header; the members are those the sources assign). -/
structure AggregationExpr where
  aggr_type_ : AggrFuncType
  field_ : Field
  attr_type_ : AttrType
  deriving DecidableEq, Repr

/-- The mutable accumulators of an `AggregationExpr`: `i_val_` is a 64 bit integer and
`f_val_` a double, as in the data model of the specification. -/
structure AggrState (F D : Type) where
  i_val_ : Int
  f_val_ : D
  value_ : Value F
  has_record : Bool

/-- The constructor `AggregationExpr(Field field, AggrFuncType aggr_type)`: the result
type is the field type for MAX, MIN and SUM, `FLOATS` for AVG and `INTS` for COUNT. -/
def AggregationExpr.new (field : Field) (aggr_type : AggrFuncType) : AggregationExpr :=
  match aggr_type with
  | AggrFuncType.MAX_AGGR_T => ⟨aggr_type, field, field.attr_type⟩
  | AggrFuncType.MIN_AGGR_T => ⟨aggr_type, field, field.attr_type⟩
  | AggrFuncType.SUM_AGGR_T => ⟨aggr_type, field, field.attr_type⟩
  | AggrFuncType.AVG_AGGR_T => ⟨aggr_type, field, AttrType.FLOATS⟩
  | AggrFuncType.COUNT_AGGR_T => ⟨aggr_type, field, AttrType.INTS⟩

/-- Expression nodes. The right operand of an arithmetic node may be absent (a null
`right_`), the children of a conjunction are ordered. -/
inductive Expression (F : Type) where
  | FieldExpr (field : Field)
  | ValueExpr (value_ : Value F)
  | CastExpr (child_ : Expression F) (cast_type_ : AttrType)
  | ComparisonExpr (comp_ : CompOp) (left_ right_ : Expression F)
  | ConjunctionExpr (conjunction_type_ : ConjunctionType) (children_ : List (Expression F))
  | ArithmeticExpr (arithmetic_type_ : ArithmeticType) (left_ : Expression F)
      (right_ : Option (Expression F))
  | AggregationExpr (aggr : AggregationExpr)

/-- Modelled from the spec: `FieldExpr::value_type()`, the declared type of the field. -/
@[simp] def FieldExpr.value_type (field : Field) : AttrType := field.attr_type

/-- Modelled from the spec: `ValueExpr::value_type()`, the type of the literal. -/
@[simp] def ValueExpr.value_type {F : Type} (value_ : Value F) : AttrType := value_.attr_type

/-- Modelled from the spec: `CastExpr::value_type()`, the target type of the cast. -/
@[simp] def CastExpr.value_type (cast_type_ : AttrType) : AttrType := cast_type_

/-- Modelled from the spec: `ComparisonExpr::value_type()`; a comparison is surfaced as a
boolean. -/
@[simp] def ComparisonExpr.value_type : AttrType := AttrType.BOOLEANS

/-- Modelled from the spec: `ConjunctionExpr::value_type()`; the result of a conjunction
is `BOOLEANS`. -/
@[simp] def ConjunctionExpr.value_type : AttrType := AttrType.BOOLEANS

/-- Modelled from the spec: `AggregationExpr::value_type()`, the static result type
`attr_type_` chosen by the constructor. -/
@[simp] def AggregationExpr.value_type (aggr : AggregationExpr) : AttrType := aggr.attr_type_

/-- Modelled from the spec: `FieldExpr::try_get_value`, which fails with
`INVALID_ARGUMENT` because a field needs a tuple. -/
@[simp] def FieldExpr.try_get_value {F : Type} (value : Value F) : RC × Value F :=
  (RC.INVALID_ARGUMENT, value)

/-- Modelled from the spec: `ValueExpr::try_get_value`, which returns the literal and
succeeds. -/
@[simp] def ValueExpr.try_get_value {F : Type} (value_ : Value F) (_value : Value F) :
    RC × Value F :=
  (RC.SUCCESS, value_)

/-- The function `try_get_value` of `ConjunctionExpr`, which the sources do not override:
the code of the base class, with the output untouched. -/
@[simp] def ConjunctionExpr.try_get_value {F D : Type} (ops : ValueOps F D) (value : Value F) :
    RC × Value F :=
  (ops.base_try_rc, value)

namespace Expression

variable {F D : Type}

/-- Modelled from the spec: the tag `type()` of a node. -/
def type : Expression F → ExprType
  | FieldExpr _ => ExprType.FIELD
  | ValueExpr _ => ExprType.VALUE
  | CastExpr _ _ => ExprType.CAST
  | ComparisonExpr _ _ _ => ExprType.COMPARISON
  | ConjunctionExpr _ _ => ExprType.CONJUNCTION
  | ArithmeticExpr _ _ _ => ExprType.ARITHMETIC
  | AggregationExpr _ => ExprType.AGGREGATION

/-- The virtual function `value_type()`. The two arithmetic cases are
`ArithmeticExpr::value_type` of the sources; the other node classes define it in the
header and use the functions modelled above. -/
def value_type : Expression F → AttrType
  | FieldExpr field => FieldExpr.value_type field
  | ValueExpr value_ => ValueExpr.value_type value_
  | CastExpr _ cast_type_ => CastExpr.value_type cast_type_
  | ComparisonExpr _ _ _ => ComparisonExpr.value_type
  | ConjunctionExpr _ _ => ConjunctionExpr.value_type
  | ArithmeticExpr _ left_ none => value_type left_
  | ArithmeticExpr arithmetic_type_ left_ (some right_) =>
    if value_type left_ = AttrType.INTS ∧ value_type right_ = AttrType.INTS ∧
        arithmetic_type_ ≠ ArithmeticType.DIV then
      AttrType.INTS
    else
      AttrType.FLOATS
  | AggregationExpr aggr => AggregationExpr.value_type aggr

end Expression

/-- The two argument constructor `TupleCellSpec(table_name, field_name)`. -/
def TupleCellSpec.of_names (table_name field_name : String) : TupleCellSpec :=
  ⟨table_name, field_name, none⟩

/-- Modelled from the spec: the three argument constructor
`TupleCellSpec(table_name, field_name, alias)` with a display alias. -/
def TupleCellSpec.with_alias (table_name field_name alias_ : String) : TupleCellSpec :=
  ⟨table_name, field_name, some alias_⟩

/-- The function `FieldExpr::get_value`: the lookup of the field's cell in the tuple. -/
def FieldExpr.get_value {F : Type} (field : Field) (tuple : Tuple F) (value : Value F) :
    RC × Value F :=
  tuple.find_cell (TupleCellSpec.of_names field.table_name field.field_name) value

/-- The function `CastExpr::cast`, for a cast node with target type `cast_type_`. -/
def CastExpr.cast {F D : Type} (ops : ValueOps F D) (cast_type_ : AttrType)
    (value : Value F) (cast_value : Value F) : RC × Value F :=
  if cast_type_ = value.attr_type then
    (RC.SUCCESS, value)
  else
    match cast_type_ with
    | AttrType.BOOLEANS => (RC.SUCCESS, cast_value.set_boolean (value.get_boolean ops))
    | _ => (RC.INTERNAL, cast_value)

/-- The function `ComparisonExpr::compare_value`, returning the code and the content of
the out-parameter `result` (which the function first sets to `false`). -/
def ComparisonExpr.compare_value {F D : Type} (ops : ValueOps F D) (comp_ : CompOp)
    (left right : Value F) : RC × Bool :=
  if right.attr_type = AttrType.NULLS then
    if comp_ = CompOp.IS then
      (RC.SUCCESS, decide (left.attr_type = AttrType.NULLS))
    else if comp_ = CompOp.IS_NOT then
      (RC.SUCCESS, decide (left.attr_type ≠ AttrType.NULLS))
    else
      (RC.SUCCESS, false)
  else
    let cmp_result := left.compare ops right
    match comp_ with
    | CompOp.EQUAL_TO => (RC.SUCCESS, decide (0 = cmp_result))
    | CompOp.LESS_EQUAL => (RC.SUCCESS, decide (cmp_result ≤ 0))
    | CompOp.NOT_EQUAL => (RC.SUCCESS, decide (cmp_result ≠ 0))
    | CompOp.LESS_THAN => (RC.SUCCESS, decide (cmp_result < 0))
    | CompOp.GREAT_EQUAL => (RC.SUCCESS, decide (cmp_result ≥ 0))
    | CompOp.GREAT_THAN => (RC.SUCCESS, decide (cmp_result > 0))
    | _ => (RC.INTERNAL, false)

/-- The function `ArithmeticExpr::calc_value`; `target_type` is the node's
`value_type()`. Integer results are reduced to 32 bits. -/
def ArithmeticExpr.calc_value {F D : Type} (ops : ValueOps F D)
    (arithmetic_type_ : ArithmeticType) (target_type : AttrType)
    (left_value right_value : Value F) (value : Value F) : RC × Value F :=
  match arithmetic_type_ with
  | ArithmeticType.ADD =>
    if target_type = AttrType.INTS then
      (RC.SUCCESS, value.set_int (wrap_int32 (left_value.get_int ops + right_value.get_int ops)))
    else
      (RC.SUCCESS, value.set_float (ops.fadd (left_value.get_float ops) (right_value.get_float ops)))
  | ArithmeticType.SUB =>
    if target_type = AttrType.INTS then
      (RC.SUCCESS, value.set_int (wrap_int32 (left_value.get_int ops - right_value.get_int ops)))
    else
      (RC.SUCCESS, value.set_float (ops.fsub (left_value.get_float ops) (right_value.get_float ops)))
  | ArithmeticType.MUL =>
    if target_type = AttrType.INTS then
      (RC.SUCCESS, value.set_int (wrap_int32 (left_value.get_int ops * right_value.get_int ops)))
    else
      (RC.SUCCESS, value.set_float (ops.fmul (left_value.get_float ops) (right_value.get_float ops)))
  | ArithmeticType.DIV =>
    if target_type = AttrType.INTS then
      if right_value.get_int ops = 0 then
        (RC.SUCCESS, value.set_int INT_MAX)
      else
        (RC.SUCCESS,
          value.set_int (wrap_int32 (Int.tdiv (left_value.get_int ops) (right_value.get_int ops))))
    else
      if ops.near_zero (right_value.get_float ops) then
        (RC.SUCCESS, value.set_float ops.flt_max)
      else
        (RC.SUCCESS, value.set_float (ops.fdiv (left_value.get_float ops) (right_value.get_float ops)))
  | ArithmeticType.NEGATIVE =>
    if target_type = AttrType.INTS then
      (RC.SUCCESS, value.set_int (wrap_int32 (-(left_value.get_int ops))))
    else
      (RC.SUCCESS, value.set_float (ops.fneg (left_value.get_float ops)))

namespace Expression

variable {F D : Type}

mutual
/-- The virtual function `get_value(tuple, value)`, by node class: `FieldExpr`,
`ValueExpr`, `CastExpr`, `ComparisonExpr`, `ConjunctionExpr`, `ArithmeticExpr` and
`AggregationExpr`. The result `none` is the dereference of a null `right_`, reached in
`ArithmeticExpr::get_value` once the left operand has been evaluated with success. -/
def get_value (ops : ValueOps F D) : Expression F → Tuple F → Value F → Option (RC × Value F)
  | FieldExpr field, tuple, value => some (FieldExpr.get_value field tuple value)
  | ValueExpr value_, _, _ => some (RC.SUCCESS, value_)
  | CastExpr child_ cast_type_, tuple, cell =>
    match get_value ops child_ tuple cell with
    | none => none
    | some (rc, cell1) =>
      if rc ≠ RC.SUCCESS then some (rc, cell1) else some (CastExpr.cast ops cast_type_ cell1 cell1)
  | ComparisonExpr comp_ left_ right_, tuple, value =>
    match get_value ops left_ tuple Value.undefined with
    | none => none
    | some (rc, left_value) =>
      if rc ≠ RC.SUCCESS then some (rc, value)
      else
        match get_value ops right_ tuple Value.undefined with
        | none => none
        | some (rc, right_value) =>
          if rc ≠ RC.SUCCESS then some (rc, value)
          else
            match ComparisonExpr.compare_value ops comp_ left_value right_value with
            | (rc, bool_value) =>
              if rc = RC.SUCCESS then some (rc, value.set_boolean bool_value) else some (rc, value)
  | ConjunctionExpr conjunction_type_ children_, tuple, value =>
    if children_.isEmpty then some (RC.SUCCESS, value.set_boolean true)
    else get_value_children ops conjunction_type_ children_ tuple Value.undefined value
  | ArithmeticExpr arithmetic_type_ left_ (some right_), tuple, value =>
    match get_value ops left_ tuple Value.undefined with
    | none => none
    | some (rc, left_value) =>
      if rc ≠ RC.SUCCESS then some (rc, value)
      else
        match get_value ops right_ tuple Value.undefined with
        | none => none
        | some (rc, right_value) =>
          if rc ≠ RC.SUCCESS then some (rc, value)
          else
            some (ArithmeticExpr.calc_value ops arithmetic_type_
              (value_type (ArithmeticExpr arithmetic_type_ left_ (some right_)))
              left_value right_value value)
  | ArithmeticExpr _ left_ none, tuple, value =>
    match get_value ops left_ tuple Value.undefined with
    | none => none
    | some (rc, _) => if rc ≠ RC.SUCCESS then some (rc, value) else none
  | AggregationExpr _, _, value => some (RC.SUCCESS, value)
/-- The loop of `ConjunctionExpr::get_value` over the children that remain; `tmp_value`
is the local that every child writes to. -/
def get_value_children (ops : ValueOps F D) (conjunction_type_ : ConjunctionType) :
    List (Expression F) → Tuple F → Value F → Value F → Option (RC × Value F)
  | [], _, _, value =>
    some (RC.SUCCESS, value.set_boolean (decide (conjunction_type_ = ConjunctionType.AND)))
  | expr :: rest, tuple, tmp_value, value =>
    match get_value ops expr tuple tmp_value with
    | none => none
    | some (rc, tmp_value1) =>
      if rc ≠ RC.SUCCESS then some (rc, value)
      else
        if (conjunction_type_ = ConjunctionType.AND ∧ tmp_value1.get_boolean ops = false) ∨
            (conjunction_type_ = ConjunctionType.OR ∧ tmp_value1.get_boolean ops = true) then
          some (rc, value.set_boolean (tmp_value1.get_boolean ops))
        else
          get_value_children ops conjunction_type_ rest tuple tmp_value1 value
end

/-- Reading of "the children all succeed without an absorbing value": the children are
evaluated in order, each writing to the local `tmp_value` left by the one before it; the
result is the final content of `tmp_value` when every child returns `SUCCESS` with the
boolean `true` (AND) or `false` (OR), and `none` otherwise. -/
def non_absorbing (ops : ValueOps F D) (conjunction_type_ : ConjunctionType)
    (tuple : Tuple F) : List (Expression F) → Value F → Option (Value F)
  | [], tmp_value => some tmp_value
  | expr :: rest, tmp_value =>
    match get_value ops expr tuple tmp_value with
    | some (RC.SUCCESS, tmp_value1) =>
      if tmp_value1.get_boolean ops = decide (conjunction_type_ = ConjunctionType.AND) then
        non_absorbing ops conjunction_type_ tuple rest tmp_value1
      else none
    | _ => none

/-- The number of children on which the loop of `ConjunctionExpr::get_value` calls
`get_value` before it returns: the loop stops after the first child that fails, is
undefined, or yields the absorbing value. -/
def children_evaluated (ops : ValueOps F D) (conjunction_type_ : ConjunctionType)
    (tuple : Tuple F) : List (Expression F) → Value F → Nat
  | [], _ => 0
  | expr :: rest, tmp_value =>
    match get_value ops expr tuple tmp_value with
    | none => 1
    | some (rc, tmp_value1) =>
      if rc ≠ RC.SUCCESS then 1
      else
        if (conjunction_type_ = ConjunctionType.AND ∧ tmp_value1.get_boolean ops = false) ∨
            (conjunction_type_ = ConjunctionType.OR ∧ tmp_value1.get_boolean ops = true) then
          1
        else
          1 + children_evaluated ops conjunction_type_ tuple rest tmp_value1

mutual
/-- Whether a `FieldExpr` occurs in the tree; an `AggregationExpr` counts, as it owns the
inner `field_expr_`. -/
def contains_field_expr : Expression F → Bool
  | FieldExpr _ => true
  | ValueExpr _ => false
  | CastExpr child_ _ => contains_field_expr child_
  | ComparisonExpr _ left_ right_ => contains_field_expr left_ || contains_field_expr right_
  | ConjunctionExpr _ children_ => contains_field_expr_list children_
  | ArithmeticExpr _ left_ none => contains_field_expr left_
  | ArithmeticExpr _ left_ (some right_) => contains_field_expr left_ || contains_field_expr right_
  | AggregationExpr _ => true
/-- Whether a `FieldExpr` occurs in one of the trees of a list. -/
def contains_field_expr_list : List (Expression F) → Bool
  | [] => false
  | expr :: rest => contains_field_expr expr || contains_field_expr_list rest
end

/-- Whether every node of the tree is an `ArithmeticExpr`, a `ValueExpr` or a
`FieldExpr`. -/
def arithmetic_only : Expression F → Bool
  | FieldExpr _ => true
  | ValueExpr _ => true
  | ArithmeticExpr _ left_ none => arithmetic_only left_
  | ArithmeticExpr _ left_ (some right_) => arithmetic_only left_ && arithmetic_only right_
  | _ => false

/-- Whether the tree is a constant arithmetic expression: every leaf is a `ValueExpr` and
every inner node an `ArithmeticExpr`, with or without a right operand. -/
def literal_arithmetic : Expression F → Bool
  | ValueExpr _ => true
  | ArithmeticExpr _ left_ none => literal_arithmetic left_
  | ArithmeticExpr _ left_ (some right_) => literal_arithmetic left_ && literal_arithmetic right_
  | _ => false

/-- Whether an `ArithmeticExpr` without a right operand (a null `right_`) occurs among the
arithmetic nodes of the tree. -/
def contains_unary : Expression F → Bool
  | ArithmeticExpr _ _ none => true
  | ArithmeticExpr _ left_ (some right_) => contains_unary left_ || contains_unary right_
  | _ => false

/-- The virtual function `try_get_value(value)`. `CastExpr`, `ComparisonExpr`,
`ArithmeticExpr` and `AggregationExpr` are the functions of the sources; `FieldExpr`,
`ValueExpr` and `ConjunctionExpr` use the functions modelled above. In the arithmetic case
an absent `right_` leaves the local `right_value` default constructed. -/
def try_get_value (ops : ValueOps F D) : Expression F → Value F → RC × Value F
  | FieldExpr _, value => FieldExpr.try_get_value value
  | ValueExpr value_, value => ValueExpr.try_get_value value_ value
  | CastExpr child_ cast_type_, value =>
    match try_get_value ops child_ value with
    | (rc, value1) =>
      if rc ≠ RC.SUCCESS then (rc, value1) else CastExpr.cast ops cast_type_ value1 value1
  | ComparisonExpr comp_ left_ right_, cell =>
    match left_, right_ with
    | ValueExpr left_cell, ValueExpr right_cell =>
      match ComparisonExpr.compare_value ops comp_ left_cell right_cell with
      | (rc, value) =>
        if rc ≠ RC.SUCCESS then (rc, cell) else (rc, cell.set_boolean value)
    | _, _ => (RC.INVALID_ARGUMENT, cell)
  | ConjunctionExpr _ _, value => ConjunctionExpr.try_get_value ops value
  | ArithmeticExpr arithmetic_type_ left_ (some right_), value =>
    match try_get_value ops left_ Value.undefined with
    | (rc, left_value) =>
      if rc ≠ RC.SUCCESS then (rc, value)
      else
        match try_get_value ops right_ Value.undefined with
        | (rc, right_value) =>
          if rc ≠ RC.SUCCESS then (rc, value)
          else
            ArithmeticExpr.calc_value ops arithmetic_type_
              (value_type (ArithmeticExpr arithmetic_type_ left_ (some right_)))
              left_value right_value value
  | ArithmeticExpr arithmetic_type_ left_ none, value =>
    match try_get_value ops left_ Value.undefined with
    | (rc, left_value) =>
      if rc ≠ RC.SUCCESS then (rc, value)
      else
        ArithmeticExpr.calc_value ops arithmetic_type_
          (value_type (ArithmeticExpr arithmetic_type_ left_ none))
          left_value Value.undefined value
  | AggregationExpr _, value => (RC.SUCCESS, value)

end Expression

/-! ## The aggregation state machine -/

namespace AggregationExpr

variable {F D : Type}

/-- The function `AggregationExpr::cell_spec`: the alias is built by appending, in this
order, the name of the function with an opening bracket, the table name when
`with_table_name` holds, the field name and the closing bracket. The `default` branch
(`ERR_FUNC_TYPE(`) is for kinds outside the five of the enumeration. -/
def cell_spec (a : AggregationExpr) (with_table_name : Bool) : TupleCellSpec :=
  let alias0 : String :=
    match a.aggr_type_ with
    | AggrFuncType.MAX_AGGR_T => "" ++ "MAX("
    | AggrFuncType.MIN_AGGR_T => "" ++ "MIN("
    | AggrFuncType.COUNT_AGGR_T => "" ++ "COUNT("
    | AggrFuncType.SUM_AGGR_T => "" ++ "SUM("
    | AggrFuncType.AVG_AGGR_T => "" ++ "AVG("
  let alias1 : String := if with_table_name then alias0 ++ a.field_.table_name else alias0
  let alias2 : String := alias1 ++ a.field_.field_name
  let alias3 : String := alias2 ++ ")"
  TupleCellSpec.with_alias a.field_.table_name a.field_.field_name alias3

/-- The function `AggregationExpr::begin_aggr`. -/
def begin_aggr (ops : ValueOps F D) (_s : AggrState F D) : RC × AggrState F D :=
  (RC.SUCCESS, ⟨0, ops.i2d 0, Value.undefined, false⟩)

/-- The function `AggregationExpr::max_aggr_func`. -/
def max_aggr_func (ops : ValueOps F D) (s : AggrState F D) (value : Value F) :
    RC × AggrState F D :=
  if s.value_.attr_type = AttrType.UNDEFINED then
    (RC.SUCCESS, { s with value_ := value })
  else
    let rt := s.value_.compare ops value
    if rt < 0 then (RC.SUCCESS, { s with value_ := value }) else (RC.SUCCESS, s)

/-- The function `AggregationExpr::min_aggr_func`. -/
def min_aggr_func (ops : ValueOps F D) (s : AggrState F D) (value : Value F) :
    RC × AggrState F D :=
  if s.value_.attr_type = AttrType.UNDEFINED then
    (RC.SUCCESS, { s with value_ := value })
  else
    let rt := s.value_.compare ops value
    if rt > 0 then (RC.SUCCESS, { s with value_ := value }) else (RC.SUCCESS, s)

/-- The function `AggregationExpr::sum_aggr_func`. -/
def sum_aggr_func (ops : ValueOps F D) (a : AggregationExpr) (s : AggrState F D)
    (value : Value F) : RC × AggrState F D :=
  match a.attr_type_ with
  | AttrType.INTS => (RC.SUCCESS, { s with i_val_ := wrap_int64 (s.i_val_ + value.get_int ops) })
  | AttrType.FLOATS =>
    (RC.SUCCESS, { s with f_val_ := ops.dadd s.f_val_ (ops.widen (value.get_float ops)) })
  | _ => (RC.INTERNAL, s)

/-- The function `AggregationExpr::avg_aggr_func`. -/
def avg_aggr_func (ops : ValueOps F D) (a : AggregationExpr) (s : AggrState F D)
    (value : Value F) : RC × AggrState F D :=
  match a.attr_type_ with
  | AttrType.INTS =>
    (RC.SUCCESS,
      { s with
        f_val_ := ops.dadd s.f_val_ (ops.widen (ops.i2f (value.get_int ops)))
        i_val_ := wrap_int64 (s.i_val_ + 1) })
  | AttrType.FLOATS =>
    (RC.SUCCESS,
      { s with
        f_val_ := ops.dadd s.f_val_ (ops.widen (value.get_float ops))
        i_val_ := wrap_int64 (s.i_val_ + 1) })
  | _ => (RC.INTERNAL, s)

/-- The function `AggregationExpr::count_aggr_func`. -/
def count_aggr_func (s : AggrState F D) (_value : Value F) : RC × AggrState F D :=
  (RC.SUCCESS, { s with i_val_ := wrap_int64 (s.i_val_ + 1) })

/-- The call `(this->*aggr_func_)(value)`: the constructor binds `aggr_func_` to the
accumulator of the kind `aggr_type_`. -/
def aggr_func_ (ops : ValueOps F D) (a : AggregationExpr) (s : AggrState F D)
    (value : Value F) : RC × AggrState F D :=
  match a.aggr_type_ with
  | AggrFuncType.MAX_AGGR_T => max_aggr_func ops s value
  | AggrFuncType.MIN_AGGR_T => min_aggr_func ops s value
  | AggrFuncType.SUM_AGGR_T => sum_aggr_func ops a s value
  | AggrFuncType.AVG_AGGR_T => avg_aggr_func ops a s value
  | AggrFuncType.COUNT_AGGR_T => count_aggr_func s value

/-- The value that `aggr_tuple` reads: the content of the local `value` after
`field_expr_->get_value(*tuple, value)`, whose return code the function drops. -/
def field_value (field_ : Field) (tuple : Tuple F) : Value F :=
  (FieldExpr.get_value field_ tuple Value.undefined).2

/-- The function `AggregationExpr::aggr_tuple`. -/
def aggr_tuple (ops : ValueOps F D) (a : AggregationExpr) (s : AggrState F D)
    (tuple : Tuple F) : RC × AggrState F D :=
  let value := field_value a.field_ tuple
  if value.attr_type ≠ AttrType.NULLS then
    aggr_func_ ops a { s with has_record := true } value
  else
    (RC.SUCCESS, s)

/-- The function `AggregationExpr::get_result`. -/
def get_result (ops : ValueOps F D) (a : AggregationExpr) (s : AggrState F D)
    (_value : Value F) : RC × Value F :=
  if s.has_record then
    match a.aggr_type_ with
    | AggrFuncType.MAX_AGGR_T => (RC.SUCCESS, s.value_)
    | AggrFuncType.MIN_AGGR_T => (RC.SUCCESS, s.value_)
    | AggrFuncType.COUNT_AGGR_T => (RC.SUCCESS, Value.int (wrap_int32 s.i_val_))
    | AggrFuncType.SUM_AGGR_T =>
      if a.attr_type_ = AttrType.INTS then
        (RC.SUCCESS, Value.int (wrap_int32 s.i_val_))
      else
        (RC.SUCCESS, Value.float (ops.narrow s.f_val_))
    | AggrFuncType.AVG_AGGR_T =>
      if s.i_val_ = 0 then
        (RC.SUCCESS, Value.float (ops.i2f 0))
      else
        (RC.SUCCESS, Value.float (ops.narrow (ops.ddiv s.f_val_ (ops.i2d s.i_val_))))
  else
    if a.aggr_type_ = AggrFuncType.COUNT_AGGR_T then
      (RC.SUCCESS, Value.int (wrap_int32 s.i_val_))
    else
      (RC.SUCCESS, Value.nulls)

/-- The accumulator state after `aggr_tuple` on each tuple of a stream, in order, from
the state `s` (the codes returned on the way are not inspected). -/
def aggr_tuples (ops : ValueOps F D) (a : AggregationExpr) (s : AggrState F D) :
    List (Tuple F) → AggrState F D
  | [] => s
  | tuple :: rest => aggr_tuples ops a (aggr_tuple ops a s tuple).2 rest

/-- The life cycle of one group: `begin_aggr`, `aggr_tuple` on every tuple of the stream,
then `get_result`. -/
def aggregate (ops : ValueOps F D) (a : AggregationExpr) (s0 : AggrState F D)
    (stream : List (Tuple F)) (out : Value F) : RC × Value F :=
  get_result ops a (aggr_tuples ops a (begin_aggr ops s0).2 stream) out

/-! ### Closed-form references for the aggregates -/

/-- The field values of a stream that are not `NULLS`, in stream order. -/
def non_null_values (field_ : Field) (stream : List (Tuple F)) : List (Value F) :=
  (stream.map (field_value field_)).filter (fun v => decide (v.attr_type ≠ AttrType.NULLS))

/-- One accumulation step on a value that is not `NULLS`: `has_record = true`, then the
accumulator of the kind. -/
def accumulate (ops : ValueOps F D) (a : AggregationExpr) (s : AggrState F D)
    (value : Value F) : AggrState F D :=
  (aggr_func_ ops a { s with has_record := true } value).2

/-- Reference SUM over an `INTS` field: the mathematical sum of the integers. -/
def ref_sum_int (ops : ValueOps F D) (vs : List (Value F)) : Int :=
  (vs.map (Value.get_int ops)).sum

/-- Reference SUM in double precision: the values added one by one, in order, to zero. -/
def ref_sum_double (ops : ValueOps F D) (vs : List (Value F)) : D :=
  vs.foldl (fun acc v => ops.dadd acc (ops.widen (v.get_float ops))) (ops.i2d 0)

/-- Reference MAX: `m` is one of the values and no value compares greater. -/
def is_greatest (ops : ValueOps F D) (m : Value F) (vs : List (Value F)) : Prop :=
  m ∈ vs ∧ ∀ v ∈ vs, 0 ≤ m.compare ops v

/-- Reference MIN: `m` is one of the values and no value compares less. -/
def is_least (ops : ValueOps F D) (m : Value F) (vs : List (Value F)) : Prop :=
  m ∈ vs ∧ ∀ v ∈ vs, m.compare ops v ≤ 0

end AggregationExpr

/-! ## Statements and logical operators

Source embedded: `src/observer/sql/optimizer/logical_plan_generator.cpp`. The statement
classes, the table metadata and the operator classes are declared in headers outside the
sources. -/

/-- Modelled from the spec: the metadata of one column, its name and declared type. -/
structure FieldMeta where
  name : String
  type : AttrType
  deriving DecidableEq, Repr

/-- Modelled from the spec: the metadata of a table, an indexed list of columns of which
the first `sys_field_num` are system fields. -/
structure TableMeta where
  sys_field_num : Nat
  fields : List FieldMeta
  deriving DecidableEq, Repr

/-- Modelled from the spec: the number of columns `field_num()`. -/
def TableMeta.field_num (table_meta : TableMeta) : Nat := table_meta.fields.length

/-- Modelled from the spec: the column `field(i)` at index `i`, when there is one. -/
def TableMeta.field (table_meta : TableMeta) (i : Nat) : Option FieldMeta :=
  table_meta.fields[i]?

/-- Modelled from the spec: a table handle with `name()` and `table_meta()`. -/
structure Table where
  name : String
  table_meta : TableMeta
  deriving DecidableEq, Repr

/-- Modelled from the spec: the constructor `Field(table, field_meta)`, which binds a
table to one of its columns. -/
def Field.of_meta (table : Table) (field_meta : FieldMeta) : Field :=
  ⟨table.name, field_meta.name, field_meta.type⟩

/-- Modelled from the spec: one side of a filter unit, an attribute (`is_attr`) or a
literal. -/
structure FilterObj (F : Type) where
  is_attr : Bool
  field : Field
  value : Value F

/-- Modelled from the spec: a filter unit, a comparison operator with two sides. -/
structure FilterUnit (F : Type) where
  comp : CompOp
  left : FilterObj F
  right : FilterObj F

/-- Modelled from the spec: a filter statement, the list of its filter units. A statement
always carries one, possibly without units. -/
structure FilterStmt (F : Type) where
  filter_units : List (FilterUnit F)

/-- Modelled from the spec: a join statement with its join condition. -/
structure JoinStmt (F : Type) where
  join_condition : FilterStmt F

/-- Modelled from the spec: a group-by unit, the field grouped on. -/
structure GroupUnit where
  field : Field
  deriving DecidableEq, Repr

/-- Modelled from the spec: a group-by statement with its `group_unit()`. -/
structure GroupStmt where
  group_unit : GroupUnit
  deriving DecidableEq, Repr

/-- Modelled from the spec: an order-by unit, a field and a direction. -/
structure OrderUnit where
  field : Field
  is_asc : Bool
  deriving DecidableEq, Repr

/-- Modelled from the spec: a validated SELECT statement. -/
structure SelectStmt (F : Type) where
  tables : List Table
  query_exprs : List (Expression F)
  join_stmts : List (JoinStmt F)
  groups : List GroupStmt
  orders : List OrderUnit
  filter_stmt : FilterStmt F

/-- Modelled from the spec: a CALC statement, a list of expressions. -/
structure CalcStmt (F : Type) where
  expressions : List (Expression F)

/-- Modelled from the spec: an INSERT statement, a table and raw rows of values. -/
structure InsertStmt (F : Type) where
  table : Table
  tuples : List (List (Value F))

/-- Modelled from the spec: an UPDATE statement `UPDATE table SET field_name = value`
with its WHERE filter. -/
structure UpdateStmt (F : Type) where
  table : Table
  field_name : String
  value : Value F
  filter_stmt : FilterStmt F

/-- Modelled from the spec: a DELETE statement with its WHERE filter. -/
structure DeleteStmt (F : Type) where
  table : Table
  filter_stmt : FilterStmt F

mutual
/-- Modelled from the spec: a statement, by `StmtType`; `OTHER` stands for every kind that
`create` does not handle. -/
inductive Stmt (F : Type) where
  | CALC (calc_stmt : CalcStmt F)
  | SELECT (select_stmt : SelectStmt F)
  | INSERT (insert_stmt : InsertStmt F)
  | UPDATE (update_stmt : UpdateStmt F)
  | DELETE (delete_stmt : DeleteStmt F)
  | EXPLAIN (explain_stmt : ExplainStmt F)
  | OTHER (kind : Nat)
/-- Modelled from the spec: an EXPLAIN statement with its child statement. -/
inductive ExplainStmt (F : Type) where
  | mk (child : Stmt F)
end

/-- Modelled from the spec: the class of a logical operator together with the arguments
of its constructor. -/
inductive OperatorNode (F : Type) where
  | TableGetLogicalOperator (table : Table) (fields : List Field) (readonly : Bool)
  | PredicateLogicalOperator (expression : Expression F)
  | JoinLogicalOperator
  | AggregationLogicalOperator (aggr_exprs : List (Expression F)) (query_fields : List Field)
      (groups : List GroupStmt)
  | OrderLogicalOperator (orders : List OrderUnit)
  | ProjectLogicalOperator (expressions : List (Expression F))
  | CalcLogicalOperator (expressions : List (Expression F))
  | InsertLogicalOperator (table : Table) (tuples : List (List (Value F)))
  | UpdateLogicalOperator (table : Table) (value : Value F) (field_name : String)
  | DeleteLogicalOperator (table : Table)
  | ExplainLogicalOperator

/-- Modelled from the spec: a logical operator, a node with an ordered list of child
operators; a child is an owning pointer, `none` when null. -/
inductive LogicalOperator (F : Type) where
  | mk (node : OperatorNode F) (children_ : List (Option (LogicalOperator F)))

namespace LogicalOperator

variable {F : Type}

/-- The node of an operator. -/
def node : LogicalOperator F → OperatorNode F
  | mk node _ => node

/-- The children of an operator. -/
def children : LogicalOperator F → List (Option (LogicalOperator F))
  | mk _ children_ => children_

/-- Modelled from the spec: `add_child(oper)` appends the operator to the children. -/
def add_child : LogicalOperator F → Option (LogicalOperator F) → LogicalOperator F
  | mk node children_, oper => mk node (children_ ++ [oper])

/-- A newly constructed operator, without children. -/
def new (node : OperatorNode F) : LogicalOperator F := mk node []

end LogicalOperator

/-- The element `v[i]` of a vector, undefined (`none`) when `i` is out of range. -/
def vector_at {α : Type} (v : List α) (i : Int) : Option α :=
  if i < 0 then none else v[i.toNat]?

namespace LogicalPlanGenerator

variable {F : Type}

/-- The function `create_plan(CalcStmt *, ...)`. -/
def create_plan_calc (calc_stmt : CalcStmt F) (_logical_operator : Option (LogicalOperator F)) :
    RC × Option (LogicalOperator F) :=
  (RC.SUCCESS, some (LogicalOperator.new (OperatorNode.CalcLogicalOperator calc_stmt.expressions)))

/-- The expression built for one side of a filter unit: a `FieldExpr` for an attribute, a
`ValueExpr` for a literal. -/
def filter_obj_expr (filter_obj : FilterObj F) : Expression F :=
  if filter_obj.is_attr then Expression.FieldExpr filter_obj.field
  else Expression.ValueExpr filter_obj.value

/-- The loop of `create_plan(FilterStmt *, ...)` over the filter units: one
`ComparisonExpr` per unit, appended to `cmp_exprs`. -/
def filter_cmp_exprs : List (FilterUnit F) → List (Expression F) → List (Expression F)
  | [], cmp_exprs => cmp_exprs
  | filter_unit :: rest, cmp_exprs =>
    filter_cmp_exprs rest
      (cmp_exprs ++ [Expression.ComparisonExpr filter_unit.comp
        (filter_obj_expr filter_unit.left) (filter_obj_expr filter_unit.right)])

/-- The function `create_plan(FilterStmt *, ...)`. -/
def create_plan_filter (filter_stmt : FilterStmt F)
    (_logical_operator : Option (LogicalOperator F)) : RC × Option (LogicalOperator F) :=
  let cmp_exprs := filter_cmp_exprs filter_stmt.filter_units []
  if ¬ cmp_exprs.isEmpty then
    (RC.SUCCESS, some (LogicalOperator.new (OperatorNode.PredicateLogicalOperator
      (Expression.ConjunctionExpr ConjunctionType.AND cmp_exprs))))
  else
    (RC.SUCCESS, none)

/-- The function `create_plan(InsertStmt *, ...)`. -/
def create_plan_insert (insert_stmt : InsertStmt F)
    (_logical_operator : Option (LogicalOperator F)) : RC × Option (LogicalOperator F) :=
  (RC.SUCCESS, some (LogicalOperator.new
    (OperatorNode.InsertLogicalOperator insert_stmt.table insert_stmt.tuples)))

/-- The loop `for (int i = sys_field_num(); i < field_num(); i++)` of the UPDATE and
DELETE builders, with `remaining` iterations left: `Field(table, field(i))` is appended to
`fields`. -/
def table_fields_loop (table : Table) : Nat → Nat → List Field → List Field
  | 0, _, fields => fields
  | remaining + 1, i, fields =>
    match table.table_meta.field i with
    | some field_meta => table_fields_loop table remaining (i + 1) (fields ++ [Field.of_meta table field_meta])
    | none => table_fields_loop table remaining (i + 1) fields

/-- The fields collected by the UPDATE and DELETE builders: the loop runs for
`i = sys_field_num() .. field_num() - 1`. -/
def table_fields (table : Table) : List Field :=
  table_fields_loop table (table.table_meta.field_num - table.table_meta.sys_field_num)
    table.table_meta.sys_field_num []

/-- The function `create_plan(UpdateStmt *, ...)`. -/
def create_plan_update (update_stmt : UpdateStmt F)
    (logical_operator : Option (LogicalOperator F)) : RC × Option (LogicalOperator F) :=
  let table := update_stmt.table
  let fields := table_fields table
  let table_get_oper := LogicalOperator.new (OperatorNode.TableGetLogicalOperator table fields false)
  match create_plan_filter update_stmt.filter_stmt none with
  | (rc, predicate_oper) =>
    if rc ≠ RC.SUCCESS then (rc, logical_operator)
    else
      let update_oper := LogicalOperator.new
        (OperatorNode.UpdateLogicalOperator table update_stmt.value update_stmt.field_name)
      match predicate_oper with
      | some predicate_oper =>
        (RC.SUCCESS,
          some (update_oper.add_child (some (predicate_oper.add_child (some table_get_oper)))))
      | none => (RC.SUCCESS, some (update_oper.add_child (some table_get_oper)))

/-- The function `create_plan(DeleteStmt *, ...)`. -/
def create_plan_delete (delete_stmt : DeleteStmt F)
    (logical_operator : Option (LogicalOperator F)) : RC × Option (LogicalOperator F) :=
  let table := delete_stmt.table
  let fields := table_fields table
  let table_get_oper := LogicalOperator.new (OperatorNode.TableGetLogicalOperator table fields false)
  match create_plan_filter delete_stmt.filter_stmt none with
  | (rc, predicate_oper) =>
    if rc ≠ RC.SUCCESS then (rc, logical_operator)
    else
      let delete_oper := LogicalOperator.new (OperatorNode.DeleteLogicalOperator table)
      match predicate_oper with
      | some predicate_oper =>
        (rc, some (delete_oper.add_child (some (predicate_oper.add_child (some table_get_oper)))))
      | none => (rc, some (delete_oper.add_child (some table_get_oper)))

/-- The locals of `create_plan(SelectStmt *, ...)` that the loop over the tables
updates. -/
structure SelectLoop (F : Type) where
  table_oper : Option (LogicalOperator F)
  index : Int
  query_fields : List Field
  aggr_exprs : List (Expression F)

/-- The inner loop of `create_plan(SelectStmt *, ...)` over the projected expressions,
for one table: the fields of the table are appended to `fields`, scalar fields to
`query_fields` and aggregations to `aggr_exprs`; any other expression ends the function
with `INTERNAL`. -/
def collect_query_exprs (table : Table) :
    List (Expression F) → List Field × List Field × List (Expression F) →
      Except RC (List Field × List Field × List (Expression F))
  | [], acc => Except.ok acc
  | Expression.FieldExpr field :: rest, (fields, query_fields, aggr_exprs) =>
    if field.table_name = table.name then
      collect_query_exprs table rest (fields ++ [field], query_fields ++ [field], aggr_exprs)
    else
      collect_query_exprs table rest (fields, query_fields, aggr_exprs)
  | Expression.AggregationExpr aggr :: rest, (fields, query_fields, aggr_exprs) =>
    if aggr.field_.table_name = table.name then
      collect_query_exprs table rest
        (fields ++ [aggr.field_], query_fields, aggr_exprs ++ [Expression.AggregationExpr aggr])
    else
      collect_query_exprs table rest (fields, query_fields, aggr_exprs)
  | _ :: _, _ => Except.error RC.INTERNAL

/-- The body of the loop of `create_plan(SelectStmt *, ...)` over the tables. The result
`none` is undefined behaviour: `join_stmts[index-1]` out of range, or `add_child` called
through a null `predicate_oper`; `Except.error rc` is an early `return rc`. -/
def select_table_step (select_stmt : SelectStmt F) (st : SelectLoop F) (table : Table) :
    Option (Except RC (SelectLoop F)) :=
  match collect_query_exprs table select_stmt.query_exprs ([], st.query_fields, st.aggr_exprs) with
  | Except.error rc => some (Except.error rc)
  | Except.ok (fields, query_fields, aggr_exprs) =>
    let table_get_oper :=
      LogicalOperator.new (OperatorNode.TableGetLogicalOperator table fields true)
    if select_stmt.join_stmts.length > 0 then
      match st.table_oper with
      | none => some (Except.ok ⟨some table_get_oper, st.index + 1, query_fields, aggr_exprs⟩)
      | some table_oper =>
        let join_oper := ((LogicalOperator.new OperatorNode.JoinLogicalOperator).add_child
          (some table_oper)).add_child (some table_get_oper)
        match vector_at select_stmt.join_stmts (st.index - 1) with
        | none => none
        | some join_stmt =>
          match create_plan_filter join_stmt.join_condition none with
          | (rc, predicate_oper) =>
            if rc ≠ RC.SUCCESS then some (Except.error rc)
            else
              match predicate_oper with
              | none => none
              | some predicate_oper =>
                some (Except.ok ⟨some (predicate_oper.add_child (some join_oper)), st.index + 1,
                  query_fields, aggr_exprs⟩)
    else
      match st.table_oper with
      | none => some (Except.ok ⟨some table_get_oper, st.index + 1, query_fields, aggr_exprs⟩)
      | some table_oper =>
        let join_oper := ((LogicalOperator.new OperatorNode.JoinLogicalOperator).add_child
          (some table_oper)).add_child (some table_get_oper)
        some (Except.ok ⟨some join_oper, st.index + 1, query_fields, aggr_exprs⟩)

/-- The loop of `create_plan(SelectStmt *, ...)` over the tables that remain. -/
def select_table_loop (select_stmt : SelectStmt F) :
    List Table → SelectLoop F → Option (Except RC (SelectLoop F))
  | [], st => some (Except.ok st)
  | table :: rest, st =>
    match select_table_step select_stmt st table with
    | some (Except.ok st1) => select_table_loop select_stmt rest st1
    | other => other

/-- The test of the GROUP BY check for one projected field: some group field has the same
table name and the same field name. -/
def in_group_by (groups : List GroupStmt) (field : Field) : Bool :=
  groups.any (fun stmt =>
    decide (field.table_name = stmt.group_unit.field.table_name ∧
      field.field_name = stmt.group_unit.field.field_name))

/-- The inner search of the stack loop: `op` is added as a child to the first operator of
`rest` that is not null; `none` when all are null. -/
def attach_to_next (op : LogicalOperator F) :
    List (Option (LogicalOperator F)) → Option (List (Option (LogicalOperator F)))
  | [] => none
  | none :: rest => (attach_to_next op rest).map (fun rest1 => none :: rest1)
  | some next :: rest => some (some (next.add_child (some op)) :: rest)

/-- One iteration `i` of the stack loop: a null `stack[i]` is skipped; otherwise
`stack[i]` is moved into the next operator that is not null, when there is one. -/
def link_step (stack : List (Option (LogicalOperator F))) (i : Nat) :
    List (Option (LogicalOperator F)) :=
  match stack[i]? with
  | some (some op) =>
    match attach_to_next op (stack.drop (i + 1)) with
    | some rest1 => stack.take i ++ none :: rest1
    | none => stack
  | _ => stack

/-- The loop `for (int i = 0; i < stack.size(); i++)` that links the stages, with
`remaining` iterations left. -/
def link_stack : Nat → Nat → List (Option (LogicalOperator F)) →
    List (Option (LogicalOperator F))
  | 0, _, stack => stack
  | remaining + 1, i, stack => link_stack remaining (i + 1) (link_step stack i)

/-- The function `create_plan(SelectStmt *, ...)`. The result `none` is undefined
behaviour in the loop over the tables. -/
def create_plan_select (select_stmt : SelectStmt F)
    (logical_operator : Option (LogicalOperator F)) :
    Option (RC × Option (LogicalOperator F)) :=
  match select_table_loop select_stmt select_stmt.tables ⟨none, 0, [], []⟩ with
  | none => none
  | some (Except.error rc) => some (rc, logical_operator)
  | some (Except.ok st) =>
    if ¬ select_stmt.groups.isEmpty ∧
        st.query_fields.all (in_group_by select_stmt.groups) = false then
      some (RC.GROUP_BY_SELECT_INVALID, logical_operator)
    else
      match create_plan_filter select_stmt.filter_stmt none with
      | (rc, predicate_oper) =>
        if rc ≠ RC.SUCCESS then some (rc, logical_operator)
        else
          let aggr_oper : Option (LogicalOperator F) :=
            if st.aggr_exprs.length ≠ 0 then
              some (LogicalOperator.new (OperatorNode.AggregationLogicalOperator st.aggr_exprs
                st.query_fields select_stmt.groups))
            else none
          let order_by_oper : Option (LogicalOperator F) :=
            if ¬ select_stmt.orders.isEmpty then
              some (LogicalOperator.new (OperatorNode.OrderLogicalOperator select_stmt.orders))
            else none
          let project_oper : Option (LogicalOperator F) :=
            some (LogicalOperator.new (OperatorNode.ProjectLogicalOperator select_stmt.query_exprs))
          let stack := [st.table_oper, predicate_oper, aggr_oper, order_by_oper, project_oper]
          let stack1 := link_stack stack.length 0 stack
          some (RC.SUCCESS, (stack1[stack1.length - 1]?).join)

mutual
/-- The function `LogicalPlanGenerator::create`, the dispatch on the statement kind. -/
def create : Stmt F → Option (LogicalOperator F) → Option (RC × Option (LogicalOperator F))
  | Stmt.CALC calc_stmt, logical_operator => some (create_plan_calc calc_stmt logical_operator)
  | Stmt.SELECT select_stmt, logical_operator => create_plan_select select_stmt logical_operator
  | Stmt.INSERT insert_stmt, logical_operator =>
    some (create_plan_insert insert_stmt logical_operator)
  | Stmt.UPDATE update_stmt, logical_operator =>
    some (create_plan_update update_stmt logical_operator)
  | Stmt.DELETE delete_stmt, logical_operator =>
    some (create_plan_delete delete_stmt logical_operator)
  | Stmt.EXPLAIN explain_stmt, logical_operator => create_plan_explain explain_stmt logical_operator
  | Stmt.OTHER _, logical_operator => some (RC.UNIMPLENMENT, logical_operator)
/-- The function `create_plan(ExplainStmt *, ...)`. -/
def create_plan_explain :
    ExplainStmt F → Option (LogicalOperator F) → Option (RC × Option (LogicalOperator F))
  | ExplainStmt.mk child_stmt, logical_operator =>
    match create child_stmt none with
    | none => none
    | some (rc, child_oper) =>
      if rc ≠ RC.SUCCESS then some (rc, logical_operator)
      else
        some (rc, some ((LogicalOperator.new OperatorNode.ExplainLogicalOperator).add_child
          child_oper))
end

/-! ### References for the SELECT plan -/

/-- Reference for the linear composition: a stage that is present sits above what is below
it, as the parent of that single child (without children when nothing is below); an
absent stage is skipped. -/
def stage_over (node : Option (OperatorNode F)) (below : Option (LogicalOperator F)) :
    Option (LogicalOperator F) :=
  match node with
  | none => below
  | some node =>
    some (LogicalOperator.mk node (match below with | none => [] | some oper => [some oper]))

/-- The operator of a stage placed over what is below it: an absent stage is skipped, a
present one receives what is below, when there is something, as a further child. -/
def stack_over (oper : Option (LogicalOperator F)) (below : Option (LogicalOperator F)) :
    Option (LogicalOperator F) :=
  match oper with
  | none => below
  | some oper =>
    some (match below with | none => oper | some child => oper.add_child (some child))

/-- The comparison built from a filter unit. -/
def filter_unit_expr (filter_unit : FilterUnit F) : Expression F :=
  Expression.ComparisonExpr filter_unit.comp
    (if filter_unit.left.is_attr then Expression.FieldExpr filter_unit.left.field
      else Expression.ValueExpr filter_unit.left.value)
    (if filter_unit.right.is_attr then Expression.FieldExpr filter_unit.right.field
      else Expression.ValueExpr filter_unit.right.value)

/-- The Predicate node of a filter statement: the AND of the comparisons of its units. -/
def predicate_node (filter_stmt : FilterStmt F) : OperatorNode F :=
  OperatorNode.PredicateLogicalOperator
    (Expression.ConjunctionExpr ConjunctionType.AND (filter_stmt.filter_units.map filter_unit_expr))

/-- The fields of a table among the projected expressions, scalar or aggregated, in
projection order. -/
def scan_fields (table : Table) (query_exprs : List (Expression F)) : List Field :=
  query_exprs.filterMap (fun expr =>
    match expr with
    | Expression.FieldExpr field => if field.table_name = table.name then some field else none
    | Expression.AggregationExpr aggr =>
      if aggr.field_.table_name = table.name then some aggr.field_ else none
    | _ => none)

/-- The projected scalar fields that belong to a table, in projection order. -/
def scalar_fields (table : Table) (query_exprs : List (Expression F)) : List Field :=
  query_exprs.filterMap (fun expr =>
    match expr with
    | Expression.FieldExpr field => if field.table_name = table.name then some field else none
    | _ => none)

/-- The projected aggregation expressions over a field of a table, in projection
order. -/
def table_aggr_exprs (table : Table) (query_exprs : List (Expression F)) :
    List (Expression F) :=
  query_exprs.filter (fun expr =>
    match expr with
    | Expression.AggregationExpr aggr => decide (aggr.field_.table_name = table.name)
    | _ => false)

/-- The scan of a table of a SELECT: `TableGet(table, fields, readonly=true)`. -/
def scan (select_stmt : SelectStmt F) (table : Table) : LogicalOperator F :=
  LogicalOperator.mk
    (OperatorNode.TableGetLogicalOperator table (scan_fields table select_stmt.query_exprs) true) []

/-- Reference for the table operator, the left-deep fold `T_i` over the tables
`t0..ti`: `T_0` is the scan of `t0`; `T_(i+1)` is `Join[T_i, scan t_(i+1)]`, placed under
`Predicate(join_stmts[i].join_condition)` when the statement has join statements. -/
def left_deep (select_stmt : SelectStmt F) : Nat → Option (LogicalOperator F)
  | 0 => (select_stmt.tables[0]?).map (scan select_stmt)
  | i + 1 =>
    match left_deep select_stmt i, select_stmt.tables[i + 1]? with
    | some oper, some table =>
      let join_oper :=
        LogicalOperator.mk OperatorNode.JoinLogicalOperator
          [some oper, some (scan select_stmt table)]
      if select_stmt.join_stmts.length > 0 then
        match select_stmt.join_stmts[i]? with
        | some join_stmt =>
          some (LogicalOperator.mk (predicate_node join_stmt.join_condition) [some join_oper])
        | none => none
      else some join_oper
    | _, _ => none

/-- Whether a projected scalar field that belongs to one of the tables matches no group
field on both the table name and the field name. -/
def unmatched_scalar_field (select_stmt : SelectStmt F) : Prop :=
  ∃ field : Field, Expression.FieldExpr field ∈ select_stmt.query_exprs ∧
    (∃ table ∈ select_stmt.tables, field.table_name = table.name) ∧
    ∀ stmt ∈ select_stmt.groups,
      ¬ (field.table_name = stmt.group_unit.field.table_name ∧
        field.field_name = stmt.group_unit.field.field_name)

/-- Well-formedness of a SELECT statement: every projected expression is a `FieldExpr` or
an `AggregationExpr`, and explicit joins come as one join statement, with a condition of
at least one unit, per joined table. -/
def well_formed (select_stmt : SelectStmt F) : Prop :=
  (∀ expr ∈ select_stmt.query_exprs,
    expr.type = ExprType.FIELD ∨ expr.type = ExprType.AGGREGATION) ∧
  (select_stmt.join_stmts = [] ∨
    (select_stmt.join_stmts.length + 1 = select_stmt.tables.length ∧
      ∀ join_stmt ∈ select_stmt.join_stmts, join_stmt.join_condition.filter_units ≠ []))

end LogicalPlanGenerator

/-- The order laws of the float comparison that MAX and MIN rely on: nothing is below or
above itself, and a value above (below) the current extremum is not below (above) anything
the extremum was not below (above). -/
structure FloatOrder {F D : Type} (ops : ValueOps F D) : Prop where
  not_lt_self : ∀ a, ¬ ops.fcmp a a < 0
  not_gt_self : ∀ a, ¬ ops.fcmp a a > 0
  lt_step : ∀ a b c, ops.fcmp a b < 0 → ¬ ops.fcmp a c < 0 → ¬ ops.fcmp b c < 0
  gt_step : ∀ a b c, ops.fcmp a b > 0 → ¬ ops.fcmp a c > 0 → ¬ ops.fcmp b c > 0

/-! ## A concrete instance of the operations, with exact rational arithmetic -/

/-- Exact rational arithmetic in place of `float` and `double`, with `EPSILON = 1/1000000`;
used to evaluate the definitions on concrete inputs. -/
def exact_ops : ValueOps ℚ ℚ where
  i2f := fun n => (n : ℚ)
  fadd := fun a b => a + b
  fsub := fun a b => a - b
  fmul := fun a b => a * b
  fdiv := fun a b => a / b
  fneg := fun a => -a
  fcmp := fun a b => if a < b then -1 else if a = b then 0 else 1
  near_zero := fun x => decide (-(1 / 1000000 : ℚ) < x ∧ x < 1 / 1000000)
  flt_max := 340282346638528859811704183484516925440
  f_nonzero := fun x => decide (x ≠ 0)
  int_of := fun _ => 0
  float_of := fun _ => 0
  bool_of := fun _ => false
  cmp_other := fun _ _ => -1
  widen := fun x => x
  narrow := fun x => x
  i2d := fun n => (n : ℚ)
  dadd := fun a b => a + b
  ddiv := fun a b => a / b
  base_try_rc := RC.UNIMPLENMENT

/-- A one-column tuple: every lookup succeeds and stores the given value. -/
def cell_tuple {F : Type} (v : Value F) : Tuple F := ⟨fun _ _ => (RC.SUCCESS, v)⟩

/-- A tuple without cells: every lookup fails with `NOTFOUND` and leaves the output as it
was. -/
def missing_tuple {F : Type} : Tuple F := ⟨fun _ value => (RC.NOTFOUND, value)⟩

/-- A sample `INTS` column. -/
def sample_int_field : Field := ⟨"t", "id", AttrType.INTS⟩

/-- A sample `FLOATS` column. -/
def sample_float_field : Field := ⟨"t", "score", AttrType.FLOATS⟩

/-- A sample accumulator state, as left behind by an earlier group. -/
def sample_state : AggrState ℚ ℚ := ⟨7, 3, Value.int 9, true⟩

/-- A sample filter `t.id = 1`. -/
def sample_filter : FilterStmt ℚ :=
  ⟨[⟨CompOp.EQUAL_TO, ⟨true, sample_int_field, Value.undefined⟩,
    ⟨false, sample_int_field, Value.int 1⟩⟩]⟩

/-- A sample table `t` with one system column and the user columns `id` and `x`. -/
def sample_table : Table :=
  ⟨"t", ⟨1, [⟨"__trx", AttrType.INTS⟩, ⟨"id", AttrType.INTS⟩, ⟨"x", AttrType.INTS⟩]⟩⟩

/-- A sample table `u` with one system column and the user column `id`. -/
def sample_table_u : Table :=
  ⟨"u", ⟨1, [⟨"__trx", AttrType.INTS⟩, ⟨"id", AttrType.INTS⟩]⟩⟩

/-- The column `t.x`. -/
def sample_x_field : Field := ⟨"t", "x", AttrType.INTS⟩

/-- The column `u.id`. -/
def sample_u_field : Field := ⟨"u", "id", AttrType.INTS⟩

/-- The statement `SELECT id, SUM(x) FROM t GROUP BY x`. -/
def sample_group_select : SelectStmt ℚ :=
  ⟨[sample_table],
    [Expression.FieldExpr sample_int_field,
      Expression.AggregationExpr (AggregationExpr.new sample_x_field AggrFuncType.SUM_AGGR_T)],
    [], [⟨⟨sample_x_field⟩⟩], [], ⟨[]⟩⟩

/-- The statement `SELECT id FROM t WHERE id = 1`. -/
def sample_where_select : SelectStmt ℚ :=
  ⟨[sample_table], [Expression.FieldExpr sample_int_field], [], [], [], sample_filter⟩

/-- The join condition `t.id = u.id`. -/
def sample_join_filter : FilterStmt ℚ :=
  ⟨[⟨CompOp.EQUAL_TO, ⟨true, sample_int_field, Value.undefined⟩,
    ⟨true, sample_u_field, Value.undefined⟩⟩]⟩

/-- The statement `SELECT t.id FROM t INNER JOIN u ON t.id = u.id`. -/
def sample_join_select : SelectStmt ℚ :=
  ⟨[sample_table, sample_table_u], [Expression.FieldExpr sample_int_field],
    [⟨sample_join_filter⟩], [], [], ⟨[]⟩⟩

/-- The statement `SELECT 1 FROM t`, whose projection is a literal. -/
def sample_literal_select : SelectStmt ℚ :=
  ⟨[sample_table], [Expression.ValueExpr (Value.int 1)], [], [], [], ⟨[]⟩⟩

/-- A row of the table `t(id, score)`: the lookup of `t.id` or of `t.score` succeeds and
stores the cell, any other lookup fails with `NOTFOUND` and leaves the output as it was. -/
def row_tuple {F : Type} (id score : Value F) : Tuple F :=
  ⟨fun spec value =>
    if spec.table_name = "t" ∧ spec.field_name = "id" then (RC.SUCCESS, id)
    else if spec.table_name = "t" ∧ spec.field_name = "score" then (RC.SUCCESS, score)
    else (RC.NOTFOUND, value)⟩

/-- The rows `(1, x)`, `(2, NULL)`, `(3, y)` of the table `t(id, score)`, in this order. -/
def scenario_rows {F : Type} (x y : F) : List (Tuple F) :=
  [row_tuple (Value.int 1) (Value.float x), row_tuple (Value.int 2) Value.nulls,
    row_tuple (Value.int 3) (Value.float y)]

/-! # Theorems -/

section Lemmas

variable {F D : Type}

open AggregationExpr Expression LogicalPlanGenerator

/-! ## Machine integers -/

theorem wrap_int32_wrap_int64 (x : Int) : wrap_int32 (wrap_int64 x) = wrap_int32 x := by
  unfold wrap_int32 wrap_int64; omega

theorem wrap_int64_add_wrap (a b : Int) : wrap_int64 (wrap_int64 a + b) = wrap_int64 (a + b) := by
  unfold wrap_int64; omega

theorem wrap_int32_of_range (x : Int) (h1 : INT_MIN ≤ x) (h2 : x ≤ INT_MAX) : wrap_int32 x = x := by
  unfold wrap_int32; unfold INT_MIN at h1; unfold INT_MAX at h2; omega

theorem wrap_int64_of_small (n : Nat) (h : n < 2 ^ 63) : wrap_int64 (n : Int) = n := by
  unfold wrap_int64; norm_num at h; omega

theorem aggr_tuples_eq_foldl (ops : ValueOps F D) (a : AggregationExpr) (S : List (Tuple F))
    (s : AggrState F D) :
    aggr_tuples ops a s S = (non_null_values a.field_ S).foldl (accumulate ops a) s := by
  induction S generalizing s with
  | nil => rfl
  | cons t rest ih =>
    simp only [aggr_tuples, ih, non_null_values, List.map_cons, List.filter_cons, aggr_tuple]
    by_cases h : (field_value a.field_ t).attr_type = AttrType.NULLS
    · simp [h]
    · simp [h, accumulate]

theorem accumulate_has_record (ops : ValueOps F D) (a : AggregationExpr) (s : AggrState F D)
    (v : Value F) : (accumulate ops a s v).has_record = true := by
  unfold accumulate aggr_func_
  cases h : a.aggr_type_ <;> simp only [max_aggr_func, min_aggr_func, sum_aggr_func, avg_aggr_func, count_aggr_func]
  all_goals (repeat' split) <;> rfl

theorem foldl_has_record (ops : ValueOps F D) (a : AggregationExpr) (vs : List (Value F))
    (s : AggrState F D) (h : vs ≠ []) : (vs.foldl (accumulate ops a) s).has_record = true := by
  induction vs using List.reverseRecOn with
  | nil => exact absurd rfl h
  | append_singleton l x _ => simp [List.foldl_append, accumulate_has_record]


theorem foldl_count_i_val (ops : ValueOps F D) (a : AggregationExpr)
    (ha : a.aggr_type_ = AggrFuncType.COUNT_AGGR_T) (vs : List (Value F)) (s : AggrState F D)
    (k : Int) (hs : s.i_val_ = wrap_int64 k) :
    (vs.foldl (accumulate ops a) s).i_val_ = wrap_int64 (k + vs.length) := by
  induction vs using List.reverseRecOn with
  | nil => simpa using hs
  | append_singleton l x ih =>
    simp only [List.foldl_append, List.foldl_cons, List.foldl_nil, List.length_append,
      List.length_singleton]
    simp only [accumulate, aggr_func_, ha, count_aggr_func, ih, wrap_int64_add_wrap]
    push_cast
    rw [add_assoc]

theorem foldl_sum_i_val (ops : ValueOps F D) (a : AggregationExpr)
    (ha : a.aggr_type_ = AggrFuncType.SUM_AGGR_T) (ht : a.attr_type_ = AttrType.INTS)
    (vs : List (Value F)) (s : AggrState F D) (k : Int) (hs : s.i_val_ = wrap_int64 k) :
    (vs.foldl (accumulate ops a) s).i_val_ = wrap_int64 (k + ref_sum_int ops vs) := by
  induction vs using List.reverseRecOn with
  | nil => simpa [ref_sum_int] using hs
  | append_singleton l x ih =>
    simp only [List.foldl_append, List.foldl_cons, List.foldl_nil]
    simp only [accumulate, aggr_func_, ha, sum_aggr_func, ht, ih, wrap_int64_add_wrap]
    simp [ref_sum_int, add_assoc]

theorem foldl_sum_f_val (ops : ValueOps F D) (a : AggregationExpr)
    (ha : a.aggr_type_ = AggrFuncType.SUM_AGGR_T) (ht : a.attr_type_ = AttrType.FLOATS)
    (vs : List (Value F)) (s : AggrState F D) :
    (vs.foldl (accumulate ops a) s).f_val_ =
      vs.foldl (fun acc v => ops.dadd acc (ops.widen (v.get_float ops))) s.f_val_ := by
  induction vs using List.reverseRecOn with
  | nil => rfl
  | append_singleton l x ih =>
    simp only [List.foldl_append, List.foldl_cons, List.foldl_nil]
    simp only [accumulate, aggr_func_, ha, sum_aggr_func, ht, ih]

theorem foldl_avg_f_val (ops : ValueOps F D) (a : AggregationExpr)
    (ha : a.aggr_type_ = AggrFuncType.AVG_AGGR_T) (ht : a.attr_type_ = AttrType.FLOATS)
    (vs : List (Value F)) (s : AggrState F D) :
    (vs.foldl (accumulate ops a) s).f_val_ =
      vs.foldl (fun acc v => ops.dadd acc (ops.widen (v.get_float ops))) s.f_val_ := by
  induction vs using List.reverseRecOn with
  | nil => rfl
  | append_singleton l x ih =>
    simp only [List.foldl_append, List.foldl_cons, List.foldl_nil]
    simp only [accumulate, aggr_func_, ha, avg_aggr_func, ht, ih]

theorem foldl_avg_i_val (ops : ValueOps F D) (a : AggregationExpr)
    (ha : a.aggr_type_ = AggrFuncType.AVG_AGGR_T) (ht : a.attr_type_ = AttrType.FLOATS)
    (vs : List (Value F)) (s : AggrState F D) (k : Int) (hs : s.i_val_ = wrap_int64 k) :
    (vs.foldl (accumulate ops a) s).i_val_ = wrap_int64 (k + vs.length) := by
  induction vs using List.reverseRecOn with
  | nil => simpa using hs
  | append_singleton l x ih =>
    simp only [List.foldl_append, List.foldl_cons, List.foldl_nil, List.length_append,
      List.length_singleton]
    simp only [accumulate, aggr_func_, ha, avg_aggr_func, ht, ih, wrap_int64_add_wrap]
    push_cast
    rw [add_assoc]


theorem foldl_extremum {α : Type} (lt : α → α → Prop) [DecidableRel lt] (P : α → Prop)
    (hirr : ∀ a, P a → ¬ lt a a)
    (hstep : ∀ a b c, P a → P b → P c → lt a b → ¬ lt a c → ¬ lt b c)
    (l : List α) (m0 : α) (h0 : P m0) (hl : ∀ v ∈ l, P v) :
    P (l.foldl (fun m v => if lt m v then v else m) m0) ∧
    l.foldl (fun m v => if lt m v then v else m) m0 ∈ m0 :: l ∧
    ∀ v ∈ m0 :: l, ¬ lt (l.foldl (fun m v => if lt m v then v else m) m0) v := by
  induction l using List.reverseRecOn with
  | nil =>
    refine ⟨h0, by simp, ?_⟩
    intro v hv
    simp only [List.mem_singleton] at hv
    subst hv
    exact hirr _ h0
  | append_singleton l x ih =>
    have hx : P x := hl x (by simp)
    obtain ⟨hP, hmem, hmax⟩ := ih (fun v hv => hl v (by simp [hv]))
    simp only [List.foldl_append, List.foldl_cons, List.foldl_nil]
    by_cases hlt : lt (l.foldl (fun m v => if lt m v then v else m) m0) x
    · simp only [hlt, if_true]
      refine ⟨hx, by simp, ?_⟩
      intro v hv
      rcases List.mem_cons.mp hv with rfl | hv
      · exact hstep _ _ _ hP hx h0 hlt (hmax _ (by simp))
      · rcases List.mem_append.mp hv with hv | hv
        · exact hstep _ _ _ hP hx (hl v (by simp [hv])) hlt (hmax _ (by simp [hv]))
        · simp only [List.mem_singleton] at hv
          subst hv
          exact hirr _ hx
    · simp only [hlt, if_false]
      refine ⟨hP, ?_, ?_⟩
      · rcases List.mem_cons.mp hmem with h | h
        · simp [h]
        · simp [h]
      · intro v hv
        rcases List.mem_cons.mp hv with rfl | hv
        · exact hmax _ (by simp)
        · rcases List.mem_append.mp hv with hv | hv
          · exact hmax _ (by simp [hv])
          · simp only [List.mem_singleton] at hv
            subst hv
            exact hlt

theorem foldl_max_value (ops : ValueOps F D) (a : AggregationExpr)
    (ha : a.aggr_type_ = AggrFuncType.MAX_AGGR_T) (T : AttrType) (hT : T ≠ AttrType.UNDEFINED)
    (vs : List (Value F)) (hvs : ∀ v ∈ vs, v.attr_type = T) (s : AggrState F D)
    (hs : s.value_.attr_type = T) :
    (vs.foldl (accumulate ops a) s).value_ =
      vs.foldl (fun m v => if m.compare ops v < 0 then v else m) s.value_ := by
  induction vs generalizing s with
  | nil => rfl
  | cons v rest ih =>
    have hv : v.attr_type = T := hvs v (by simp)
    have hne : ¬ s.value_.attr_type = AttrType.UNDEFINED := by rw [hs]; exact hT
    have hstep : (accumulate ops a s v).value_ = if s.value_.compare ops v < 0 then v else s.value_ := by
      simp only [accumulate, aggr_func_, ha, max_aggr_func, hne, if_false]
      split <;> rfl
    simp only [List.foldl_cons]
    rw [ih (fun w hw => hvs w (by simp [hw])) _ (by rw [hstep]; split <;> assumption), hstep]

theorem foldl_min_value (ops : ValueOps F D) (a : AggregationExpr)
    (ha : a.aggr_type_ = AggrFuncType.MIN_AGGR_T) (T : AttrType) (hT : T ≠ AttrType.UNDEFINED)
    (vs : List (Value F)) (hvs : ∀ v ∈ vs, v.attr_type = T) (s : AggrState F D)
    (hs : s.value_.attr_type = T) :
    (vs.foldl (accumulate ops a) s).value_ =
      vs.foldl (fun m v => if m.compare ops v > 0 then v else m) s.value_ := by
  induction vs generalizing s with
  | nil => rfl
  | cons v rest ih =>
    have hv : v.attr_type = T := hvs v (by simp)
    have hne : ¬ s.value_.attr_type = AttrType.UNDEFINED := by rw [hs]; exact hT
    have hstep : (accumulate ops a s v).value_ = if s.value_.compare ops v > 0 then v else s.value_ := by
      simp only [accumulate, aggr_func_, ha, min_aggr_func, hne, if_false]
      split <;> rfl
    simp only [List.foldl_cons]
    rw [ih (fun w hw => hvs w (by simp [hw])) _ (by rw [hstep]; split <;> assumption), hstep]

theorem attr_type_ints {v : Value F} (h : v.attr_type = AttrType.INTS) : ∃ n, v = Value.int n := by
  cases v <;> simp [Value.attr_type] at h
  exact ⟨_, rfl⟩

theorem attr_type_floats {v : Value F} (h : v.attr_type = AttrType.FLOATS) :
    ∃ x, v = Value.float x := by
  cases v <;> simp [Value.attr_type] at h
  exact ⟨_, rfl⟩

theorem compare_numeric_laws (ops : ValueOps F D) (T : AttrType)
    (hnum : T = AttrType.INTS ∨ T = AttrType.FLOATS)
    (hord : T = AttrType.FLOATS → FloatOrder ops) :
    (∀ a : Value F, a.attr_type = T → ¬ a.compare ops a < 0) ∧
    (∀ a : Value F, a.attr_type = T → ¬ a.compare ops a > 0) ∧
    (∀ a b c : Value F, a.attr_type = T → b.attr_type = T → c.attr_type = T →
      a.compare ops b < 0 → ¬ a.compare ops c < 0 → ¬ b.compare ops c < 0) ∧
    (∀ a b c : Value F, a.attr_type = T → b.attr_type = T → c.attr_type = T →
      a.compare ops b > 0 → ¬ a.compare ops c > 0 → ¬ b.compare ops c > 0) := by
  rcases hnum with rfl | rfl
  · refine ⟨?_, ?_, ?_, ?_⟩
    · intro a ha
      obtain ⟨x, rfl⟩ := attr_type_ints ha
      simp [Value.compare, Value.compare_int]
    · intro a ha
      obtain ⟨x, rfl⟩ := attr_type_ints ha
      simp [Value.compare, Value.compare_int]
    · intro a b c ha hb hc
      obtain ⟨x, rfl⟩ := attr_type_ints ha
      obtain ⟨y, rfl⟩ := attr_type_ints hb
      obtain ⟨z, rfl⟩ := attr_type_ints hc
      simp only [Value.compare, Value.compare_int]
      split_ifs <;> omega
    · intro a b c ha hb hc
      obtain ⟨x, rfl⟩ := attr_type_ints ha
      obtain ⟨y, rfl⟩ := attr_type_ints hb
      obtain ⟨z, rfl⟩ := attr_type_ints hc
      simp only [Value.compare, Value.compare_int]
      split_ifs <;> omega
  · have ho := hord rfl
    refine ⟨?_, ?_, ?_, ?_⟩
    · intro a ha
      obtain ⟨x, rfl⟩ := attr_type_floats ha
      exact ho.not_lt_self x
    · intro a ha
      obtain ⟨x, rfl⟩ := attr_type_floats ha
      exact ho.not_gt_self x
    · intro a b c ha hb hc
      obtain ⟨x, rfl⟩ := attr_type_floats ha
      obtain ⟨y, rfl⟩ := attr_type_floats hb
      obtain ⟨z, rfl⟩ := attr_type_floats hc
      exact ho.lt_step x y z
    · intro a b c ha hb hc
      obtain ⟨x, rfl⟩ := attr_type_floats ha
      obtain ⟨y, rfl⟩ := attr_type_floats hb
      obtain ⟨z, rfl⟩ := attr_type_floats hc
      exact ho.gt_step x y z


theorem max_from_undefined (ops : ValueOps F D) (a : AggregationExpr)
    (ha : a.aggr_type_ = AggrFuncType.MAX_AGGR_T) (T : AttrType)
    (hnum : T = AttrType.INTS ∨ T = AttrType.FLOATS) (hord : T = AttrType.FLOATS → FloatOrder ops)
    (vs : List (Value F)) (hvs : ∀ v ∈ vs, v.attr_type = T) (hne : vs ≠ [])
    (s : AggrState F D) (hs : s.value_ = Value.undefined) :
    is_greatest ops (vs.foldl (accumulate ops a) s).value_ vs := by
  have hT : T ≠ AttrType.UNDEFINED := by rcases hnum with rfl | rfl <;> decide
  obtain ⟨hirr, -, hstep, -⟩ := compare_numeric_laws ops T hnum hord
  cases vs with
  | nil => exact absurd rfl hne
  | cons v0 rest =>
    have h0 : v0.attr_type = T := hvs v0 (by simp)
    have hfirst : (accumulate ops a s v0).value_ = v0 := by
      simp [accumulate, aggr_func_, ha, max_aggr_func, hs, Value.attr_type]
    simp only [List.foldl_cons]
    rw [foldl_max_value ops a ha T hT rest (fun w hw => hvs w (by simp [hw])) _
      (by rw [hfirst]; exact h0), hfirst]
    obtain ⟨-, hmem, hmax⟩ := foldl_extremum (fun a b : Value F => a.compare ops b < 0)
      (fun v => v.attr_type = T) hirr hstep rest v0 h0 (fun w hw => hvs w (by simp [hw]))
    exact ⟨hmem, fun v hv => not_lt.mp (hmax v hv)⟩

theorem min_from_undefined (ops : ValueOps F D) (a : AggregationExpr)
    (ha : a.aggr_type_ = AggrFuncType.MIN_AGGR_T) (T : AttrType)
    (hnum : T = AttrType.INTS ∨ T = AttrType.FLOATS) (hord : T = AttrType.FLOATS → FloatOrder ops)
    (vs : List (Value F)) (hvs : ∀ v ∈ vs, v.attr_type = T) (hne : vs ≠ [])
    (s : AggrState F D) (hs : s.value_ = Value.undefined) :
    is_least ops (vs.foldl (accumulate ops a) s).value_ vs := by
  have hT : T ≠ AttrType.UNDEFINED := by rcases hnum with rfl | rfl <;> decide
  obtain ⟨-, hirr, -, hstep⟩ := compare_numeric_laws ops T hnum hord
  cases vs with
  | nil => exact absurd rfl hne
  | cons v0 rest =>
    have h0 : v0.attr_type = T := hvs v0 (by simp)
    have hfirst : (accumulate ops a s v0).value_ = v0 := by
      simp [accumulate, aggr_func_, ha, min_aggr_func, hs, Value.attr_type]
    simp only [List.foldl_cons]
    rw [foldl_min_value ops a ha T hT rest (fun w hw => hvs w (by simp [hw])) _
      (by rw [hfirst]; exact h0), hfirst]
    obtain ⟨-, hmem, hmax⟩ := foldl_extremum (fun a b : Value F => a.compare ops b > 0)
      (fun v => v.attr_type = T) hirr hstep rest v0 h0 (fun w hw => hvs w (by simp [hw]))
    exact ⟨hmem, fun v hv => not_lt.mp (hmax v hv)⟩

theorem non_null_values_typed (field : Field) (S : List (Tuple F))
    (htyped : ∀ t ∈ S, (field_value field t).attr_type = AttrType.NULLS ∨
      (field_value field t).attr_type = field.attr_type) :
    ∀ v ∈ non_null_values field S, v.attr_type = field.attr_type := by
  intro v hv
  simp only [non_null_values, List.mem_filter, List.mem_map, decide_eq_true_eq] at hv
  obtain ⟨⟨t, ht, rfl⟩, hnn⟩ := hv
  rcases htyped t ht with h | h
  · exact absurd h hnn
  · exact h

theorem non_null_values_ne_nil (field : Field) (S : List (Tuple F))
    (hne : ∃ t ∈ S, (field_value field t).attr_type ≠ AttrType.NULLS) :
    non_null_values field S ≠ [] := by
  obtain ⟨t, ht, hnn⟩ := hne
  intro h
  have : field_value field t ∈ non_null_values field S := by
    simp only [non_null_values, List.mem_filter, List.mem_map, decide_eq_true_eq]
    exact ⟨⟨t, ht, rfl⟩, hnn⟩
  rw [h] at this
  simp at this

theorem is_greatest_ints (ops : ValueOps F D) (m : Value F) (vs : List (Value F))
    (hvs : ∀ v ∈ vs, v.attr_type = AttrType.INTS) (h : is_greatest ops m vs) :
    ∃ k, m = Value.int k ∧ ∀ x, Value.int x ∈ vs → x ≤ k := by
  obtain ⟨k, rfl⟩ := attr_type_ints (hvs m h.1)
  refine ⟨k, rfl, fun x hx => ?_⟩
  have := h.2 _ hx
  simp only [Value.compare, Value.compare_int] at this
  split_ifs at this <;> omega

theorem is_least_ints (ops : ValueOps F D) (m : Value F) (vs : List (Value F))
    (hvs : ∀ v ∈ vs, v.attr_type = AttrType.INTS) (h : is_least ops m vs) :
    ∃ k, m = Value.int k ∧ ∀ x, Value.int x ∈ vs → k ≤ x := by
  obtain ⟨k, rfl⟩ := attr_type_ints (hvs m h.1)
  refine ⟨k, rfl, fun x hx => ?_⟩
  have := h.2 _ hx
  simp only [Value.compare, Value.compare_int] at this
  split_ifs at this <;> omega

theorem exact_fcmp_neg (a b : ℚ) : exact_ops.fcmp a b < 0 ↔ a < b := by
  simp only [exact_ops]
  rcases lt_trichotomy a b with h | h | h
  · simp [h]
  · simp [h]
  · simp [not_lt_of_gt h, ne_of_gt h]

theorem exact_fcmp_pos (a b : ℚ) : exact_ops.fcmp a b > 0 ↔ b < a := by
  simp only [exact_ops]
  rcases lt_trichotomy a b with h | h | h
  · simp [h, not_lt_of_gt h]
  · simp [h]
  · simp [not_lt_of_gt h, ne_of_gt h, h]

theorem exact_ops_float_order : FloatOrder exact_ops where
  not_lt_self := by intro a; simp [exact_fcmp_neg]
  not_gt_self := by intro a; simp [exact_fcmp_pos]
  lt_step := by
    intro a b c
    simp only [exact_fcmp_neg, not_lt]
    intro h1 h2
    linarith
  gt_step := by
    intro a b c
    simp only [exact_fcmp_pos, not_lt]
    intro h1 h2
    linarith

theorem aggregate_of_no_value (ops : ValueOps F D) (a : AggregationExpr) (s0 : AggrState F D)
    (S : List (Tuple F))
    (hS : ∀ t ∈ S, (field_value a.field_ t).attr_type = AttrType.NULLS) :
    aggr_tuples ops a (begin_aggr ops s0).2 S = (begin_aggr ops s0).2 := by
  have : non_null_values a.field_ S = [] := by
    simp only [non_null_values, List.filter_eq_nil_iff, List.mem_map, decide_eq_true_eq]
    rintro v ⟨t, ht, rfl⟩
    simpa using hS t ht
  rw [aggr_tuples_eq_foldl, this]; rfl

/-! ## Conjunction -/

theorem get_value_children_skip (ops : ValueOps F D) (ty : ConjunctionType) (tuple : Tuple F)
    (pre rest : List (Expression F)) (tmp0 tmp out : Value F)
    (h : non_absorbing ops ty tuple pre tmp0 = some tmp) :
    get_value_children ops ty (pre ++ rest) tuple tmp0 out
      = get_value_children ops ty rest tuple tmp out := by
  induction pre generalizing tmp0 with
  | nil =>
    simp only [non_absorbing, Option.some.injEq] at h
    subst h
    rfl
  | cons e es ih =>
    simp only [non_absorbing] at h
    simp only [List.cons_append, get_value_children]
    cases hev : get_value ops e tuple tmp0 with
    | none => simp [hev] at h
    | some r =>
      obtain ⟨rc, v⟩ := r
      cases rc <;> simp [hev] at h
      obtain ⟨hb, hrest⟩ := h
      cases ty <;> simp [hb, ih v hrest] at *

theorem children_evaluated_skip (ops : ValueOps F D) (ty : ConjunctionType) (tuple : Tuple F)
    (pre rest : List (Expression F)) (tmp0 tmp : Value F)
    (h : non_absorbing ops ty tuple pre tmp0 = some tmp) :
    children_evaluated ops ty tuple (pre ++ rest) tmp0
      = pre.length + children_evaluated ops ty tuple rest tmp := by
  induction pre generalizing tmp0 with
  | nil =>
    simp only [non_absorbing, Option.some.injEq] at h
    subst h
    simp
  | cons e es ih =>
    simp only [non_absorbing] at h
    simp only [List.cons_append, children_evaluated, List.length_cons]
    cases hev : get_value ops e tuple tmp0 with
    | none => simp [hev] at h
    | some r =>
      obtain ⟨rc, v⟩ := r
      cases rc <;> simp [hev] at h
      obtain ⟨hb, hrest⟩ := h
      cases ty <;> simp [hb, ih v hrest] at * <;> omega

/-! ## Arithmetic and cast -/

theorem calc_value_fst (ops : ValueOps F D) (ty : ArithmeticType) (T : AttrType)
    (l r v : Value F) : (ArithmeticExpr.calc_value ops ty T l r v).1 = RC.SUCCESS := by
  cases ty <;> simp only [ArithmeticExpr.calc_value] <;> split_ifs <;> rfl

theorem try_get_value_arithmetic_only (ops : ValueOps F D) :
    ∀ (e : Expression F) (out : Value F), arithmetic_only e = true →
      (try_get_value ops e out).1
        = if contains_field_expr e = true then RC.INVALID_ARGUMENT else RC.SUCCESS
  | FieldExpr _, _, _ => by simp [try_get_value, contains_field_expr]
  | ValueExpr _, _, _ => by simp [try_get_value, contains_field_expr]
  | CastExpr _ _, _, h => by simp [arithmetic_only] at h
  | ComparisonExpr _ _ _, _, h => by simp [arithmetic_only] at h
  | ConjunctionExpr _ _, _, h => by simp [arithmetic_only] at h
  | Expression.AggregationExpr _, _, h => by simp [arithmetic_only] at h
  | ArithmeticExpr ty l none, out, h => by
    have hl : arithmetic_only l = true := by simpa [arithmetic_only] using h
    have ih := try_get_value_arithmetic_only ops l Value.undefined hl
    simp only [try_get_value, contains_field_expr]
    by_cases hc : contains_field_expr l = true
    · simp [hc] at ih
      simp [hc, ih]
    · simp [hc] at ih
      simp [hc, ih, calc_value_fst]
  | ArithmeticExpr ty l (some r), out, h => by
    have hlr : arithmetic_only l = true ∧ arithmetic_only r = true := by
      simpa [arithmetic_only] using h
    have ihl := try_get_value_arithmetic_only ops l Value.undefined hlr.1
    have ihr := try_get_value_arithmetic_only ops r Value.undefined hlr.2
    simp only [try_get_value, contains_field_expr]
    by_cases hcl : contains_field_expr l = true
    · simp [hcl] at ihl
      simp [hcl, ihl]
    · simp [hcl] at ihl
      by_cases hcr : contains_field_expr r = true
      · simp [hcr] at ihr
        simp [hcl, hcr, ihl, ihr]
      · simp [hcr] at ihr
        simp [hcl, hcr, ihl, ihr, calc_value_fst]

/-! ## Plan generator -/

theorem filter_cmp_exprs_eq (units : List (FilterUnit F)) (acc : List (Expression F)) :
    filter_cmp_exprs units acc = acc ++ units.map (fun u =>
      Expression.ComparisonExpr u.comp (filter_obj_expr u.left) (filter_obj_expr u.right)) := by
  induction units generalizing acc with
  | nil => simp [filter_cmp_exprs]
  | cons u rest ih => simp [filter_cmp_exprs, ih]

theorem create_plan_filter_eq (filter_stmt : FilterStmt F) (lo : Option (LogicalOperator F)) :
    create_plan_filter filter_stmt lo =
      (RC.SUCCESS,
        if filter_stmt.filter_units.isEmpty then none
        else some (LogicalOperator.mk (OperatorNode.PredicateLogicalOperator
          (Expression.ConjunctionExpr ConjunctionType.AND (filter_stmt.filter_units.map (fun u =>
            Expression.ComparisonExpr u.comp (filter_obj_expr u.left)
              (filter_obj_expr u.right))))) [])) := by
  unfold create_plan_filter
  cases h : filter_stmt.filter_units with
  | nil => simp [filter_cmp_exprs_eq]
  | cons u rest => simp [filter_cmp_exprs_eq, LogicalOperator.new]

theorem table_fields_loop_eq (table : Table) (n i : Nat) (acc : List Field) :
    table_fields_loop table n i acc =
      acc ++ ((table.table_meta.fields.drop i).take n).map (Field.of_meta table) := by
  induction n generalizing i acc with
  | zero => simp [table_fields_loop]
  | succ n ih =>
    cases h : table.table_meta.fields[i]? with
    | none =>
      have hlen : table.table_meta.fields.length ≤ i := List.getElem?_eq_none_iff.mp h
      simp only [table_fields_loop, TableMeta.field, h]
      simp [ih, List.drop_eq_nil_of_le hlen, List.drop_eq_nil_of_le (Nat.le_succ_of_le hlen)]
    | some m =>
      obtain ⟨hi, hm⟩ := List.getElem?_eq_some_iff.mp h
      simp only [table_fields_loop, TableMeta.field, h]
      rw [ih, List.drop_eq_getElem_cons hi, hm]
      simp

theorem table_fields_eq (table : Table) :
    table_fields table =
      (table.table_meta.fields.drop table.table_meta.sys_field_num).map (Field.of_meta table) := by
  unfold table_fields
  rw [table_fields_loop_eq, List.nil_append, List.take_of_length_le]
  simp [TableMeta.field_num]

theorem filter_cmp_exprs_eq' (units : List (FilterUnit F)) (acc : List (Expression F)) :
    filter_cmp_exprs units acc = acc ++ units.map filter_unit_expr := by
  induction units generalizing acc with
  | nil => simp [filter_cmp_exprs]
  | cons u rest ih => simp [filter_cmp_exprs, ih, filter_unit_expr, filter_obj_expr]

theorem create_plan_filter_node (filter_stmt : FilterStmt F) (lo : Option (LogicalOperator F)) :
    create_plan_filter filter_stmt lo =
      (RC.SUCCESS,
        if filter_stmt.filter_units.isEmpty then none
        else some (LogicalOperator.mk (predicate_node filter_stmt) [])) := by
  unfold create_plan_filter
  cases h : filter_stmt.filter_units with
  | nil => simp [filter_cmp_exprs_eq']
  | cons u rest => simp [filter_cmp_exprs_eq', LogicalOperator.new, predicate_node, h]

theorem collect_query_exprs_ok (table : Table) (exprs : List (Expression F))
    (h : ∀ expr ∈ exprs, expr.type = ExprType.FIELD ∨ expr.type = ExprType.AGGREGATION)
    (fields query_fields : List Field) (aggr_exprs : List (Expression F)) :
    collect_query_exprs table exprs (fields, query_fields, aggr_exprs) =
      Except.ok (fields ++ scan_fields table exprs, query_fields ++ scalar_fields table exprs,
        aggr_exprs ++ table_aggr_exprs table exprs) := by
  induction exprs generalizing fields query_fields aggr_exprs with
  | nil => simp [collect_query_exprs, scan_fields, scalar_fields, table_aggr_exprs]
  | cons e rest ih =>
    have hrest : ∀ expr ∈ rest, expr.type = ExprType.FIELD ∨ expr.type = ExprType.AGGREGATION :=
      fun x hx => h x (by simp [hx])
    have he := h e (by simp)
    cases e with
    | FieldExpr field =>
      simp only [collect_query_exprs]
      by_cases hn : field.table_name = table.name
      · simp [hn, ih hrest, scan_fields, scalar_fields, table_aggr_exprs]
      · simp [hn, ih hrest, scan_fields, scalar_fields, table_aggr_exprs]
    | AggregationExpr aggr =>
      simp only [collect_query_exprs]
      by_cases hn : aggr.field_.table_name = table.name
      · simp [hn, ih hrest, scan_fields, scalar_fields, table_aggr_exprs]
      · simp [hn, ih hrest, scan_fields, scalar_fields, table_aggr_exprs]
    | ValueExpr _ => simp [Expression.type] at he
    | CastExpr _ _ => simp [Expression.type] at he
    | ComparisonExpr _ _ _ => simp [Expression.type] at he
    | ConjunctionExpr _ _ => simp [Expression.type] at he
    | ArithmeticExpr _ _ _ => simp [Expression.type] at he

theorem collect_query_exprs_internal (table : Table) (exprs : List (Expression F))
    (h : ∃ expr ∈ exprs, expr.type ≠ ExprType.FIELD ∧ expr.type ≠ ExprType.AGGREGATION)
    (acc : List Field × List Field × List (Expression F)) :
    collect_query_exprs table exprs acc = Except.error RC.INTERNAL := by
  induction exprs generalizing acc with
  | nil => simp at h
  | cons e rest ih =>
    obtain ⟨fields, query_fields, aggr_exprs⟩ := acc
    cases e with
    | FieldExpr field =>
      have hrest : ∃ expr ∈ rest, expr.type ≠ ExprType.FIELD ∧ expr.type ≠ ExprType.AGGREGATION := by
        obtain ⟨x, hx, hx1, hx2⟩ := h
        rcases List.mem_cons.mp hx with rfl | hx
        · simp [Expression.type] at hx1
        · exact ⟨x, hx, hx1, hx2⟩
      simp only [collect_query_exprs]
      split <;> exact ih hrest _
    | AggregationExpr aggr =>
      have hrest : ∃ expr ∈ rest, expr.type ≠ ExprType.FIELD ∧ expr.type ≠ ExprType.AGGREGATION := by
        obtain ⟨x, hx, hx1, hx2⟩ := h
        rcases List.mem_cons.mp hx with rfl | hx
        · simp [Expression.type] at hx2
        · exact ⟨x, hx, hx1, hx2⟩
      simp only [collect_query_exprs]
      split <;> exact ih hrest _
    | ValueExpr _ => simp [collect_query_exprs]
    | CastExpr _ _ => simp [collect_query_exprs]
    | ComparisonExpr _ _ _ => simp [collect_query_exprs]
    | ConjunctionExpr _ _ => simp [collect_query_exprs]
    | ArithmeticExpr _ _ _ => simp [collect_query_exprs]

theorem select_table_loop_append (select_stmt : SelectStmt F) (pre : List Table) (table : Table)
    (st : SelectLoop F) :
    select_table_loop select_stmt (pre ++ [table]) st =
      match select_table_loop select_stmt pre st with
      | some (Except.ok st1) => select_table_step select_stmt st1 table
      | other => other := by
  induction pre generalizing st with
  | nil =>
    simp only [List.nil_append, select_table_loop]
    cases h : select_table_step select_stmt st table with
    | none => rfl
    | some r => cases r <;> rfl
  | cons t rest ih =>
    simp only [List.cons_append, select_table_loop]
    cases h : select_table_step select_stmt st t with
    | none => rfl
    | some r =>
      cases r with
      | error rc => rfl
      | ok st1 => exact ih st1


theorem vector_at_natCast {α : Type} (v : List α) (k : Nat) :
    vector_at v (k : Int) = v[k]? := by
  simp [vector_at]

theorem select_table_loop_prefix (select_stmt : SelectStmt F) (hwf : well_formed select_stmt)
    (pre : List Table) :
    ∀ rest : List Table, select_stmt.tables = pre ++ rest →
      ∃ st : SelectLoop F,
        select_table_loop select_stmt pre ⟨none, 0, [], []⟩ = some (Except.ok st) ∧
        st.index = pre.length ∧
        st.query_fields = pre.flatMap (fun t => scalar_fields t select_stmt.query_exprs) ∧
        st.aggr_exprs = pre.flatMap (fun t => table_aggr_exprs t select_stmt.query_exprs) ∧
        (pre = [] → st.table_oper = none) ∧
        (pre ≠ [] → st.table_oper = left_deep select_stmt (pre.length - 1) ∧
          ∃ oper, st.table_oper = some oper) := by
  induction pre using List.reverseRecOn with
  | nil =>
    intro rest _
    exact ⟨⟨none, 0, [], []⟩, rfl, rfl, rfl, rfl, fun _ => rfl, fun h => absurd rfl h⟩
  | append_singleton l t ih =>
    intro rest htab
    have htab' : select_stmt.tables = l ++ (t :: rest) := by simpa using htab
    obtain ⟨st, hloop, hidx, hqf, hae, hnil, hcons⟩ := ih (t :: rest) htab'
    have hcollect := collect_query_exprs_ok t select_stmt.query_exprs hwf.1 [] st.query_fields
      st.aggr_exprs
    have ht : select_stmt.tables[l.length]? = some t := by
      rw [htab', List.getElem?_append_right (le_refl _)]; simp
    rw [select_table_loop_append, hloop]
    simp only [select_table_step, hcollect, List.nil_append]
    by_cases hl : l = []
    · subst hl
      have hto := hnil rfl
      refine ⟨⟨some (scan select_stmt t), 1, st.query_fields ++ scalar_fields t select_stmt.query_exprs,
        st.aggr_exprs ++ table_aggr_exprs t select_stmt.query_exprs⟩, ?_, ?_, ?_, ?_, ?_, ?_⟩
      · simp at hidx
        by_cases hj : select_stmt.join_stmts.length > 0
        · simp [hj, hto, hidx, scan, LogicalOperator.new]
        · simp [hj, hto, hidx, scan, LogicalOperator.new]
      · simp
      · simp [hqf]
      · simp [hae]
      · intro h; simp at h
      · intro _
        have ht0 : select_stmt.tables[0]? = some t := by simpa using ht
        simp [left_deep, ht0]
    · obtain ⟨hld, oper, hoper⟩ := hcons hl
      obtain ⟨k, hk⟩ : ∃ k, l.length = k + 1 := by
        cases l with
        | nil => exact absurd rfl hl
        | cons a b => exact ⟨b.length, rfl⟩
      have hld' : left_deep select_stmt k = some oper := by
        rw [← hoper, hld, hk]; rfl
      have htk : select_stmt.tables[k + 1]? = some t := by rw [← hk]; exact ht
      have hidx' : st.index - 1 = ((k : Int) + 1 - 1) := by rw [hidx, hk]; push_cast; ring
      by_cases hj : select_stmt.join_stmts.length > 0
      · have hjne : select_stmt.join_stmts ≠ [] := by
          intro h; rw [h] at hj; simp at hj
        obtain ⟨hlen, hcond⟩ := hwf.2.resolve_left hjne
        have hlt : k < select_stmt.join_stmts.length := by
          have : select_stmt.tables.length = l.length + (rest.length + 1) := by
            rw [htab']; simp
          omega
        obtain ⟨join_stmt, hjs⟩ : ∃ j, select_stmt.join_stmts[k]? = some j :=
          ⟨select_stmt.join_stmts[k], List.getElem?_eq_getElem hlt⟩
        have hmem : join_stmt ∈ select_stmt.join_stmts := List.mem_iff_getElem?.mpr ⟨k, hjs⟩
        have hne := hcond join_stmt hmem
        have hemp : join_stmt.join_condition.filter_units.isEmpty = false := by
          cases hu : join_stmt.join_condition.filter_units with
          | nil => exact absurd hu hne
          | cons u r => rfl
        refine ⟨⟨some (LogicalOperator.mk (predicate_node join_stmt.join_condition)
            [some (LogicalOperator.mk OperatorNode.JoinLogicalOperator
              [some oper, some (scan select_stmt t)])]),
          st.index + 1, st.query_fields ++ scalar_fields t select_stmt.query_exprs,
          st.aggr_exprs ++ table_aggr_exprs t select_stmt.query_exprs⟩, ?_, ?_, ?_, ?_, ?_, ?_⟩
        · simp [hj, hoper, hidx', vector_at_natCast, hjs, create_plan_filter_node, hemp, scan,
            LogicalOperator.new, LogicalOperator.add_child]
        · simp [hidx]
        · simp [hqf]
        · simp [hae]
        · intro h; simp at h
        · intro _
          simp only [List.length_append, List.length_singleton, Nat.add_sub_cancel, hk]
          simp [left_deep, hld', htk, hj, hjs]
      · refine ⟨⟨some (LogicalOperator.mk OperatorNode.JoinLogicalOperator
              [some oper, some (scan select_stmt t)]),
          st.index + 1, st.query_fields ++ scalar_fields t select_stmt.query_exprs,
          st.aggr_exprs ++ table_aggr_exprs t select_stmt.query_exprs⟩, ?_, ?_, ?_, ?_, ?_, ?_⟩
        · simp [hj, hoper, scan, LogicalOperator.new, LogicalOperator.add_child]
        · simp [hidx]
        · simp [hqf]
        · simp [hae]
        · intro h; simp at h
        · intro _
          simp only [List.length_append, List.length_singleton, Nat.add_sub_cancel, hk]
          simp [left_deep, hld', htk, hj]

theorem collect_query_exprs_error (table : Table) (exprs : List (Expression F))
    (acc : List Field × List Field × List (Expression F)) (rc : RC)
    (h : collect_query_exprs table exprs acc = Except.error rc) : rc = RC.INTERNAL := by
  induction exprs generalizing acc with
  | nil => simp [collect_query_exprs] at h
  | cons e rest ih =>
    obtain ⟨fields, query_fields, aggr_exprs⟩ := acc
    cases e with
    | FieldExpr field =>
      simp only [collect_query_exprs] at h
      split at h <;> exact ih _ h
    | AggregationExpr aggr =>
      simp only [collect_query_exprs] at h
      split at h <;> exact ih _ h
    | ValueExpr _ => simp [collect_query_exprs] at h; exact h.symm
    | CastExpr _ _ => simp [collect_query_exprs] at h; exact h.symm
    | ComparisonExpr _ _ _ => simp [collect_query_exprs] at h; exact h.symm
    | ConjunctionExpr _ _ => simp [collect_query_exprs] at h; exact h.symm
    | ArithmeticExpr _ _ _ => simp [collect_query_exprs] at h; exact h.symm

theorem select_table_step_error (select_stmt : SelectStmt F) (st : SelectLoop F) (table : Table)
    (rc : RC) (h : select_table_step select_stmt st table = some (Except.error rc)) :
    rc = RC.INTERNAL := by
  unfold select_table_step at h
  cases hc : collect_query_exprs table select_stmt.query_exprs ([], st.query_fields, st.aggr_exprs) with
  | error rc1 =>
    rw [hc] at h
    simp only [Option.some.injEq, Except.error.injEq] at h
    subst h
    exact collect_query_exprs_error _ _ _ _ hc
  | ok r =>
    obtain ⟨fields, query_fields, aggr_exprs⟩ := r
    rw [hc] at h
    simp only [create_plan_filter_node] at h
    split at h
    · split at h
      · simp at h
      · split at h
        · simp at h
        · simp only [ne_eq, not_true_eq_false, if_false] at h
          split at h <;> simp at h
    · split at h <;> simp at h

theorem select_table_step_ok (select_stmt : SelectStmt F) (st st1 : SelectLoop F) (table : Table)
    (h : select_table_step select_stmt st table = some (Except.ok st1)) :
    ∃ oper, st1.table_oper = some oper := by
  unfold select_table_step at h
  cases hc : collect_query_exprs table select_stmt.query_exprs ([], st.query_fields, st.aggr_exprs) with
  | error rc1 =>
    rw [hc] at h
    simp at h
  | ok r =>
    obtain ⟨fields, query_fields, aggr_exprs⟩ := r
    rw [hc] at h
    simp only [create_plan_filter_node] at h
    split at h
    · split at h
      · simp only [Option.some.injEq, Except.ok.injEq] at h
        exact ⟨_, by rw [← h]⟩
      · split at h
        · simp at h
        · simp only [ne_eq, not_true_eq_false, if_false] at h
          split at h
          · simp at h
          · simp only [Option.some.injEq, Except.ok.injEq] at h
            exact ⟨_, by rw [← h]⟩
    · split at h
      · simp only [Option.some.injEq, Except.ok.injEq] at h
        exact ⟨_, by rw [← h]⟩
      · simp only [Option.some.injEq, Except.ok.injEq] at h
        exact ⟨_, by rw [← h]⟩

theorem select_table_loop_error (select_stmt : SelectStmt F) (tables : List Table)
    (st : SelectLoop F) (rc : RC)
    (h : select_table_loop select_stmt tables st = some (Except.error rc)) :
    rc = RC.INTERNAL := by
  induction tables generalizing st with
  | nil => simp [select_table_loop] at h
  | cons t rest ih =>
    simp only [select_table_loop] at h
    cases hs : select_table_step select_stmt st t with
    | none => rw [hs] at h; simp at h
    | some r =>
      cases r with
      | error rc1 =>
        rw [hs] at h
        simp only [Option.some.injEq, Except.error.injEq] at h
        subst h
        exact select_table_step_error _ _ _ _ hs
      | ok st1 =>
        rw [hs] at h
        exact ih st1 h

theorem select_table_loop_ok (select_stmt : SelectStmt F) (tables : List Table)
    (st st1 : SelectLoop F)
    (hst : (∃ oper, st.table_oper = some oper) ∨ tables ≠ [])
    (h : select_table_loop select_stmt tables st = some (Except.ok st1)) :
    ∃ oper, st1.table_oper = some oper := by
  induction tables generalizing st with
  | nil =>
    simp only [select_table_loop, Option.some.injEq, Except.ok.injEq] at h
    subst h
    exact hst.resolve_right (by simp)
  | cons t rest ih =>
    simp only [select_table_loop] at h
    cases hs : select_table_step select_stmt st t with
    | none => rw [hs] at h; simp at h
    | some r =>
      cases r with
      | error rc1 => rw [hs] at h; simp at h
      | ok st2 =>
        rw [hs] at h
        exact ih st2 (Or.inl (select_table_step_ok _ _ _ _ hs)) h

theorem link_stack_five (T P A O : Option (LogicalOperator F)) (proj : LogicalOperator F) :
    link_stack 5 0 [T, P, A, O, some proj]
      = [none, none, none, none,
          stack_over (some proj) (stack_over O (stack_over A (stack_over P T)))] := by
  cases T <;> cases P <;> cases A <;> cases O <;>
    simp [link_stack, link_step, attach_to_next, stack_over]

theorem stack_over_new (node : Option (OperatorNode F)) (below : Option (LogicalOperator F)) :
    stack_over (node.map LogicalOperator.new) below = stage_over node below := by
  cases node <;> cases below <;> rfl

theorem create_plan_select_ok (select_stmt : SelectStmt F) (lo : Option (LogicalOperator F))
    (st : SelectLoop F)
    (hloop : select_table_loop select_stmt select_stmt.tables ⟨none, 0, [], []⟩
      = some (Except.ok st))
    (hgroup : select_stmt.groups.isEmpty = true ∨
      st.query_fields.all (in_group_by select_stmt.groups) = true) :
    create_plan_select select_stmt lo = some (RC.SUCCESS,
      stage_over (some (OperatorNode.ProjectLogicalOperator select_stmt.query_exprs))
        (stage_over
          (if select_stmt.orders.isEmpty then none
            else some (OperatorNode.OrderLogicalOperator select_stmt.orders))
          (stage_over
            (if st.aggr_exprs.isEmpty then none
              else some (OperatorNode.AggregationLogicalOperator st.aggr_exprs st.query_fields
                select_stmt.groups))
            (stage_over
              (if select_stmt.filter_stmt.filter_units.isEmpty then none
                else some (predicate_node select_stmt.filter_stmt))
              st.table_oper)))) := by
  have hg : ¬ (¬ select_stmt.groups.isEmpty = true ∧
      st.query_fields.all (in_group_by select_stmt.groups) = false) := by
    rintro ⟨h1, h2⟩
    rcases hgroup with h | h
    · exact h1 h
    · rw [h] at h2; simp at h2
  have hP : (create_plan_filter select_stmt.filter_stmt none) = (RC.SUCCESS,
      (if select_stmt.filter_stmt.filter_units.isEmpty then none
        else some (predicate_node select_stmt.filter_stmt)).map LogicalOperator.new) := by
    rw [create_plan_filter_node]
    cases select_stmt.filter_stmt.filter_units <;> rfl
  have hA : (if st.aggr_exprs.length ≠ 0 then
        some (LogicalOperator.new (OperatorNode.AggregationLogicalOperator st.aggr_exprs
          st.query_fields select_stmt.groups))
      else none) = (if st.aggr_exprs.isEmpty then none
        else some (OperatorNode.AggregationLogicalOperator st.aggr_exprs st.query_fields
          select_stmt.groups)).map LogicalOperator.new := by
    cases st.aggr_exprs <;> rfl
  have hO : (if ¬ select_stmt.orders.isEmpty = true then
        some (LogicalOperator.new (OperatorNode.OrderLogicalOperator select_stmt.orders))
      else none : Option (LogicalOperator F)) = (if select_stmt.orders.isEmpty then none
        else some (OperatorNode.OrderLogicalOperator select_stmt.orders)).map
          LogicalOperator.new := by
    cases select_stmt.orders <;> rfl
  unfold create_plan_select
  rw [hloop]
  simp only [hg, if_false, hP, hA, hO, ne_eq, not_true_eq_false, List.length_cons,
    List.length_nil, ← stack_over_new]
  rw [show (0 + 1 + 1 + 1 + 1 + 1 : Nat) = 5 from rfl, link_stack_five]
  rfl


theorem create_plan_select_group_invalid (select_stmt : SelectStmt F)
    (lo : Option (LogicalOperator F)) (st : SelectLoop F)
    (hloop : select_table_loop select_stmt select_stmt.tables ⟨none, 0, [], []⟩
      = some (Except.ok st))
    (hgroup : select_stmt.groups.isEmpty = false ∧
      st.query_fields.all (in_group_by select_stmt.groups) = false) :
    create_plan_select select_stmt lo = some (RC.GROUP_BY_SELECT_INVALID, lo) := by
  unfold create_plan_select
  rw [hloop]
  simp [hgroup.1, hgroup.2]

theorem scalar_fields_cons_field (table : Table) (f : Field) (rest : List (Expression F)) :
    scalar_fields table (Expression.FieldExpr f :: rest) =
      if f.table_name = table.name then f :: scalar_fields table rest
      else scalar_fields table rest := by
  unfold scalar_fields
  by_cases hf : f.table_name = table.name
  · rw [List.filterMap_cons_some (b := f) (by simp [hf])]; simp [hf]
  · rw [List.filterMap_cons_none (by simp [hf])]; simp [hf]

theorem scalar_fields_cons_other (table : Table) (e : Expression F) (rest : List (Expression F))
    (he : e.type ≠ ExprType.FIELD) :
    scalar_fields table (e :: rest) = scalar_fields table rest := by
  unfold scalar_fields
  cases e with
  | FieldExpr f => simp [Expression.type] at he
  | _ => rw [List.filterMap_cons_none rfl]

theorem mem_scalar_fields (table : Table) (exprs : List (Expression F)) (field : Field) :
    field ∈ scalar_fields table exprs ↔
      Expression.FieldExpr field ∈ exprs ∧ field.table_name = table.name := by
  induction exprs with
  | nil => simp [scalar_fields]
  | cons e rest ih =>
    by_cases he : e.type = ExprType.FIELD
    · cases e with
      | FieldExpr f =>
        rw [scalar_fields_cons_field]
        by_cases hf : f.table_name = table.name
        · simp only [hf, if_true, List.mem_cons, ih, Expression.FieldExpr.injEq]
          constructor
          · rintro (h | h)
            · rw [h]; exact ⟨Or.inl rfl, hf⟩
            · exact ⟨Or.inr h.1, h.2⟩
          · rintro ⟨h | h, h2⟩
            · exact Or.inl h
            · exact Or.inr ⟨h, h2⟩
        · simp only [hf, if_false, ih, List.mem_cons, Expression.FieldExpr.injEq]
          constructor
          · rintro ⟨h, h2⟩; exact ⟨Or.inr h, h2⟩
          · rintro ⟨h | h, h2⟩
            · rw [h] at h2; exact absurd h2 hf
            · exact ⟨h, h2⟩
      | _ => simp [Expression.type] at he
    · rw [scalar_fields_cons_other table e rest he, ih, List.mem_cons]
      constructor
      · rintro ⟨h, h2⟩; exact ⟨Or.inr h, h2⟩
      · rintro ⟨h | h, h2⟩
        · rw [← h] at he; simp [Expression.type] at he
        · exact ⟨h, h2⟩

theorem query_fields_unmatched (select_stmt : SelectStmt F) :
    (select_stmt.tables.flatMap (fun t => scalar_fields t select_stmt.query_exprs)).all
        (in_group_by select_stmt.groups) = false ↔ unmatched_scalar_field select_stmt := by
  rw [Bool.eq_false_iff, ne_eq, List.all_eq_true]
  simp only [List.mem_flatMap, mem_scalar_fields, in_group_by, List.any_eq_true,
    decide_eq_true_eq, unmatched_scalar_field]
  constructor
  · intro h
    push_neg at h
    obtain ⟨f, ⟨t, ht, hf, hn⟩, hg⟩ := h
    exact ⟨f, hf, ⟨t, ht, hn⟩, fun g hg1 hg2 => hg g hg1 hg2.1 hg2.2⟩
  · rintro ⟨f, hf, ⟨t, ht, hn⟩, hg⟩ h
    obtain ⟨g, hg1, hg2⟩ := h f ⟨t, ht, hf, hn⟩
    exact hg g hg1 hg2

theorem create_success_some (stmt : Stmt F) (lo p : Option (LogicalOperator F))
    (h : create stmt lo = some (RC.SUCCESS, p)) : ∃ oper, p = some oper := by
  cases stmt with
  | CALC s =>
    simp only [create, create_plan_calc, Option.some.injEq, Prod.mk.injEq, true_and] at h
    exact ⟨_, h.symm⟩
  | INSERT s =>
    simp only [create, create_plan_insert, Option.some.injEq, Prod.mk.injEq, true_and] at h
    exact ⟨_, h.symm⟩
  | UPDATE s =>
    simp only [create, create_plan_update, create_plan_filter_node, ne_eq, not_true_eq_false,
      if_false, Option.some.injEq] at h
    split at h <;> exact ⟨_, (Prod.mk.inj h).2.symm⟩
  | DELETE s =>
    simp only [create, create_plan_delete, create_plan_filter_node, ne_eq, not_true_eq_false,
      if_false, Option.some.injEq] at h
    split at h <;> exact ⟨_, (Prod.mk.inj h).2.symm⟩
  | OTHER k => simp [create] at h
  | EXPLAIN e =>
    cases e with
    | mk child =>
      simp only [create, create_plan_explain] at h
      cases hc : create child none with
      | none => rw [hc] at h; simp at h
      | some r =>
        obtain ⟨rc, co⟩ := r
        rw [hc] at h
        by_cases hrc : rc = RC.SUCCESS
        · simp only [hrc, ne_eq, not_true_eq_false, if_false, Option.some.injEq,
            Prod.mk.injEq, true_and] at h
          exact ⟨_, h.symm⟩
        · simp [hrc] at h
  | SELECT s =>
    simp only [create] at h
    cases hloop : select_table_loop s s.tables ⟨none, 0, [], []⟩ with
    | none => simp [create_plan_select, hloop] at h
    | some r =>
      cases r with
      | error rc =>
        have := select_table_loop_error _ _ _ _ hloop
        simp [create_plan_select, hloop, this] at h
      | ok st =>
        by_cases hg : s.groups.isEmpty = true ∨ st.query_fields.all (in_group_by s.groups) = true
        · rw [create_plan_select_ok s lo st hloop hg] at h
          simp only [Option.some.injEq, Prod.mk.injEq, true_and] at h
          exact ⟨_, by rw [← h]; rfl⟩
        · have hg' : s.groups.isEmpty = false ∧
              st.query_fields.all (in_group_by s.groups) = false := by
            push_neg at hg
            simpa using hg
          rw [create_plan_select_group_invalid s lo st hloop hg'] at h
          simp at h

/-! ## Constant arithmetic and the two-column rows -/

theorem get_value_literal_arithmetic (ops : ValueOps F D) (tuple : Tuple F) :
    ∀ (e : Expression F) (out : Value F), literal_arithmetic e = true →
      (try_get_value ops e out).1 = RC.SUCCESS ∧
      get_value ops e tuple out
        = if contains_unary e = true then none else some (try_get_value ops e out)
  | FieldExpr _, _, h => by simp [literal_arithmetic] at h
  | ValueExpr _, _, _ => by simp [try_get_value, get_value, contains_unary]
  | CastExpr _ _, _, h => by simp [literal_arithmetic] at h
  | ComparisonExpr _ _ _, _, h => by simp [literal_arithmetic] at h
  | ConjunctionExpr _ _, _, h => by simp [literal_arithmetic] at h
  | Expression.AggregationExpr _, _, h => by simp [literal_arithmetic] at h
  | ArithmeticExpr ty l none, out, h => by
    have hl : literal_arithmetic l = true := by simpa [literal_arithmetic] using h
    have ih := get_value_literal_arithmetic ops tuple l Value.undefined hl
    constructor
    · simp [try_get_value, ih.1, calc_value_fst]
    · simp only [get_value, contains_unary, if_true, ih.2]
      by_cases hu : contains_unary l = true
      · simp [hu]
      · simp [hu, ih.1]
  | ArithmeticExpr ty l (some r), out, h => by
    have hlr : literal_arithmetic l = true ∧ literal_arithmetic r = true := by
      simpa [literal_arithmetic] using h
    have ihl := get_value_literal_arithmetic ops tuple l Value.undefined hlr.1
    have ihr := get_value_literal_arithmetic ops tuple r Value.undefined hlr.2
    constructor
    · simp [try_get_value, ihl.1, ihr.1, calc_value_fst]
    · simp only [get_value, contains_unary, ihl.2, ihr.2]
      by_cases hul : contains_unary l = true
      · simp [hul]
      · by_cases hur : contains_unary r = true
        · simp [hul, hur, ihl.1]
        · simp [hul, hur, ihl.1, ihr.1, try_get_value]

theorem field_value_row_id (id score : Value F) :
    field_value sample_int_field (row_tuple id score) = id := by
  simp [field_value, FieldExpr.get_value, row_tuple, TupleCellSpec.of_names, sample_int_field]

theorem field_value_row_score (id score : Value F) :
    field_value sample_float_field (row_tuple id score) = score := by
  simp [field_value, FieldExpr.get_value, row_tuple, TupleCellSpec.of_names, sample_float_field]

end Lemmas

section Claims

variable {F D : Type}

open AggregationExpr Expression LogicalPlanGenerator

/-! ## Aggregation -/

/-- C1 (amended): for every aggregation kind bound to a numeric field and every stream
whose field values are `NULLS` or of the field type, at least one of them not `NULLS`, the
life cycle `begin_aggr`, `aggr_tuple` on each tuple, `get_result` returns `SUCCESS` with
the closed form over the non-NULL values: MAX a value that none compares greater than
(the greatest integer, for an `INTS` field), MIN dually, SUM of an `INTS` field the sum
reduced to 32 bits (the sum itself when it fits an `int`), SUM of a `FLOATS` field the
values added in order in double precision then narrowed, COUNT the number of values
reduced to 32 bits (the number itself when it fits an `int`), AVG the double precision
sum divided by the number of values, as a FLOAT. -/
theorem aggregate_closed_form (ops : ValueOps F D) (field : Field) (s0 : AggrState F D)
    (S : List (Tuple F)) (out : Value F)
    (hnum : field.attr_type = AttrType.INTS ∨ field.attr_type = AttrType.FLOATS)
    (hord : field.attr_type = AttrType.FLOATS → FloatOrder ops)
    (htyped : ∀ t ∈ S, (field_value field t).attr_type = AttrType.NULLS ∨
      (field_value field t).attr_type = field.attr_type)
    (hne : ∃ t ∈ S, (field_value field t).attr_type ≠ AttrType.NULLS) :
    (∃ m, aggregate ops (AggregationExpr.new field AggrFuncType.MAX_AGGR_T) s0 S out
        = (RC.SUCCESS, m) ∧ is_greatest ops m (non_null_values field S) ∧
        (field.attr_type = AttrType.INTS →
          ∃ k, m = Value.int k ∧ ∀ x, Value.int x ∈ non_null_values field S → x ≤ k)) ∧
    (∃ m, aggregate ops (AggregationExpr.new field AggrFuncType.MIN_AGGR_T) s0 S out
        = (RC.SUCCESS, m) ∧ is_least ops m (non_null_values field S) ∧
        (field.attr_type = AttrType.INTS →
          ∃ k, m = Value.int k ∧ ∀ x, Value.int x ∈ non_null_values field S → k ≤ x)) ∧
    (field.attr_type = AttrType.INTS →
      aggregate ops (AggregationExpr.new field AggrFuncType.SUM_AGGR_T) s0 S out
        = (RC.SUCCESS, Value.int (wrap_int32 (ref_sum_int ops (non_null_values field S)))) ∧
      (INT_MIN ≤ ref_sum_int ops (non_null_values field S) →
        ref_sum_int ops (non_null_values field S) ≤ INT_MAX →
        aggregate ops (AggregationExpr.new field AggrFuncType.SUM_AGGR_T) s0 S out
          = (RC.SUCCESS, Value.int (ref_sum_int ops (non_null_values field S))))) ∧
    (field.attr_type = AttrType.FLOATS →
      aggregate ops (AggregationExpr.new field AggrFuncType.SUM_AGGR_T) s0 S out
        = (RC.SUCCESS, Value.float (ops.narrow (ref_sum_double ops (non_null_values field S))))) ∧
    (aggregate ops (AggregationExpr.new field AggrFuncType.COUNT_AGGR_T) s0 S out
        = (RC.SUCCESS, Value.int (wrap_int32 (non_null_values field S).length)) ∧
      (((non_null_values field S).length : Int) ≤ INT_MAX →
        aggregate ops (AggregationExpr.new field AggrFuncType.COUNT_AGGR_T) s0 S out
          = (RC.SUCCESS, Value.int (non_null_values field S).length))) ∧
    ((non_null_values field S).length < 2 ^ 63 →
      aggregate ops (AggregationExpr.new field AggrFuncType.AVG_AGGR_T) s0 S out
        = (RC.SUCCESS, Value.float (ops.narrow (ops.ddiv
            (ref_sum_double ops (non_null_values field S))
            (ops.i2d (non_null_values field S).length))))) := by
  have hvs := non_null_values_typed field S htyped
  have hnn := non_null_values_ne_nil field S hne
  have hz : (0 : Int) = wrap_int64 0 := by decide
  refine ⟨?_, ?_, ?_, ?_, ?_, ?_⟩
  · have hg := max_from_undefined ops (AggregationExpr.new field AggrFuncType.MAX_AGGR_T) rfl
      field.attr_type hnum hord _ hvs hnn (begin_aggr ops s0).2 rfl
    refine ⟨_, ?_, hg, fun hint => is_greatest_ints ops _ _ (fun v hv => (hvs v hv).trans hint) hg⟩
    simp only [aggregate, aggr_tuples_eq_foldl, get_result]
    rw [show (AggregationExpr.new field AggrFuncType.MAX_AGGR_T).field_ = field from rfl,
      foldl_has_record _ _ _ _ hnn]
    rfl
  · have hg := min_from_undefined ops (AggregationExpr.new field AggrFuncType.MIN_AGGR_T) rfl
      field.attr_type hnum hord _ hvs hnn (begin_aggr ops s0).2 rfl
    refine ⟨_, ?_, hg, fun hint => is_least_ints ops _ _ (fun v hv => (hvs v hv).trans hint) hg⟩
    simp only [aggregate, aggr_tuples_eq_foldl, get_result]
    rw [show (AggregationExpr.new field AggrFuncType.MIN_AGGR_T).field_ = field from rfl,
      foldl_has_record _ _ _ _ hnn]
    rfl
  · intro hint
    have key : aggregate ops (AggregationExpr.new field AggrFuncType.SUM_AGGR_T) s0 S out
        = (RC.SUCCESS, Value.int (wrap_int32 (ref_sum_int ops (non_null_values field S)))) := by
      simp only [aggregate, aggr_tuples_eq_foldl, get_result]
      rw [show (AggregationExpr.new field AggrFuncType.SUM_AGGR_T).field_ = field from rfl,
        foldl_has_record _ _ _ _ hnn,
        foldl_sum_i_val ops _ rfl (by simpa [AggregationExpr.new] using hint) _ _ 0 hz]
      simp [AggregationExpr.new, hint, wrap_int32_wrap_int64]
    exact ⟨key, fun h1 h2 => by rw [key, wrap_int32_of_range _ h1 h2]⟩
  · intro hfl
    simp only [aggregate, aggr_tuples_eq_foldl, get_result]
    rw [show (AggregationExpr.new field AggrFuncType.SUM_AGGR_T).field_ = field from rfl,
      foldl_has_record _ _ _ _ hnn,
      foldl_sum_f_val ops _ rfl (by simpa [AggregationExpr.new] using hfl)]
    simp [AggregationExpr.new, hfl, ref_sum_double, begin_aggr]
  · have key : aggregate ops (AggregationExpr.new field AggrFuncType.COUNT_AGGR_T) s0 S out
        = (RC.SUCCESS, Value.int (wrap_int32 (non_null_values field S).length)) := by
      simp only [aggregate, aggr_tuples_eq_foldl, get_result]
      rw [show (AggregationExpr.new field AggrFuncType.COUNT_AGGR_T).field_ = field from rfl,
        foldl_has_record _ _ _ _ hnn, foldl_count_i_val ops _ rfl _ _ 0 hz]
      simp [AggregationExpr.new, wrap_int32_wrap_int64]
    refine ⟨key, fun h => ?_⟩
    rw [key, wrap_int32_of_range _ (by unfold INT_MIN; omega) h]
  · intro hlen
    have hpos : 0 < (non_null_values field S).length := List.length_pos.mpr hnn
    have hi : wrap_int64 (0 + ((non_null_values field S).length : Int))
        = (non_null_values field S).length := by
      rw [zero_add]; exact wrap_int64_of_small _ hlen
    simp only [aggregate, aggr_tuples_eq_foldl, get_result]
    rw [show (AggregationExpr.new field AggrFuncType.AVG_AGGR_T).field_ = field from rfl,
      foldl_has_record _ _ _ _ hnn, foldl_avg_i_val ops _ rfl rfl _ _ 0 hz,
      foldl_avg_f_val ops _ rfl rfl, hi]
    have hne0 : ((non_null_values field S).length : Int) ≠ 0 := by omega
    simp [AggregationExpr.new, hne0, ref_sum_double, begin_aggr]

/-- Witness for C1: a `FLOATS` column holding `10`, `NULL`, `20`; the hypotheses hold and
SUM, COUNT and AVG have the stated closed forms. -/
theorem aggregate_closed_form_witness :
    (∃ t ∈ [cell_tuple (Value.float (10 : ℚ)), cell_tuple Value.nulls,
        cell_tuple (Value.float 20)],
      (field_value sample_float_field t).attr_type ≠ AttrType.NULLS) ∧
    aggregate exact_ops (AggregationExpr.new sample_float_field AggrFuncType.COUNT_AGGR_T)
      sample_state [cell_tuple (Value.float 10), cell_tuple Value.nulls,
        cell_tuple (Value.float 20)] Value.undefined
      = (RC.SUCCESS, Value.int (wrap_int32 (non_null_values sample_float_field
          [cell_tuple (Value.float (10 : ℚ)), cell_tuple Value.nulls,
            cell_tuple (Value.float 20)]).length)) :=
  have hne : ∃ t ∈ [cell_tuple (Value.float (10 : ℚ)), cell_tuple Value.nulls,
      cell_tuple (Value.float 20)],
      (field_value sample_float_field t).attr_type ≠ AttrType.NULLS :=
    ⟨cell_tuple (Value.float 10), by simp, by
      simp [field_value, FieldExpr.get_value, cell_tuple, Value.attr_type]⟩
  ⟨hne,
    (aggregate_closed_form exact_ops sample_float_field sample_state
      [cell_tuple (Value.float 10), cell_tuple Value.nulls, cell_tuple (Value.float 20)]
      Value.undefined (Or.inr rfl) (fun _ => exact_ops_float_order)
      (by
        intro t ht
        simp only [List.mem_cons, List.mem_singleton, List.not_mem_nil, or_false] at ht
        rcases ht with rfl | rfl | rfl <;>
          simp [field_value, FieldExpr.get_value, cell_tuple, Value.attr_type,
            sample_float_field])
      hne).2.2.2.2.1.1⟩

/-- Counterexample for C1 as stated: SUM over an `INTS` column holding `2147483647` and
`1` returns the INT `-2147483648`, while the sum of the two values is `2147483648`. -/
theorem aggregate_sum_int_counterexample :
    aggregate exact_ops (AggregationExpr.new sample_int_field AggrFuncType.SUM_AGGR_T)
      sample_state [cell_tuple (Value.int 2147483647), cell_tuple (Value.int 1)]
      Value.undefined = (RC.SUCCESS, Value.int (-2147483648)) ∧
    ref_sum_int exact_ops (non_null_values sample_int_field
      [cell_tuple (Value.int 2147483647), cell_tuple (Value.int 1)]) = 2147483648 ∧
    aggregate exact_ops (AggregationExpr.new sample_int_field AggrFuncType.SUM_AGGR_T)
      sample_state [cell_tuple (Value.int 2147483647), cell_tuple (Value.int 1)]
      Value.undefined ≠
      (RC.SUCCESS, Value.int (ref_sum_int exact_ops (non_null_values sample_int_field
        [cell_tuple (Value.int 2147483647), cell_tuple (Value.int 1)]))) := by
  refine ⟨by decide, by decide, by decide⟩

/-- C2: for every aggregation kind and every stream (possibly empty) whose field values
are all `NULLS`, the life cycle `begin_aggr`, `aggr_tuple` on each tuple, `get_result`
returns `SUCCESS` with the INT `0` for COUNT and with `NULLS` for MAX, MIN, SUM and AVG. -/
theorem aggregate_all_null (ops : ValueOps F D) (a : AggregationExpr) (s0 : AggrState F D)
    (S : List (Tuple F)) (out : Value F)
    (hS : ∀ t ∈ S, (field_value a.field_ t).attr_type = AttrType.NULLS) :
    (a.aggr_type_ = AggrFuncType.COUNT_AGGR_T →
      aggregate ops a s0 S out = (RC.SUCCESS, Value.int 0)) ∧
    (a.aggr_type_ = AggrFuncType.MAX_AGGR_T ∨ a.aggr_type_ = AggrFuncType.MIN_AGGR_T ∨
      a.aggr_type_ = AggrFuncType.SUM_AGGR_T ∨ a.aggr_type_ = AggrFuncType.AVG_AGGR_T →
      aggregate ops a s0 S out = (RC.SUCCESS, Value.nulls)) := by
  have hst := aggregate_of_no_value ops a s0 S hS
  constructor
  · intro hk
    unfold aggregate
    rw [hst]
    simp [get_result, begin_aggr, hk, wrap_int32]
  · intro hk
    have hc : a.aggr_type_ ≠ AggrFuncType.COUNT_AGGR_T := by
      rcases hk with h | h | h | h <;> rw [h] <;> decide
    unfold aggregate
    rw [hst]
    simp [get_result, begin_aggr, hc]

/-- Witness for C2: a stream of two rows whose column is `NULL`, under COUNT. -/
theorem aggregate_all_null_witness :
    (∀ t ∈ [cell_tuple (Value.nulls : Value ℚ), cell_tuple Value.nulls],
      (field_value (AggregationExpr.new sample_int_field AggrFuncType.COUNT_AGGR_T).field_ t).attr_type
        = AttrType.NULLS) ∧
    aggregate exact_ops (AggregationExpr.new sample_int_field AggrFuncType.COUNT_AGGR_T)
      sample_state [cell_tuple Value.nulls, cell_tuple Value.nulls] Value.undefined
      = (RC.SUCCESS, Value.int 0) :=
  have h : ∀ t ∈ [cell_tuple (Value.nulls : Value ℚ), cell_tuple Value.nulls],
      (field_value (AggregationExpr.new sample_int_field AggrFuncType.COUNT_AGGR_T).field_ t).attr_type
        = AttrType.NULLS := by
    intro t ht
    simp only [List.mem_cons, List.mem_singleton, List.not_mem_nil, or_false, or_self] at ht
    subst ht
    rfl
  ⟨h, (aggregate_all_null exact_ops _ sample_state _ Value.undefined h).1 rfl⟩

/-- C3: for every aggregator state of any kind and every tuple whose bound field value
is `NULLS`, `aggr_tuple` returns `SUCCESS` and leaves `i_val_`, `f_val_`, `value_` and
`has_record` unchanged. -/
theorem aggr_tuple_null_unchanged (ops : ValueOps F D) (a : AggregationExpr)
    (s : AggrState F D) (tuple : Tuple F)
    (h : (field_value a.field_ tuple).attr_type = AttrType.NULLS) :
    aggr_tuple ops a s tuple = (RC.SUCCESS, s) := by
  simp [aggr_tuple, h]

/-- Witness for C3: a row whose column is `NULL`, on a state that already has a record. -/
theorem aggr_tuple_null_unchanged_witness :
    (field_value (AggregationExpr.new sample_int_field AggrFuncType.MAX_AGGR_T).field_
      (cell_tuple (Value.nulls : Value ℚ))).attr_type = AttrType.NULLS ∧
    aggr_tuple exact_ops (AggregationExpr.new sample_int_field AggrFuncType.MAX_AGGR_T)
      sample_state (cell_tuple Value.nulls) = (RC.SUCCESS, sample_state) :=
  ⟨rfl, aggr_tuple_null_unchanged exact_ops _ sample_state _ rfl⟩

/-! ## Comparison -/

/-- C4: for every comparison operator and every left value, when the right operand value
has type `NULLS` the comparison succeeds, and its boolean result is true exactly when the
operator is IS and the left value is `NULLS`, or the operator is IS_NOT and the left value
is not `NULLS`; for the operators `= <= != < >= >` the result is false. The same holds for
`get_value` and `try_get_value` of a `ComparisonExpr` over two literals. -/
theorem compare_value_right_null (ops : ValueOps F D) (comp : CompOp) (left right : Value F)
    (h : right.attr_type = AttrType.NULLS) :
    ComparisonExpr.compare_value ops comp left right
      = (RC.SUCCESS, decide ((comp = CompOp.IS ∧ left.attr_type = AttrType.NULLS) ∨
          (comp = CompOp.IS_NOT ∧ left.attr_type ≠ AttrType.NULLS))) ∧
    (comp ≠ CompOp.IS → comp ≠ CompOp.IS_NOT →
      ComparisonExpr.compare_value ops comp left right = (RC.SUCCESS, false)) ∧
    (∀ (tuple : Tuple F) (out : Value F),
      get_value ops (ComparisonExpr comp (ValueExpr left) (ValueExpr right)) tuple out
        = some (RC.SUCCESS, Value.bool (decide
            ((comp = CompOp.IS ∧ left.attr_type = AttrType.NULLS) ∨
             (comp = CompOp.IS_NOT ∧ left.attr_type ≠ AttrType.NULLS))))) ∧
    (∀ out : Value F,
      try_get_value ops (ComparisonExpr comp (ValueExpr left) (ValueExpr right)) out
        = (RC.SUCCESS, Value.bool (decide
            ((comp = CompOp.IS ∧ left.attr_type = AttrType.NULLS) ∨
             (comp = CompOp.IS_NOT ∧ left.attr_type ≠ AttrType.NULLS))))) := by
  have key : ComparisonExpr.compare_value ops comp left right
      = (RC.SUCCESS, decide ((comp = CompOp.IS ∧ left.attr_type = AttrType.NULLS) ∨
          (comp = CompOp.IS_NOT ∧ left.attr_type ≠ AttrType.NULLS))) := by
    cases comp <;> simp [ComparisonExpr.compare_value, h]
  refine ⟨key, ?_, ?_, ?_⟩
  · intro h1 h2
    rw [key]
    simp [h1, h2]
  · intro tuple out
    simp only [get_value, key]
    simp [Value.set_boolean]
  · intro out
    simp only [try_get_value, key]
    simp [Value.set_boolean]

/-- Witness for C4: `1 IS NOT NULL` is true. -/
theorem compare_value_right_null_witness :
    (Value.nulls : Value ℚ).attr_type = AttrType.NULLS ∧
    ComparisonExpr.compare_value exact_ops CompOp.IS_NOT (Value.int 1) Value.nulls
      = (RC.SUCCESS, true) :=
  ⟨rfl, (compare_value_right_null exact_ops CompOp.IS_NOT (Value.int 1) Value.nulls rfl).1⟩

/-! ## Conjunction -/

/-- C5: for a non-empty ordered child list, `ConjunctionExpr::get_value` evaluates the
children left to right and stops at the first absorbing child. For AND, if the children
before a position all succeed with true and the child at that position succeeds with
false, the result is `SUCCESS` with false whatever children follow (their evaluation may
fail or be undefined), and the children after that position are not evaluated: the loop
evaluates exactly the children up to and including that position; for OR the same with
true and false exchanged; if every child succeeds without an absorbing value the result is
true for AND and false for OR. -/
theorem conjunction_short_circuit (ops : ValueOps F D) (tuple : Tuple F) (out : Value F) :
    (∀ (pre post : List (Expression F)) (c : Expression F) (tmp v : Value F),
      non_absorbing ops ConjunctionType.AND tuple pre Value.undefined = some tmp →
      get_value ops c tuple tmp = some (RC.SUCCESS, v) → v.get_boolean ops = false →
      get_value ops (ConjunctionExpr ConjunctionType.AND (pre ++ c :: post)) tuple out
        = some (RC.SUCCESS, Value.bool false) ∧
      children_evaluated ops ConjunctionType.AND tuple (pre ++ c :: post) Value.undefined
        = pre.length + 1) ∧
    (∀ (pre post : List (Expression F)) (c : Expression F) (tmp v : Value F),
      non_absorbing ops ConjunctionType.OR tuple pre Value.undefined = some tmp →
      get_value ops c tuple tmp = some (RC.SUCCESS, v) → v.get_boolean ops = true →
      get_value ops (ConjunctionExpr ConjunctionType.OR (pre ++ c :: post)) tuple out
        = some (RC.SUCCESS, Value.bool true) ∧
      children_evaluated ops ConjunctionType.OR tuple (pre ++ c :: post) Value.undefined
        = pre.length + 1) ∧
    (∀ (children : List (Expression F)) (tmp : Value F), children ≠ [] →
      non_absorbing ops ConjunctionType.AND tuple children Value.undefined = some tmp →
      get_value ops (ConjunctionExpr ConjunctionType.AND children) tuple out
        = some (RC.SUCCESS, Value.bool true)) ∧
    (∀ (children : List (Expression F)) (tmp : Value F), children ≠ [] →
      non_absorbing ops ConjunctionType.OR tuple children Value.undefined = some tmp →
      get_value ops (ConjunctionExpr ConjunctionType.OR children) tuple out
        = some (RC.SUCCESS, Value.bool false)) := by
  refine ⟨?_, ?_, ?_, ?_⟩
  · intro pre post c tmp v hpre hc hv
    have hne : (pre ++ c :: post).isEmpty = false := by cases pre <;> rfl
    constructor
    · simp only [get_value, hne, Bool.false_eq_true, if_false]
      rw [get_value_children_skip ops _ tuple pre (c :: post) _ tmp out hpre]
      simp [get_value_children, hc, hv, Value.set_boolean]
    · rw [children_evaluated_skip ops _ tuple pre (c :: post) _ tmp hpre]
      simp [children_evaluated, hc, hv]
  · intro pre post c tmp v hpre hc hv
    have hne : (pre ++ c :: post).isEmpty = false := by cases pre <;> rfl
    constructor
    · simp only [get_value, hne, Bool.false_eq_true, if_false]
      rw [get_value_children_skip ops _ tuple pre (c :: post) _ tmp out hpre]
      simp [get_value_children, hc, hv, Value.set_boolean]
    · rw [children_evaluated_skip ops _ tuple pre (c :: post) _ tmp hpre]
      simp [children_evaluated, hc, hv]
  · intro children tmp hne hall
    have hne2 : children.isEmpty = false := by cases children <;> simp_all
    simp only [get_value, hne2, Bool.false_eq_true, if_false]
    have := get_value_children_skip ops _ tuple children [] _ tmp out hall
    rw [List.append_nil] at this
    rw [this]
    simp [get_value_children, Value.set_boolean]
  · intro children tmp hne hall
    have hne2 : children.isEmpty = false := by cases children <;> simp_all
    simp only [get_value, hne2, Bool.false_eq_true, if_false]
    have := get_value_children_skip ops _ tuple children [] _ tmp out hall
    rw [List.append_nil] at this
    rw [this]
    simp [get_value_children, Value.set_boolean]

/-- Witness for C5: `true AND false AND (-1)` where the third child is a unary minus,
whose row evaluation is undefined; the conjunction is false without evaluating it. -/
theorem conjunction_short_circuit_witness :
    non_absorbing exact_ops ConjunctionType.AND (cell_tuple Value.nulls)
      [ValueExpr (Value.bool true)] Value.undefined = some (Value.bool true) ∧
    get_value exact_ops (ValueExpr (Value.bool false)) (cell_tuple Value.nulls)
      (Value.bool true) = some (RC.SUCCESS, Value.bool false) ∧
    get_value exact_ops (ArithmeticExpr ArithmeticType.NEGATIVE (ValueExpr (Value.int 1)) none)
      (cell_tuple Value.nulls) Value.undefined = none ∧
    get_value exact_ops (ConjunctionExpr ConjunctionType.AND
      ([ValueExpr (Value.bool true)] ++ ValueExpr (Value.bool false) ::
        [ArithmeticExpr ArithmeticType.NEGATIVE (ValueExpr (Value.int 1)) none]))
      (cell_tuple Value.nulls) Value.undefined = some (RC.SUCCESS, Value.bool false) :=
  ⟨by decide, by decide, by decide,
    ((conjunction_short_circuit exact_ops (cell_tuple Value.nulls) Value.undefined).1
      [ValueExpr (Value.bool true)]
      [ArithmeticExpr ArithmeticType.NEGATIVE (ValueExpr (Value.int 1)) none]
      (ValueExpr (Value.bool false)) (Value.bool true) (Value.bool false)
      (by decide) (by decide) rfl).1⟩

/-- C6 (amended): for every tuple, a `ConjunctionExpr` with an empty child list evaluates
with `SUCCESS` to true, for AND and for OR alike. -/
theorem conjunction_empty (ops : ValueOps F D) (ty : ConjunctionType) (tuple : Tuple F)
    (out : Value F) :
    get_value ops (ConjunctionExpr ty []) tuple out = some (RC.SUCCESS, Value.bool true) := by
  simp [get_value, Value.set_boolean]

/-- Counterexample for C6 as stated: `ConjunctionExpr(OR, [])` evaluates to true, not to
false. -/
theorem conjunction_empty_or_counterexample :
    get_value exact_ops (ConjunctionExpr ConjunctionType.OR []) (cell_tuple Value.nulls)
      Value.undefined = some (RC.SUCCESS, Value.bool true) ∧
    get_value exact_ops (ConjunctionExpr ConjunctionType.OR []) (cell_tuple Value.nulls)
      Value.undefined ≠ some (RC.SUCCESS, Value.bool false) := by
  refine ⟨by decide, by decide⟩

/-! ## Arithmetic and cast -/

/-- C7 (amended): for every integer `a`, the binary `ArithmeticExpr` DIV of the INT
literal `a` by the INT literal `0` has static type `FLOATS`; evaluating it (with
`get_value` or `try_get_value`) succeeds and yields the FLOAT-typed value
`numeric_limits<float>::max()`, given that the float `0` passes the `EPSILON` test. -/
theorem div_int_by_zero (ops : ValueOps F D) (a : Int) (tuple : Tuple F) (out : Value F)
    (h0 : ops.near_zero (ops.i2f 0) = true) :
    Expression.value_type (ArithmeticExpr ArithmeticType.DIV (ValueExpr (Value.int a))
      (some (ValueExpr (Value.int 0 : Value F)))) = AttrType.FLOATS ∧
    get_value ops (ArithmeticExpr ArithmeticType.DIV (ValueExpr (Value.int a))
      (some (ValueExpr (Value.int 0)))) tuple out = some (RC.SUCCESS, Value.float ops.flt_max) ∧
    try_get_value ops (ArithmeticExpr ArithmeticType.DIV (ValueExpr (Value.int a))
      (some (ValueExpr (Value.int 0)))) out = (RC.SUCCESS, Value.float ops.flt_max) := by
  refine ⟨by simp [Expression.value_type], ?_, ?_⟩
  · simp [get_value, ArithmeticExpr.calc_value, Expression.value_type, Value.get_float, h0,
      Value.set_float]
  · simp [try_get_value, ArithmeticExpr.calc_value, Expression.value_type, Value.get_float, h0,
      Value.set_float]

/-- Witness for C7: `7 / 0` under exact arithmetic, where `0` is within `EPSILON`. -/
theorem div_int_by_zero_witness :
    exact_ops.near_zero (exact_ops.i2f 0) = true ∧
    get_value exact_ops (ArithmeticExpr ArithmeticType.DIV (ValueExpr (Value.int 7))
      (some (ValueExpr (Value.int 0)))) (cell_tuple Value.nulls) Value.undefined
      = some (RC.SUCCESS, Value.float exact_ops.flt_max) :=
  have h : exact_ops.near_zero (exact_ops.i2f 0) = true := by simp [exact_ops]
  ⟨h, (div_int_by_zero exact_ops 7 (cell_tuple Value.nulls) Value.undefined h).2.1⟩

/-- Counterexample for C7 as stated: `1 / 0` over INT literals does not evaluate to the
INT-typed value `INT_MAX`; the result is FLOAT-typed. -/
theorem div_int_by_zero_counterexample :
    get_value exact_ops (ArithmeticExpr ArithmeticType.DIV (ValueExpr (Value.int 1))
      (some (ValueExpr (Value.int 0)))) (cell_tuple Value.nulls) Value.undefined
      ≠ some (RC.SUCCESS, Value.int INT_MAX) ∧
    ∃ x, get_value exact_ops (ArithmeticExpr ArithmeticType.DIV (ValueExpr (Value.int 1))
      (some (ValueExpr (Value.int 0)))) (cell_tuple Value.nulls) Value.undefined
      = some (RC.SUCCESS, Value.float x) := by
  have h : get_value exact_ops (ArithmeticExpr ArithmeticType.DIV (ValueExpr (Value.int 1))
      (some (ValueExpr (Value.int 0)))) (cell_tuple Value.nulls) Value.undefined
      = some (RC.SUCCESS, Value.float exact_ops.flt_max) := by
    simp [get_value, ArithmeticExpr.calc_value, Expression.value_type, Value.get_float, Value.set_float,
      exact_ops]
  rw [h]
  exact ⟨by simp, _, rfl⟩

/-- C8: `ArithmeticExpr::value_type` follows the promotion rule for all operand
expressions: a binary ADD, SUB or MUL of two `INTS` operands has type `INTS`; a binary DIV
has type `FLOATS` (whatever the operand types, so in particular when one or both are
`INTS`); every binary ADD, SUB, MUL or DIV whose operands are not both `INTS` has type
`FLOATS`; a unary node (right operand absent), as NEGATIVE is, has the static type of its
operand. -/
theorem value_type_promotion (op : ArithmeticType) (l r : Expression F) :
    ((op = ArithmeticType.ADD ∨ op = ArithmeticType.SUB ∨ op = ArithmeticType.MUL) →
      Expression.value_type l = AttrType.INTS → Expression.value_type r = AttrType.INTS →
      Expression.value_type (ArithmeticExpr op l (some r)) = AttrType.INTS) ∧
    (Expression.value_type l = AttrType.INTS ∨ Expression.value_type r = AttrType.INTS →
      Expression.value_type (ArithmeticExpr ArithmeticType.DIV l (some r)) = AttrType.FLOATS) ∧
    Expression.value_type (ArithmeticExpr ArithmeticType.DIV l (some r)) = AttrType.FLOATS ∧
    (¬ (Expression.value_type l = AttrType.INTS ∧ Expression.value_type r = AttrType.INTS) →
      Expression.value_type (ArithmeticExpr op l (some r)) = AttrType.FLOATS) ∧
    Expression.value_type (ArithmeticExpr ArithmeticType.NEGATIVE l none) = Expression.value_type l ∧
    Expression.value_type (ArithmeticExpr op l none) = Expression.value_type l := by
  refine ⟨?_, ?_, ?_, ?_, ?_, ?_⟩
  · intro hop hl hr
    rcases hop with rfl | rfl | rfl <;> simp [Expression.value_type, hl, hr]
  · intro _
    simp [Expression.value_type]
  · simp [Expression.value_type]
  · intro h
    simp only [Expression.value_type]
    rw [if_neg]
    intro hc
    exact h ⟨hc.1, hc.2.1⟩
  · simp [Expression.value_type]
  · simp [Expression.value_type]

/-- Witness for C8: `1 + 2` over INT literals has type `INTS`. -/
theorem value_type_promotion_witness :
    Expression.value_type (ValueExpr (Value.int 1 : Value ℚ)) = AttrType.INTS ∧
    Expression.value_type (ArithmeticExpr ArithmeticType.ADD (ValueExpr (Value.int 1 : Value ℚ))
      (some (ValueExpr (Value.int 2)))) = AttrType.INTS :=
  ⟨rfl, (value_type_promotion ArithmeticType.ADD (ValueExpr (Value.int 1 : Value ℚ))
    (ValueExpr (Value.int 2))).1 (Or.inl rfl) rfl rfl⟩

/-- C9: for every value `v` of any type (including `NULLS`, `CHARS` and `UNDEFINED`) and
every tuple, a `CastExpr` whose child is `ValueExpr(v)` and whose target type is the type
of `v` evaluates with `SUCCESS` to `v`, through `get_value` and through
`try_get_value`. -/
theorem cast_to_own_type (ops : ValueOps F D) (v : Value F) (tuple : Tuple F)
    (out : Value F) :
    get_value ops (CastExpr (ValueExpr v) v.attr_type) tuple out = some (RC.SUCCESS, v) ∧
    try_get_value ops (CastExpr (ValueExpr v) v.attr_type) out = (RC.SUCCESS, v) := by
  constructor
  · simp [get_value, CastExpr.cast]
  · simp [try_get_value, CastExpr.cast]

/-- C10 (amended): for every expression tree whose nodes are all `ArithmeticExpr`,
`ValueExpr` or `FieldExpr` nodes, in particular for such a tree rooted at an
`ArithmeticExpr`, `try_get_value` succeeds if and only if no `FieldExpr` occurs in the
tree; when a `FieldExpr` occurs, it fails with `INVALID_ARGUMENT`. -/
theorem arithmetic_try_get_value (ops : ValueOps F D) (e : Expression F) (out : Value F)
    (hnodes : arithmetic_only e = true) :
    ((try_get_value ops e out).1 = RC.SUCCESS ↔ contains_field_expr e = false) ∧
    (contains_field_expr e = true → (try_get_value ops e out).1 = RC.INVALID_ARGUMENT) := by
  have h := try_get_value_arithmetic_only ops e out hnodes
  by_cases hc : contains_field_expr e = true
  · simp [hc] at h
    simp [hc, h]
  · simp [hc] at h
    simp [hc, h]

/-- Witness for C10: `(1 + 2) * col` fails with `INVALID_ARGUMENT`. -/
theorem arithmetic_try_get_value_witness :
    arithmetic_only (ArithmeticExpr ArithmeticType.MUL
      (ArithmeticExpr ArithmeticType.ADD (ValueExpr (Value.int 1 : Value ℚ))
        (some (ValueExpr (Value.int 2))))
      (some (FieldExpr sample_int_field))) = true ∧
    (try_get_value exact_ops (ArithmeticExpr ArithmeticType.MUL
      (ArithmeticExpr ArithmeticType.ADD (ValueExpr (Value.int 1)) (some (ValueExpr (Value.int 2))))
      (some (FieldExpr sample_int_field))) Value.undefined).1 = RC.INVALID_ARGUMENT :=
  ⟨by decide, (arithmetic_try_get_value exact_ops (ArithmeticExpr ArithmeticType.MUL
      (ArithmeticExpr ArithmeticType.ADD (ValueExpr (Value.int 1)) (some (ValueExpr (Value.int 2))))
      (some (FieldExpr sample_int_field))) Value.undefined (by decide)).2 (by decide)⟩

/-- Counterexample for C10 as stated: in `((1 + 2) = 3) + 1` no `FieldExpr` occurs, yet
`try_get_value` fails with `INVALID_ARGUMENT`, because a comparison folds only when both
of its operands are literals. -/
theorem arithmetic_try_get_value_counterexample :
    contains_field_expr (ArithmeticExpr ArithmeticType.ADD
      (ComparisonExpr CompOp.EQUAL_TO
        (ArithmeticExpr ArithmeticType.ADD (ValueExpr (Value.int 1 : Value ℚ))
          (some (ValueExpr (Value.int 2))))
        (ValueExpr (Value.int 3)))
      (some (ValueExpr (Value.int 1)))) = false ∧
    (try_get_value exact_ops (ArithmeticExpr ArithmeticType.ADD
      (ComparisonExpr CompOp.EQUAL_TO
        (ArithmeticExpr ArithmeticType.ADD (ValueExpr (Value.int 1))
          (some (ValueExpr (Value.int 2))))
        (ValueExpr (Value.int 3)))
      (some (ValueExpr (Value.int 1)))) Value.undefined).1 = RC.INVALID_ARGUMENT := by
  refine ⟨by decide, by decide⟩

/-! ## Error propagation and display -/

/-- C11: for every `CastExpr`, `ComparisonExpr`, binary `ArithmeticExpr` and
`ConjunctionExpr` node and every tuple, if the first child (in left to right order) to
return a code other than `SUCCESS` returns `rc`, no earlier child of a conjunction having
short-circuited, then `get_value` of the node returns exactly `rc`, and no later child is
evaluated: the result is the same for every right operand, and the conjunction loop calls
`get_value` on the children up to the failing one only. -/
theorem first_failure_propagates (ops : ValueOps F D) (tuple : Tuple F) (value : Value F)
    (rc : RC) (hrc : rc ≠ RC.SUCCESS) :
    (∀ (child : Expression F) (cast_type : AttrType) (cell : Value F),
      get_value ops child tuple value = some (rc, cell) →
      get_value ops (CastExpr child cast_type) tuple value = some (rc, cell)) ∧
    (∀ (comp : CompOp) (left right : Expression F) (lv : Value F),
      get_value ops left tuple Value.undefined = some (rc, lv) →
      get_value ops (ComparisonExpr comp left right) tuple value = some (rc, value)) ∧
    (∀ (comp : CompOp) (left right : Expression F) (lv rv : Value F),
      get_value ops left tuple Value.undefined = some (RC.SUCCESS, lv) →
      get_value ops right tuple Value.undefined = some (rc, rv) →
      get_value ops (ComparisonExpr comp left right) tuple value = some (rc, value)) ∧
    (∀ (op : ArithmeticType) (left right : Expression F) (lv : Value F),
      get_value ops left tuple Value.undefined = some (rc, lv) →
      get_value ops (ArithmeticExpr op left (some right)) tuple value = some (rc, value)) ∧
    (∀ (op : ArithmeticType) (left right : Expression F) (lv rv : Value F),
      get_value ops left tuple Value.undefined = some (RC.SUCCESS, lv) →
      get_value ops right tuple Value.undefined = some (rc, rv) →
      get_value ops (ArithmeticExpr op left (some right)) tuple value = some (rc, value)) ∧
    (∀ (ty : ConjunctionType) (pre post : List (Expression F)) (c : Expression F)
        (tmp v : Value F),
      non_absorbing ops ty tuple pre Value.undefined = some tmp →
      get_value ops c tuple tmp = some (rc, v) →
      get_value ops (ConjunctionExpr ty (pre ++ c :: post)) tuple value = some (rc, value) ∧
      children_evaluated ops ty tuple (pre ++ c :: post) Value.undefined = pre.length + 1) := by
  refine ⟨?_, ?_, ?_, ?_, ?_, ?_⟩
  · intro child cast_type cell h
    simp [get_value, h, hrc]
  · intro comp left right lv h
    simp [get_value, h, hrc]
  · intro comp left right lv rv hl hr
    simp [get_value, hl, hr, hrc]
  · intro op left right lv h
    simp [get_value, h, hrc]
  · intro op left right lv rv hl hr
    simp [get_value, hl, hr, hrc]
  · intro ty pre post c tmp v hpre hc
    have hne : (pre ++ c :: post).isEmpty = false := by cases pre <;> rfl
    constructor
    · simp only [get_value, hne, Bool.false_eq_true, if_false]
      rw [get_value_children_skip ops _ tuple pre (c :: post) _ tmp value hpre]
      simp [get_value_children, hc, hrc]
    · rw [children_evaluated_skip ops _ tuple pre (c :: post) _ tmp hpre]
      simp [children_evaluated, hc, hrc]

/-- Witness for C11: `(col = 1) AND (-1)` on a tuple without cells; the lookup of `col`
fails with `NOTFOUND`, the conjunction returns `NOTFOUND` and the second child, whose
evaluation is undefined, is not evaluated. -/
theorem first_failure_propagates_witness :
    RC.NOTFOUND ≠ RC.SUCCESS ∧
    get_value exact_ops (ComparisonExpr CompOp.EQUAL_TO (FieldExpr sample_int_field)
      (ValueExpr (Value.int 1))) missing_tuple Value.undefined
      = some (RC.NOTFOUND, Value.undefined) ∧
    get_value exact_ops (ConjunctionExpr ConjunctionType.AND
      ([] ++ ComparisonExpr CompOp.EQUAL_TO (FieldExpr sample_int_field)
        (ValueExpr (Value.int 1)) ::
        [ArithmeticExpr ArithmeticType.NEGATIVE (ValueExpr (Value.int 1)) none]))
      missing_tuple Value.undefined = some (RC.NOTFOUND, Value.undefined) :=
  ⟨by decide, by decide,
    ((first_failure_propagates exact_ops missing_tuple Value.undefined RC.NOTFOUND
      (by decide)).2.2.2.2.2 ConjunctionType.AND []
      [ArithmeticExpr ArithmeticType.NEGATIVE (ValueExpr (Value.int 1)) none]
      (ComparisonExpr CompOp.EQUAL_TO (FieldExpr sample_int_field) (ValueExpr (Value.int 1)))
      Value.undefined Value.undefined (by decide) (by decide)).1⟩

/-- C12 (the code at the failing input): on a tuple whose lookup fails with `NOTFOUND`, a
COUNT aggregator in its initial state returns `SUCCESS`, sets `has_record` and counts the
row; the code of the lookup is lost. -/
theorem aggr_tuple_lookup_failure :
    FieldExpr.get_value (AggregationExpr.new sample_int_field AggrFuncType.COUNT_AGGR_T).field_
      (missing_tuple : Tuple ℚ) Value.undefined = (RC.NOTFOUND, Value.undefined) ∧
    (aggr_tuple exact_ops (AggregationExpr.new sample_int_field AggrFuncType.COUNT_AGGR_T)
      ⟨0, 0, Value.undefined, false⟩ missing_tuple).1 = RC.SUCCESS ∧
    (aggr_tuple exact_ops (AggregationExpr.new sample_int_field AggrFuncType.COUNT_AGGR_T)
      ⟨0, 0, Value.undefined, false⟩ missing_tuple).2.has_record = true ∧
    (aggr_tuple exact_ops (AggregationExpr.new sample_int_field AggrFuncType.COUNT_AGGR_T)
      ⟨0, 0, Value.undefined, false⟩ missing_tuple).2.i_val_ = 1 := by
  refine ⟨by decide, by decide, by decide, by decide⟩

/-- C13 (the code at the failing input): for MAX over the column `id` of table `t`, the
alias of `cell_spec(true)` is `MAX(tid)`, without a dot between the table name and the
column name, and not `MAX(t.id)`; the alias of `cell_spec(false)` is `MAX(id)`, and both
carry the table name `t` and the field name `id`. -/
theorem cell_spec_alias_without_dot :
    cell_spec (AggregationExpr.new sample_int_field AggrFuncType.MAX_AGGR_T) true
      = ⟨"t", "id", some "MAX(tid)"⟩ ∧
    (cell_spec (AggregationExpr.new sample_int_field AggrFuncType.MAX_AGGR_T) true).alias_
      ≠ some "MAX(t.id)" ∧
    cell_spec (AggregationExpr.new sample_int_field AggrFuncType.MAX_AGGR_T) false
      = ⟨"t", "id", some "MAX(id)"⟩ := by
  refine ⟨by decide, by decide, by decide⟩

/-! ## Plan generator -/

/-- C18: for every filter statement with filter units `u1..un`, the filter plan builder
returns `SUCCESS`; with no unit the produced operator is null; with at least one unit it
is a single Predicate operator without children whose expression is
`ConjunctionExpr(AND, [c1..cn])`, with exactly `n` children in unit order, where
`ci = ComparisonExpr(ui.comp, L, R)` and each side is `FieldExpr(field)` when the filter
object is an attribute and `ValueExpr(value)` otherwise. -/
theorem filter_plan (filter_stmt : FilterStmt F) (logical_operator : Option (LogicalOperator F)) :
    (create_plan_filter filter_stmt logical_operator).1 = RC.SUCCESS ∧
    (filter_stmt.filter_units = [] →
      (create_plan_filter filter_stmt logical_operator).2 = none) ∧
    (filter_stmt.filter_units ≠ [] →
      (create_plan_filter filter_stmt logical_operator).2 =
        some (LogicalOperator.mk (OperatorNode.PredicateLogicalOperator
          (ConjunctionExpr ConjunctionType.AND (filter_stmt.filter_units.map (fun u =>
            ComparisonExpr u.comp
              (if u.left.is_attr then FieldExpr u.left.field else ValueExpr u.left.value)
              (if u.right.is_attr then FieldExpr u.right.field
                else ValueExpr u.right.value))))) []) ∧
      (filter_stmt.filter_units.map (fun u =>
            ComparisonExpr u.comp
              (if u.left.is_attr then FieldExpr u.left.field else ValueExpr u.left.value)
              (if u.right.is_attr then FieldExpr u.right.field
                else ValueExpr u.right.value))).length = filter_stmt.filter_units.length) := by
  rw [create_plan_filter_eq]
  refine ⟨rfl, ?_, ?_⟩
  · intro h
    simp [h]
  · intro h
    have h2 : filter_stmt.filter_units.isEmpty = false := by
      cases hu : filter_stmt.filter_units with
      | nil => exact absurd hu h
      | cons u rest => rfl
    simp [h2, filter_obj_expr]

/-- Witness for C18: the filter `t.id = 1` yields `Predicate(AND [t.id = 1])`. -/
theorem filter_plan_witness :
    sample_filter.filter_units ≠ [] ∧
    (create_plan_filter sample_filter none).2 =
      some (LogicalOperator.mk (OperatorNode.PredicateLogicalOperator
        (ConjunctionExpr ConjunctionType.AND
          [ComparisonExpr CompOp.EQUAL_TO (FieldExpr sample_int_field)
            (ValueExpr (Value.int 1))])) []) :=
  ⟨by simp [sample_filter], ((filter_plan sample_filter none).2.2 (by simp [sample_filter])).1⟩

/-- C19: for every UPDATE statement and every DELETE statement, plan creation succeeds;
the leaf is `TableGet(table, fields, readonly=false)` whose fields are the fields of the
table at the indexes `sys_field_num .. field_num-1`, in order; the root is
`Update(table, value, field_name)`, respectively `Delete(table)`, with exactly one child;
that child is a Predicate whose only child is the TableGet when the WHERE filter has at
least one unit, and the TableGet itself when it has none. -/
theorem update_delete_plan (table : Table) (field_name : String) (value : Value F)
    (filter_stmt : FilterStmt F) (logical_operator : Option (LogicalOperator F)) :
    (filter_stmt.filter_units = [] →
      create_plan_update ⟨table, field_name, value, filter_stmt⟩ logical_operator =
        (RC.SUCCESS, some (LogicalOperator.mk
          (OperatorNode.UpdateLogicalOperator table value field_name)
          [some (LogicalOperator.mk (OperatorNode.TableGetLogicalOperator table
            ((table.table_meta.fields.drop table.table_meta.sys_field_num).map
              (Field.of_meta table)) false) [])])) ∧
      create_plan_delete ⟨table, filter_stmt⟩ logical_operator =
        (RC.SUCCESS, some (LogicalOperator.mk (OperatorNode.DeleteLogicalOperator table)
          [some (LogicalOperator.mk (OperatorNode.TableGetLogicalOperator table
            ((table.table_meta.fields.drop table.table_meta.sys_field_num).map
              (Field.of_meta table)) false) [])]))) ∧
    (filter_stmt.filter_units ≠ [] →
      ∃ expression,
        (create_plan_filter filter_stmt none).2 =
          some (LogicalOperator.mk (OperatorNode.PredicateLogicalOperator expression) []) ∧
        create_plan_update ⟨table, field_name, value, filter_stmt⟩ logical_operator =
          (RC.SUCCESS, some (LogicalOperator.mk
            (OperatorNode.UpdateLogicalOperator table value field_name)
            [some (LogicalOperator.mk (OperatorNode.PredicateLogicalOperator expression)
              [some (LogicalOperator.mk (OperatorNode.TableGetLogicalOperator table
                ((table.table_meta.fields.drop table.table_meta.sys_field_num).map
                  (Field.of_meta table)) false) [])])])) ∧
        create_plan_delete ⟨table, filter_stmt⟩ logical_operator =
          (RC.SUCCESS, some (LogicalOperator.mk (OperatorNode.DeleteLogicalOperator table)
            [some (LogicalOperator.mk (OperatorNode.PredicateLogicalOperator expression)
              [some (LogicalOperator.mk (OperatorNode.TableGetLogicalOperator table
                ((table.table_meta.fields.drop table.table_meta.sys_field_num).map
                  (Field.of_meta table)) false) [])])]))) := by
  constructor
  · intro h
    simp [create_plan_update, create_plan_delete, create_plan_filter_eq, h, table_fields_eq,
      LogicalOperator.new, LogicalOperator.add_child]
  · intro h
    have h2 : filter_stmt.filter_units.isEmpty = false := by
      cases hu : filter_stmt.filter_units with
      | nil => exact absurd hu h
      | cons u rest => rfl
    refine ⟨ConjunctionExpr ConjunctionType.AND (filter_stmt.filter_units.map (fun u =>
      ComparisonExpr u.comp (filter_obj_expr u.left) (filter_obj_expr u.right))), ?_, ?_, ?_⟩
    · rw [create_plan_filter_eq]
      simp only [h2, Bool.false_eq_true, if_false]
    · simp [create_plan_update, create_plan_filter_eq, h2, table_fields_eq,
        LogicalOperator.new, LogicalOperator.add_child]
    · simp [create_plan_delete, create_plan_filter_eq, h2, table_fields_eq,
        LogicalOperator.new, LogicalOperator.add_child]

/-- Witness for C19: `UPDATE t SET x = 5 WHERE id = 1` yields
`Update(Predicate(TableGet(t, [id, x], readonly=false)))`. -/
theorem update_delete_plan_witness :
    sample_filter.filter_units ≠ [] ∧
    (table_fields sample_table = [sample_int_field, sample_x_field]) ∧
    ∃ expression,
      (create_plan_filter sample_filter none).2 =
        some (LogicalOperator.mk (OperatorNode.PredicateLogicalOperator expression) []) ∧
      create_plan_update ⟨sample_table, "x", Value.int 5, sample_filter⟩ none =
        (RC.SUCCESS, some (LogicalOperator.mk
          (OperatorNode.UpdateLogicalOperator sample_table (Value.int 5) "x")
          [some (LogicalOperator.mk (OperatorNode.PredicateLogicalOperator expression)
            [some (LogicalOperator.mk (OperatorNode.TableGetLogicalOperator sample_table
              ((sample_table.table_meta.fields.drop sample_table.table_meta.sys_field_num).map
                (Field.of_meta sample_table)) false) [])])])) ∧
      create_plan_delete ⟨sample_table, sample_filter⟩ none =
        (RC.SUCCESS, some (LogicalOperator.mk (OperatorNode.DeleteLogicalOperator sample_table)
          [some (LogicalOperator.mk (OperatorNode.PredicateLogicalOperator expression)
            [some (LogicalOperator.mk (OperatorNode.TableGetLogicalOperator sample_table
              ((sample_table.table_meta.fields.drop sample_table.table_meta.sys_field_num).map
                (Field.of_meta sample_table)) false) [])])])) :=
  ⟨by simp [sample_filter], by decide,
    (update_delete_plan sample_table "x" (Value.int 5) sample_filter none).2
      (by simp [sample_filter])⟩

/-- C14: for every well-formed SELECT statement (every projected expression a `FieldExpr`
or an `AggregationExpr`, one join statement with a condition of at least one unit per
joined table when joins are explicit), the SELECT plan builder returns
`GROUP_BY_SELECT_INVALID` if and only if the group-by list is not empty and some
projected scalar field that belongs to one of the tables of the statement matches no
group field on both the table name and the field name; in every other case it returns
`SUCCESS` with a plan. In particular it returns `SUCCESS` when the group-by list is
empty. -/
theorem group_by_check (select_stmt : SelectStmt F)
    (logical_operator : Option (LogicalOperator F)) (hwf : well_formed select_stmt) :
    (select_stmt.groups ≠ [] ∧ unmatched_scalar_field select_stmt →
      create_plan_select select_stmt logical_operator
        = some (RC.GROUP_BY_SELECT_INVALID, logical_operator)) ∧
    (¬ (select_stmt.groups ≠ [] ∧ unmatched_scalar_field select_stmt) →
      ∃ plan, create_plan_select select_stmt logical_operator = some (RC.SUCCESS, some plan)) ∧
    (select_stmt.groups = [] →
      ∃ plan, create_plan_select select_stmt logical_operator = some (RC.SUCCESS, some plan)) := by
  obtain ⟨st, hloop, -, hqf, -, -, -⟩ :=
    select_table_loop_prefix select_stmt hwf select_stmt.tables [] (by simp)
  have hun := query_fields_unmatched select_stmt
  rw [← hqf] at hun
  have hsucc : ¬ (select_stmt.groups ≠ [] ∧ unmatched_scalar_field select_stmt) →
      ∃ plan, create_plan_select select_stmt logical_operator
        = some (RC.SUCCESS, some plan) := by
    intro hn
    have hg : select_stmt.groups.isEmpty = true ∨
        st.query_fields.all (in_group_by select_stmt.groups) = true := by
      by_cases he : select_stmt.groups = []
      · left; simp [he]
      · right
        have : ¬ unmatched_scalar_field select_stmt := fun hu => hn ⟨he, hu⟩
        rw [← hun] at this
        simpa using this
    rw [create_plan_select_ok select_stmt logical_operator st hloop hg]
    exact ⟨_, rfl⟩
  refine ⟨?_, hsucc, ?_⟩
  · rintro ⟨hne, hu⟩
    apply create_plan_select_group_invalid select_stmt logical_operator st hloop
    refine ⟨?_, hun.mpr hu⟩
    cases hgr : select_stmt.groups with
    | nil => exact absurd hgr hne
    | cons g r => rfl
  · intro he
    exact hsucc (fun h => h.1 he)

/-- Witness for C14: `SELECT id, SUM(x) FROM t GROUP BY x` is well formed, projects `id`
outside the group-by list, and is refused with `GROUP_BY_SELECT_INVALID`. -/
theorem group_by_check_witness :
    well_formed sample_group_select ∧
    (sample_group_select.groups ≠ [] ∧ unmatched_scalar_field sample_group_select) ∧
    create_plan_select sample_group_select none = some (RC.GROUP_BY_SELECT_INVALID, none) :=
  have hwf : well_formed sample_group_select := by
    simp [well_formed, sample_group_select, Expression.type]
  have hc : sample_group_select.groups ≠ [] ∧ unmatched_scalar_field sample_group_select := by
    refine ⟨by simp [sample_group_select], sample_int_field, by simp [sample_group_select],
      ⟨sample_table, by simp [sample_group_select], rfl⟩, ?_⟩
    intro g hg
    simp only [sample_group_select, List.mem_singleton] at hg
    subst hg
    decide
  ⟨hwf, hc, (group_by_check sample_group_select none hwf).1 hc⟩

/-- C15: for every SELECT statement for which plan creation succeeds, the plan is a linear
chain in the fixed stage order: the root is the Project operator carrying the projected
expressions; below it come, in this order, an Order operator iff the order-by list is not
empty, an Aggregation operator iff at least one projected aggregation expression was
collected, a Predicate operator iff the WHERE filter has at least one unit, and finally
the table operator built by the loop over the tables (present as soon as there is a
table); each stage that is present is the single child of the next present stage above
it. -/
theorem select_plan_chain (select_stmt : SelectStmt F)
    (logical_operator plan : Option (LogicalOperator F))
    (h : create_plan_select select_stmt logical_operator = some (RC.SUCCESS, plan)) :
    ∃ st : SelectLoop F,
      select_table_loop select_stmt select_stmt.tables ⟨none, 0, [], []⟩
        = some (Except.ok st) ∧
      (select_stmt.tables ≠ [] → ∃ oper, st.table_oper = some oper) ∧
      plan =
        stage_over (some (OperatorNode.ProjectLogicalOperator select_stmt.query_exprs))
          (stage_over
            (if select_stmt.orders.isEmpty then none
              else some (OperatorNode.OrderLogicalOperator select_stmt.orders))
            (stage_over
              (if st.aggr_exprs.isEmpty then none
                else some (OperatorNode.AggregationLogicalOperator st.aggr_exprs
                  st.query_fields select_stmt.groups))
              (stage_over
                (if select_stmt.filter_stmt.filter_units.isEmpty then none
                  else some (predicate_node select_stmt.filter_stmt))
                st.table_oper))) := by
  cases hloop : select_table_loop select_stmt select_stmt.tables ⟨none, 0, [], []⟩ with
  | none => simp [create_plan_select, hloop] at h
  | some r =>
    cases r with
    | error rc =>
      have := select_table_loop_error _ _ _ _ hloop
      simp [create_plan_select, hloop, this] at h
    | ok st =>
      refine ⟨st, rfl, fun hne => select_table_loop_ok _ _ _ _ (Or.inr hne) hloop, ?_⟩
      by_cases hg : select_stmt.groups.isEmpty = true ∨
          st.query_fields.all (in_group_by select_stmt.groups) = true
      · rw [create_plan_select_ok select_stmt logical_operator st hloop hg] at h
        simp only [Option.some.injEq, Prod.mk.injEq, true_and] at h
        exact h.symm
      · have hg' : select_stmt.groups.isEmpty = false ∧
            st.query_fields.all (in_group_by select_stmt.groups) = false := by
          push_neg at hg
          simpa using hg
        rw [create_plan_select_group_invalid select_stmt logical_operator st hloop hg'] at h
        simp at h

/-- Witness for C15: `SELECT id FROM t WHERE id = 1` yields
`Project(Predicate(TableGet(t)))`. -/
theorem select_plan_chain_witness :
    create_plan_select sample_where_select none = some (RC.SUCCESS,
      some (LogicalOperator.mk (OperatorNode.ProjectLogicalOperator [FieldExpr sample_int_field])
        [some (LogicalOperator.mk (predicate_node sample_filter)
          [some (LogicalOperator.mk (OperatorNode.TableGetLogicalOperator sample_table
            [sample_int_field] true) [])])])) ∧
    ∃ st : SelectLoop ℚ,
      select_table_loop sample_where_select sample_where_select.tables ⟨none, 0, [], []⟩
        = some (Except.ok st) ∧
      (sample_where_select.tables ≠ [] → ∃ oper, st.table_oper = some oper) ∧
      some (LogicalOperator.mk (OperatorNode.ProjectLogicalOperator [FieldExpr sample_int_field])
        [some (LogicalOperator.mk (predicate_node sample_filter)
          [some (LogicalOperator.mk (OperatorNode.TableGetLogicalOperator sample_table
            [sample_int_field] true) [])])]) =
        stage_over (some (OperatorNode.ProjectLogicalOperator sample_where_select.query_exprs))
          (stage_over
            (if sample_where_select.orders.isEmpty then none
              else some (OperatorNode.OrderLogicalOperator sample_where_select.orders))
            (stage_over
              (if st.aggr_exprs.isEmpty then none
                else some (OperatorNode.AggregationLogicalOperator st.aggr_exprs
                  st.query_fields sample_where_select.groups))
              (stage_over
                (if sample_where_select.filter_stmt.filter_units.isEmpty then none
                  else some (predicate_node sample_where_select.filter_stmt))
                st.table_oper))) :=
  ⟨rfl, select_plan_chain sample_where_select none _ rfl⟩

/-- C16: for every well-formed SELECT over the tables `t0..tn` in declared order, the
loop over the tables succeeds and its table operator is the left-deep fold `T_n`, where
`T_0 = TableGet(t0, readonly=true)` and, for `i >= 1`, `T_i` is
`Predicate(join_stmts[i-1].join_condition)` with the single child
`Join[T_(i-1), TableGet(t_i)]` when the statement has join statements, and
`Join[T_(i-1), TableGet(t_i)]` without a predicate when it has none. Every Join has
exactly two children, left the accumulated tree and right the new scan. -/
theorem table_operator_left_deep (select_stmt : SelectStmt F) (hwf : well_formed select_stmt)
    (hne : select_stmt.tables ≠ []) :
    ∃ (st : SelectLoop F) (oper : LogicalOperator F),
      select_table_loop select_stmt select_stmt.tables ⟨none, 0, [], []⟩
        = some (Except.ok st) ∧
      st.table_oper = some oper ∧
      left_deep select_stmt (select_stmt.tables.length - 1) = some oper := by
  obtain ⟨st, hloop, -, -, -, -, hcons⟩ :=
    select_table_loop_prefix select_stmt hwf select_stmt.tables [] (by simp)
  obtain ⟨hld, oper, hoper⟩ := hcons hne
  exact ⟨st, oper, hloop, hoper, by rw [← hld, hoper]⟩

/-- Witness for C16: `SELECT t.id FROM t INNER JOIN u ON t.id = u.id` has the table
operator `Predicate(t.id = u.id)` over `Join[TableGet(t), TableGet(u)]`. -/
theorem table_operator_left_deep_witness :
    well_formed sample_join_select ∧ sample_join_select.tables ≠ [] ∧
    left_deep sample_join_select (sample_join_select.tables.length - 1) =
      some (LogicalOperator.mk (predicate_node sample_join_filter)
        [some (LogicalOperator.mk OperatorNode.JoinLogicalOperator
          [some (LogicalOperator.mk (OperatorNode.TableGetLogicalOperator sample_table
              [sample_int_field] true) []),
            some (LogicalOperator.mk (OperatorNode.TableGetLogicalOperator sample_table_u
              [] true) [])])]) ∧
    ∃ (st : SelectLoop ℚ) (oper : LogicalOperator ℚ),
      select_table_loop sample_join_select sample_join_select.tables ⟨none, 0, [], []⟩
        = some (Except.ok st) ∧
      st.table_oper = some oper ∧
      left_deep sample_join_select (sample_join_select.tables.length - 1) = some oper :=
  have hwf : well_formed sample_join_select := by
    simp [well_formed, sample_join_select, Expression.type, sample_join_filter]
  ⟨hwf, by simp [sample_join_select], rfl,
    table_operator_left_deep sample_join_select hwf (by simp [sample_join_select])⟩

/-- C17: for every SELECT statement with at least one table whose projection list
contains an expression that is neither a `FieldExpr` nor an `AggregationExpr`, the SELECT
plan builder returns `INTERNAL` and leaves the output operator as it was, whatever the
group-by, order-by, join and WHERE parts are. -/
theorem select_projection_internal (select_stmt : SelectStmt F)
    (logical_operator : Option (LogicalOperator F))
    (hne : select_stmt.tables ≠ [])
    (hbad : ∃ expr ∈ select_stmt.query_exprs,
      expr.type ≠ ExprType.FIELD ∧ expr.type ≠ ExprType.AGGREGATION) :
    create_plan_select select_stmt logical_operator = some (RC.INTERNAL, logical_operator) ∧
    create (Stmt.SELECT select_stmt) logical_operator
      = some (RC.INTERNAL, logical_operator) := by
  have key : create_plan_select select_stmt logical_operator
      = some (RC.INTERNAL, logical_operator) := by
    unfold create_plan_select
    cases htab : select_stmt.tables with
    | nil => exact absurd htab hne
    | cons t rest =>
      simp [select_table_loop, select_table_step,
        collect_query_exprs_internal t select_stmt.query_exprs hbad]
  exact ⟨key, by simpa [create] using key⟩

/-- Witness for C17: `SELECT 1 FROM t` is refused with `INTERNAL`. -/
theorem select_projection_internal_witness :
    sample_literal_select.tables ≠ [] ∧
    (∃ expr ∈ sample_literal_select.query_exprs,
      expr.type ≠ ExprType.FIELD ∧ expr.type ≠ ExprType.AGGREGATION) ∧
    create_plan_select sample_literal_select none = some (RC.INTERNAL, none) :=
  have h1 : sample_literal_select.tables ≠ [] := by simp [sample_literal_select]
  have h2 : ∃ expr ∈ sample_literal_select.query_exprs,
      expr.type ≠ ExprType.FIELD ∧ expr.type ≠ ExprType.AGGREGATION :=
    ⟨ValueExpr (Value.int 1), by simp [sample_literal_select], by decide, by decide⟩
  ⟨h1, h2, (select_projection_internal sample_literal_select none h1 h2).1⟩

/-- C20: for every EXPLAIN statement with child statement `c`: if `create(c)` succeeds
with plan `p`, then `create(EXPLAIN c)` succeeds and its root is an Explain operator whose
only child is `p`; if `create(c)` fails with code `rc`, for instance `UNIMPLENMENT`
because the kind of `c` is none of CALC, SELECT, INSERT, UPDATE, DELETE, EXPLAIN, then
`create(EXPLAIN c)` returns exactly `rc` and leaves the output operator as it was, without
an Explain operator. -/
theorem explain_plan (child : Stmt F) (logical_operator : Option (LogicalOperator F)) :
    (∀ p, create child none = some (RC.SUCCESS, p) →
      ∃ oper, p = some oper ∧
        create (Stmt.EXPLAIN (ExplainStmt.mk child)) logical_operator =
          some (RC.SUCCESS,
            some (LogicalOperator.mk OperatorNode.ExplainLogicalOperator [some oper]))) ∧
    (∀ rc p, rc ≠ RC.SUCCESS → create child none = some (rc, p) →
      create (Stmt.EXPLAIN (ExplainStmt.mk child)) logical_operator
        = some (rc, logical_operator)) ∧
    (∀ kind, create (Stmt.OTHER kind : Stmt F) none = some (RC.UNIMPLENMENT, none) ∧
      create (Stmt.EXPLAIN (ExplainStmt.mk (Stmt.OTHER kind))) logical_operator
        = some (RC.UNIMPLENMENT, logical_operator)) := by
  refine ⟨?_, ?_, ?_⟩
  · intro p hp
    obtain ⟨oper, rfl⟩ := create_success_some child none p hp
    exact ⟨oper, rfl, by
      simp [create, create_plan_explain, hp, LogicalOperator.new, LogicalOperator.add_child]⟩
  · intro rc p hrc hp
    simp [create, create_plan_explain, hp, hrc]
  · intro kind
    exact ⟨by simp [create], by simp [create, create_plan_explain]⟩

/-- Witness for C20: `EXPLAIN` of a CALC statement is `Explain(Calc)`, and `EXPLAIN` of the
refused `SELECT id, SUM(x) FROM t GROUP BY x` returns `GROUP_BY_SELECT_INVALID`. -/
theorem explain_plan_witness :
    create (Stmt.CALC ⟨[ValueExpr (Value.int 1 : Value ℚ)]⟩) none = some (RC.SUCCESS,
      some (LogicalOperator.mk (OperatorNode.CalcLogicalOperator [ValueExpr (Value.int 1)]) [])) ∧
    (∃ oper,
      some (LogicalOperator.mk (OperatorNode.CalcLogicalOperator
        [ValueExpr (Value.int 1 : Value ℚ)]) []) = some oper ∧
      create (Stmt.EXPLAIN (ExplainStmt.mk (Stmt.CALC ⟨[ValueExpr (Value.int 1 : Value ℚ)]⟩))) none =
        some (RC.SUCCESS,
          some (LogicalOperator.mk OperatorNode.ExplainLogicalOperator [some oper]))) ∧
    create (Stmt.SELECT sample_group_select) none = some (RC.GROUP_BY_SELECT_INVALID, none) ∧
    create (Stmt.EXPLAIN (ExplainStmt.mk (Stmt.SELECT sample_group_select))) none
      = some (RC.GROUP_BY_SELECT_INVALID, none) :=
  ⟨rfl,
    (explain_plan (Stmt.CALC ⟨[ValueExpr (Value.int 1 : Value ℚ)]⟩) none).1 _ rfl,
    rfl,
    (explain_plan (Stmt.SELECT sample_group_select) none).2.1 RC.GROUP_BY_SELECT_INVALID none
      (by decide) rfl⟩

/-! ## Aggregation over the rows of the scenario -/

/-- C21 (amended): on the rows `(id = 1, score = x)`, `(id = 2, score = NULL)`,
`(id = 3, score = y)`, the life cycle `begin_aggr`, `aggr_tuple` on the three rows in
order, `get_result` returns `SUCCESS` with the INT `3` for a COUNT aggregator bound to `id`
(the three ids are not `NULLS`) and `SUCCESS` with the FLOAT `(0 + x + y) / 2`, computed in
double precision and narrowed, for an AVG aggregator bound to `score` (the `NULLS` score
is skipped); for `x = 10.0` and `y = 20.0` in exact arithmetic AVG yields the FLOAT `15`,
so the pair is `(3, 15.0)`. -/
theorem count_avg_scenario (ops : ValueOps F D) (x y : F) (s0 s1 : AggrState F D)
    (out0 out1 : Value F) :
    aggregate ops (AggregationExpr.new sample_int_field AggrFuncType.COUNT_AGGR_T) s0
      (scenario_rows x y) out0 = (RC.SUCCESS, Value.int 3) ∧
    aggregate ops (AggregationExpr.new sample_float_field AggrFuncType.AVG_AGGR_T) s1
      (scenario_rows x y) out1
      = (RC.SUCCESS, Value.float (ops.narrow (ops.ddiv
          (ops.dadd (ops.dadd (ops.i2d 0) (ops.widen x)) (ops.widen y)) (ops.i2d 2)))) ∧
    aggregate exact_ops (AggregationExpr.new sample_float_field AggrFuncType.AVG_AGGR_T)
      sample_state (scenario_rows 10 20) Value.undefined = (RC.SUCCESS, Value.float 15) := by
  have h1 : wrap_int64 1 = 1 := by decide
  have h2 : wrap_int64 2 = 2 := by decide
  have h3 : wrap_int64 3 = 3 := by decide
  have h4 : wrap_int32 3 = 3 := by decide
  refine ⟨?_, ?_, ?_⟩
  · simp [aggregate, aggr_tuples, aggr_tuple, scenario_rows, field_value_row_id, begin_aggr,
      AggregationExpr.new, aggr_func_, count_aggr_func, get_result, Value.attr_type, h1, h2, h3, h4]
  · simp [aggregate, aggr_tuples, aggr_tuple, scenario_rows, field_value_row_score, begin_aggr,
      AggregationExpr.new, aggr_func_, avg_aggr_func, get_result, Value.attr_type, Value.get_float,
      h1, h2]
  · simp [aggregate, aggr_tuples, aggr_tuple, scenario_rows, field_value_row_score, begin_aggr,
      AggregationExpr.new, aggr_func_, avg_aggr_func, get_result, Value.attr_type, Value.get_float,
      h1, h2, exact_ops]
    norm_num

/-- Counterexample for C21 as stated: on the rows `(1, 10.0)`, `(2, NULL)`, `(3, 20.0)`
COUNT bound to `id` yields the INT `3`, not the INT `2`. -/
theorem count_id_counterexample :
    aggregate exact_ops (AggregationExpr.new sample_int_field AggrFuncType.COUNT_AGGR_T)
      sample_state (scenario_rows 10 20) Value.undefined = (RC.SUCCESS, Value.int 3) ∧
    aggregate exact_ops (AggregationExpr.new sample_int_field AggrFuncType.COUNT_AGGR_T)
      sample_state (scenario_rows 10 20) Value.undefined ≠ (RC.SUCCESS, Value.int 2) := by
  refine ⟨by decide, by decide⟩

/-- C22: for an AVG aggregator over a field of any type and every stream of tuples, every
`aggr_tuple` call returns `SUCCESS` (the constructor fixes `attr_type_ = FLOATS`, so the
accumulator never takes its `INTERNAL` branch), and in the state reached from `begin_aggr`
by `aggr_tuple` on each tuple `i_val_` is the 64 bit counter of the field values that are
not `NULLS` and `has_record` holds exactly when there is at least one such value. Hence,
short of an overflow of the 64 bit counter (fewer than `2^63` values that are not
`NULLS`), `has_record = true` implies `i_val_ >= 1`, the guard `i_val_ == 0` of
`get_result` is not taken and `get_result` returns `f_val_ / i_val_` as a FLOAT. -/
theorem avg_guard_unreachable (ops : ValueOps F D) (field : Field) (s0 : AggrState F D)
    (S : List (Tuple F)) (out : Value F) :
    (∀ (s : AggrState F D) (tuple : Tuple F),
      (aggr_tuple ops (AggregationExpr.new field AggrFuncType.AVG_AGGR_T) s tuple).1
        = RC.SUCCESS) ∧
    (aggr_tuples ops (AggregationExpr.new field AggrFuncType.AVG_AGGR_T)
        (begin_aggr ops s0).2 S).i_val_ = wrap_int64 (non_null_values field S).length ∧
    ((aggr_tuples ops (AggregationExpr.new field AggrFuncType.AVG_AGGR_T)
        (begin_aggr ops s0).2 S).has_record = true ↔ 1 ≤ (non_null_values field S).length) ∧
    ((non_null_values field S).length < 2 ^ 63 →
      (aggr_tuples ops (AggregationExpr.new field AggrFuncType.AVG_AGGR_T)
        (begin_aggr ops s0).2 S).has_record = true →
      1 ≤ (aggr_tuples ops (AggregationExpr.new field AggrFuncType.AVG_AGGR_T)
        (begin_aggr ops s0).2 S).i_val_ ∧
      get_result ops (AggregationExpr.new field AggrFuncType.AVG_AGGR_T)
        (aggr_tuples ops (AggregationExpr.new field AggrFuncType.AVG_AGGR_T)
          (begin_aggr ops s0).2 S) out
        = (RC.SUCCESS, Value.float (ops.narrow (ops.ddiv
            (aggr_tuples ops (AggregationExpr.new field AggrFuncType.AVG_AGGR_T)
              (begin_aggr ops s0).2 S).f_val_
            (ops.i2d (aggr_tuples ops (AggregationExpr.new field AggrFuncType.AVG_AGGR_T)
              (begin_aggr ops s0).2 S).i_val_))))) := by
  have hz : (0 : Int) = wrap_int64 0 := by decide
  have hf : (AggregationExpr.new field AggrFuncType.AVG_AGGR_T).field_ = field := rfl
  have hi : (aggr_tuples ops (AggregationExpr.new field AggrFuncType.AVG_AGGR_T)
      (begin_aggr ops s0).2 S).i_val_ = wrap_int64 (non_null_values field S).length := by
    rw [aggr_tuples_eq_foldl, hf, foldl_avg_i_val ops _ rfl rfl _ _ 0 hz, zero_add]
  have hr : (aggr_tuples ops (AggregationExpr.new field AggrFuncType.AVG_AGGR_T)
      (begin_aggr ops s0).2 S).has_record = true ↔ 1 ≤ (non_null_values field S).length := by
    rw [aggr_tuples_eq_foldl, hf]
    cases hvs : non_null_values field S with
    | nil => simp [begin_aggr]
    | cons v vs =>
      rw [foldl_has_record _ _ _ _ (List.cons_ne_nil v vs)]
      simp
  refine ⟨?_, hi, hr, ?_⟩
  · intro s tuple
    simp only [aggr_tuple]
    split_ifs <;> simp [aggr_func_, avg_aggr_func, AggregationExpr.new]
  · intro hlen hrec
    have hpos : 1 ≤ (non_null_values field S).length := hr.mp hrec
    have hval : (aggr_tuples ops (AggregationExpr.new field AggrFuncType.AVG_AGGR_T)
        (begin_aggr ops s0).2 S).i_val_ = ((non_null_values field S).length : Int) := by
      rw [hi, wrap_int64_of_small _ hlen]
    refine ⟨by rw [hval]; exact_mod_cast hpos, ?_⟩
    have hne : (aggr_tuples ops (AggregationExpr.new field AggrFuncType.AVG_AGGR_T)
        (begin_aggr ops s0).2 S).i_val_ ≠ 0 := by
      rw [hval]; omega
    have hk : (AggregationExpr.new field AggrFuncType.AVG_AGGR_T).aggr_type_
        = AggrFuncType.AVG_AGGR_T := rfl
    simp only [get_result, hrec, hk, hne, if_true, if_false]

/-- Witness for C22: the rows `(1, 10.0)`, `(2, NULL)`, `(3, 20.0)` under AVG bound to
`score`; two values are counted, `has_record` holds and `i_val_ >= 1`. -/
theorem avg_guard_unreachable_witness :
    (non_null_values sample_float_field (scenario_rows (10 : ℚ) 20)).length < 2 ^ 63 ∧
    (aggr_tuples exact_ops (AggregationExpr.new sample_float_field AggrFuncType.AVG_AGGR_T)
      (begin_aggr exact_ops sample_state).2 (scenario_rows 10 20)).has_record = true ∧
    1 ≤ (aggr_tuples exact_ops (AggregationExpr.new sample_float_field AggrFuncType.AVG_AGGR_T)
      (begin_aggr exact_ops sample_state).2 (scenario_rows 10 20)).i_val_ :=
  ⟨by decide, by decide,
    ((avg_guard_unreachable exact_ops sample_float_field sample_state (scenario_rows 10 20)
      Value.undefined).2.2.2 (by decide) (by decide)).1⟩

/-! ## IS and IS_NOT against an operand that is not NULL -/

/-- C23: for the operators IS and IS_NOT, every left value (including `NULLS`) and every
right value whose type is not `NULLS`, `compare_value` returns `INTERNAL` (with the result
`false`); `get_value` of the `ComparisonExpr`, over any two operands that evaluate with
success, the right one to a value that is not `NULLS`, returns `INTERNAL` and leaves the
output untouched, and so do `get_value` and `try_get_value` over two literals. The
comparison with IS or IS_NOT succeeds if and only if the right value is `NULLS`. -/
theorem is_with_non_null_right (ops : ValueOps F D) (comp : CompOp)
    (hcomp : comp = CompOp.IS ∨ comp = CompOp.IS_NOT) :
    (∀ left right : Value F, right.attr_type ≠ AttrType.NULLS →
      ComparisonExpr.compare_value ops comp left right = (RC.INTERNAL, false)) ∧
    (∀ (l r : Expression F) (tuple : Tuple F) (out lv rv : Value F),
      get_value ops l tuple Value.undefined = some (RC.SUCCESS, lv) →
      get_value ops r tuple Value.undefined = some (RC.SUCCESS, rv) →
      rv.attr_type ≠ AttrType.NULLS →
      get_value ops (ComparisonExpr comp l r) tuple out = some (RC.INTERNAL, out)) ∧
    (∀ (left right : Value F) (tuple : Tuple F) (out : Value F),
      right.attr_type ≠ AttrType.NULLS →
      get_value ops (ComparisonExpr comp (ValueExpr left) (ValueExpr right)) tuple out
        = some (RC.INTERNAL, out) ∧
      try_get_value ops (ComparisonExpr comp (ValueExpr left) (ValueExpr right)) out
        = (RC.INTERNAL, out)) ∧
    (∀ left right : Value F,
      (ComparisonExpr.compare_value ops comp left right).1 = RC.SUCCESS ↔
        right.attr_type = AttrType.NULLS) := by
  have key : ∀ left right : Value F, right.attr_type ≠ AttrType.NULLS →
      ComparisonExpr.compare_value ops comp left right = (RC.INTERNAL, false) := by
    intro left right h
    rcases hcomp with rfl | rfl <;> simp [ComparisonExpr.compare_value, h]
  refine ⟨key, ?_, ?_, ?_⟩
  · intro l r tuple out lv rv hl hr h
    simp [get_value, hl, hr, key lv rv h]
  · intro left right tuple out h
    constructor
    · simp [get_value, key left right h]
    · simp [try_get_value, key left right h]
  · intro left right
    by_cases h : right.attr_type = AttrType.NULLS
    · rcases hcomp with rfl | rfl <;> simp [ComparisonExpr.compare_value, h]
    · simp [key left right h, h]

/-- Witness for C23: `NULL IS 1` returns `INTERNAL`. -/
theorem is_with_non_null_right_witness :
    (CompOp.IS = CompOp.IS ∨ CompOp.IS = CompOp.IS_NOT) ∧
    (Value.int 1 : Value ℚ).attr_type ≠ AttrType.NULLS ∧
    ComparisonExpr.compare_value exact_ops CompOp.IS (Value.nulls : Value ℚ) (Value.int 1)
      = (RC.INTERNAL, false) :=
  ⟨Or.inl rfl, by decide,
    (is_with_non_null_right exact_ops CompOp.IS (Or.inl rfl)).1 Value.nulls (Value.int 1)
      (by decide)⟩

/-! ## Constant arithmetic: the row path against the folding path -/

/-- C24 (the code on constant arithmetic trees): for every tree whose leaves are all
`ValueExpr` literals and whose inner nodes are all `ArithmeticExpr` nodes, and every
tuple, `try_get_value` succeeds; when every arithmetic node has its right operand,
`get_value` is defined and returns the same code and the same value as `try_get_value`;
when some arithmetic node has no right operand (unary NEGATIVE), `get_value` is undefined:
it dereferences the null `right_`, which `try_get_value` guards with `if (right_)`. -/
theorem unary_get_value_undefined (ops : ValueOps F D) (e : Expression F) (tuple : Tuple F)
    (out : Value F) (h : literal_arithmetic e = true) :
    (try_get_value ops e out).1 = RC.SUCCESS ∧
    (contains_unary e = false → get_value ops e tuple out = some (try_get_value ops e out)) ∧
    (contains_unary e = true → get_value ops e tuple out = none) := by
  have key := get_value_literal_arithmetic ops tuple e out h
  refine ⟨key.1, ?_, ?_⟩
  · intro hu
    rw [key.2]; simp [hu]
  · intro hu
    rw [key.2]; simp [hu]

/-- Witness for C24: for `-1`, the unary NEGATIVE of the literal `1`, `try_get_value`
returns `SUCCESS` with the INT `-1` while `get_value` is undefined on any tuple. -/
theorem unary_get_value_undefined_witness :
    literal_arithmetic (ArithmeticExpr ArithmeticType.NEGATIVE
      (ValueExpr (Value.int 1 : Value ℚ)) none) = true ∧
    try_get_value exact_ops (ArithmeticExpr ArithmeticType.NEGATIVE
      (ValueExpr (Value.int 1)) none) Value.undefined = (RC.SUCCESS, Value.int (-1)) ∧
    get_value exact_ops (ArithmeticExpr ArithmeticType.NEGATIVE
      (ValueExpr (Value.int 1)) none) (cell_tuple (Value.int 7)) Value.undefined = none :=
  ⟨by decide, by decide,
    (unary_get_value_undefined exact_ops (ArithmeticExpr ArithmeticType.NEGATIVE
      (ValueExpr (Value.int 1)) none) (cell_tuple (Value.int 7)) Value.undefined
      (by decide)).2.2 (by decide)⟩

end Claims

end Miniob
